import Mathlib

/-!
# Excel-Analytics: access control, role assignment, history ledger and admin routes

A shallow embedding of the server side of the Excel-Analytics application
(`server/controllers/authController.js`, `server/controllers/googleAuthController.js`,
`server/controllers/uploadController.js`, `server/middleware/authMiddleware.js`,
`server/models/*.js`, `server/routes/adminRoutes.js`, `server/routes/historyRoutes.js`,
`server/routes/uploadRoutes.js`, the error handler of `server/server.js`) and of the
client code that the server is compared with (`filteredUsers` of
`client/src/pages/AdminPanel.jsx`, `saveHistory` of
`client/src/components/ChartVisualizer.jsx`, `createDataBars` of
`client/src/components/ThreeJsChart.jsx`).

Conventions of the embedding.

* The MongoDB collections are an in-memory store `Db`; collection order is insertion
  order, `_id`s are natural numbers drawn from a counter, and the store is always
  reachable.
* External libraries (`bcryptjs`, `jsonwebtoken`) are uninterpreted functions collected
  in `Ext`; every theorem holds for all of them.
* Values read from a JSON request body that the code only compares with `===` / `!==`
  (`role`, `requestedRole`, `adminCode`) are `JsVal`s; the fields that are handed on to
  the libraries (`name`, `email`, `password`, `uid`, `photoURL`) are absent or a string.
* `process.env.X` is `Option String` (`none` when the variable is unset).
* A `:id` path parameter is a string; `IdCodec` holds the driver's conversion between
  strings and `_id`s, uninterpreted like `Ext`.
* `.sort({ createdAt: -1 })` is a stable sort: entries with equal `createdAt` keep their
  collection order.
* The spreadsheet reader (`xlsx`) is a function parameter of the upload handlers.
* The regular-expression engine behind `$regex` is a parameter (`RegexEngine`), and so are
  the reading `Number(s)` of a text cell, `String.prototype.toLowerCase` of the browser,
  the local-time calendar behind `Date.prototype.setDate` (`LocalCalendar`), and what the
  runtime knows of the objects and large numbers of a request body (`JsRuntime`); the
  quotient of two counts is the exact IEEE double quotient.
* A sequence of requests is a list of `Op`s run one after the other on the store.
* Handlers behind `authMiddleware` take the account it stored in `req.user`.
-/

set_option autoImplicit false

namespace ExcelAnalytics

/-! ## JavaScript values -/

/-- A JavaScript value as it can appear in a parsed JSON body (`undefined` for a missing
field); `obj n` stands for the `n`-th object or array allocated for the body. -/
inductive JsVal where
  | undefined
  | null
  | bool (b : Bool)
  | num (n : Int)
  | str (s : String)
  | obj (ref : Nat)
  deriving DecidableEq, Repr

/-- The value of `process.env.X`: a string, or `undefined` when unset. -/
def envVal : Option String → JsVal
  | none => JsVal.undefined
  | some s => JsVal.str s

/-- JavaScript truthiness of a value. -/
def JsVal.truthy : JsVal → Bool
  | JsVal.undefined => false
  | JsVal.null => false
  | JsVal.bool b => b
  | JsVal.num n => n != 0
  | JsVal.str s => s != ""
  | JsVal.obj _ => true

/-- Truthiness of a string-or-null field (`!user.authProvider`). -/
def truthyStr : Option String → Bool
  | none => false
  | some s => s != ""

/-- Model of `String.prototype.replace(pat, rep)` with a string pattern, on characters: only the
first occurrence is replaced. -/
def replaceFirstChars (pat rep : List Char) : List Char → List Char
  | [] => if pat = [] then rep else []
  | c :: cs =>
    if pat.isPrefixOf (c :: cs) then rep ++ (c :: cs).drop pat.length
    else c :: replaceFirstChars pat rep cs

/-- Model of `s.replace(pat, rep)` for string `pat`. -/
def replaceFirst (s pat rep : String) : String :=
  String.mk (replaceFirstChars pat.data rep.data s.data)

/-! ## Data model (`models/User.js`, `models/History.js`, `models/Upload.js`) -/

/-- A stored `User` document. -/
structure User where
  id : Nat
  name : String
  email : String
  password : Option String
  status : String
  role : String
  authProvider : Option String
  providerUID : Option String
  photoURL : Option String
  createdAt : Nat
  updatedAt : Nat
  deriving DecidableEq, Repr

/-- A stored `History` document. -/
structure History where
  id : Nat
  user : Nat
  fileName : String
  xAxis : String
  yAxis : String
  chartType : String
  createdAt : Nat
  deriving DecidableEq, Repr

/-- A scalar cell value of a parsed sheet row. -/
inductive Cell where
  | text (s : String)
  | number (n : Int)
  | boolean (b : Bool)
  deriving DecidableEq, Repr

/-- A stored `Upload` document. -/
structure Upload where
  id : Nat
  filename : Option String
  originalName : Option String
  data : List (List (String × Cell))
  uploadedBy : Option Nat
  createdAt : Nat
  updatedAt : Nat
  deriving DecidableEq, Repr

/-- The persistent store: the three collections and the `_id` counter. -/
structure Db where
  users : List User
  histories : List History
  uploads : List Upload
  nextId : Nat
  deriving DecidableEq, Repr

/-- The fields handed to `User.create`. -/
structure NewUser where
  name : Option String
  email : Option String
  password : Option String
  role : Option String
  authProvider : Option String
  providerUID : Option String
  photoURL : Option String
  deriving DecidableEq, Repr

/-- Mongoose `required: true` on a `String` path: present and non-empty. -/
def requiredString : Option String → Bool
  | none => false
  | some s => s != ""

/-- Schema validation of a new `User` document: `name` and `email` are required,
`password` is required when there is no `authProvider`, `role` is one of `user`/`admin`,
`authProvider` is `null` or `google`. -/
def validNewUser (d : NewUser) : Bool :=
  requiredString d.name && requiredString d.email
    && (truthyStr d.authProvider || requiredString d.password)
    && (d.role == none || d.role == some "user" || d.role == some "admin")
    && (d.authProvider == none || d.authProvider == some "google")

/-- Model of `User.findOne({ email })`: the first document with that email. -/
def User.findOne (db : Db) (email : Option String) : Option User :=
  db.users.find? (fun u => some u.email == email)

/-- Model of `User.findById(id)`: the document with that `_id`. -/
def User.findById (db : Db) (id : Nat) : Option User :=
  db.users.find? (fun u => u.id == id)

/-- Model of `.select("-password")`: the document without its password hash. -/
def User.selectNoPassword (u : User) : User :=
  { u with password := none }

/-- Model of `User.create(doc)`: validates, applies the schema defaults (`status: "active"`,
`role: "user"`), enforces the unique index on `email`, assigns a fresh `_id` and the
timestamps, and appends the document. -/
def User.create (db : Db) (now : Nat) (d : NewUser) : Except String (User × Db) :=
  if !validNewUser d then Except.error "User validation failed"
  else if (User.findOne db d.email).isSome then Except.error "E11000 duplicate key error"
  else
    let u : User :=
      { id := db.nextId
        name := d.name.getD ""
        email := d.email.getD ""
        password := d.password
        status := "active"
        role := d.role.getD "user"
        authProvider := d.authProvider
        providerUID := d.providerUID
        photoURL := d.photoURL
        createdAt := now
        updatedAt := now }
    Except.ok (u, { db with users := db.users ++ [u], nextId := db.nextId + 1 })

/-- Model of `user.save()` on a loaded document: replaces the stored document with the same `_id`
and bumps `updatedAt`. -/
def User.save (db : Db) (now : Nat) (u : User) : User × Db :=
  let u1 := { u with updatedAt := now }
  (u1, { db with users := db.users.map (fun v => if v.id == u.id then u1 else v) })

/-! ## External libraries and configuration -/

/-- The payload signed into a token: `{ id, role }`. -/
structure TokenPayload where
  id : Nat
  role : String
  deriving DecidableEq, Repr

/-- The errors `jwt.verify` throws, by `err.name`. -/
inductive JwtError where
  | tokenExpired
  | jsonWebToken
  | other
  deriving DecidableEq, Repr

/-- The library functions the server calls: `bcrypt.hash(s, 10)`, `bcrypt.compare`,
`jwt.sign(payload, JWT_SECRET, { expiresIn: "1d" })` at a given time, and
`jwt.verify(token, JWT_SECRET)` at a given time. -/
structure Ext where
  bcryptHash : String → String
  bcryptCompare : String → String → Bool
  jwtSign : TokenPayload → Nat → String
  jwtVerify : String → Nat → Except JwtError TokenPayload

/-- The process-wide configuration read from the environment. -/
structure Config where
  adminUploadPassword : Option String
  deriving DecidableEq, Repr

/-! ## HTTP responses -/

/-- The `user` object of an authentication response. -/
structure UserSummary where
  id : Nat
  name : String
  email : String
  role : String
  photoURL : Option String
  deriving DecidableEq, Repr

/-- The JSON bodies sent by the handlers modelled here. -/
inductive ResBody where
  | msg (msg : String)
  | adminCodeRequired (msg : String)
  | failure (msg : String)
  | verified (success : Bool) (message : String)
  | auth (token : String) (user : UserSummary)
  deriving DecidableEq, Repr

/-- A response: status code and JSON body. -/
structure Response where
  status : Nat
  body : ResBody
  deriving DecidableEq, Repr

/-- The role carried by the `user` object of an authentication response. -/
def Response.userRole (r : Response) : Option String :=
  match r.body with
  | ResBody.auth _ u => some u.role
  | _ => none

/-! ## `controllers/authController.js` -/

/-- The request body of `POST /api/auth/register`. -/
structure RegisterBody where
  name : Option String
  email : Option String
  password : Option String
  role : JsVal
  adminCode : JsVal
  deriving DecidableEq, Repr

/-- Model of `bcrypt.hash(password, 10)`: rejects when `password` is not a string. -/
def bcryptHashArg (ext : Ext) : Option String → Except String String
  | none => Except.error "Illegal arguments: undefined, number"
  | some p => Except.ok (ext.bcryptHash p)

/-- The `user` object sent with a token by `registerUser` and `loginUser`. -/
def summaryOf (u : User) : UserSummary :=
  { id := u.id, name := u.name, email := u.email, role := u.role, photoURL := none }

/-- Handler `registerUser(req, res)`: the response sent and the store afterwards. -/
def registerUser (ext : Ext) (cfg : Config) (now : Nat) (db : Db) (body : RegisterBody) :
    Response × Db :=
  match User.findOne db body.email with
  | some _ => (⟨400, ResBody.msg "User already exists"⟩, db)
  | none =>
    if body.role = JsVal.str "admin" ∧ body.adminCode ≠ envVal cfg.adminUploadPassword then
      (⟨401, ResBody.adminCodeRequired "Invalid admin code"⟩, db)
    else
      match bcryptHashArg ext body.password with
      | Except.error e => (⟨500, ResBody.msg e⟩, db)
      | Except.ok hashedPassword =>
        let userRole :=
          if body.role = JsVal.str "admin" ∧ body.adminCode = envVal cfg.adminUploadPassword
          then "admin" else "user"
        match User.create db now
            { name := body.name, email := body.email, password := some hashedPassword,
              role := some userRole, authProvider := none, providerUID := none,
              photoURL := none } with
        | Except.error e => (⟨500, ResBody.msg e⟩, db)
        | Except.ok (newUser, db1) =>
          (⟨201, ResBody.auth (ext.jwtSign ⟨newUser.id, newUser.role⟩ now) (summaryOf newUser)⟩,
            db1)

/-- The request body of `POST /api/auth/login`. -/
structure LoginBody where
  email : Option String
  password : Option String
  deriving DecidableEq, Repr

/-- Handler `loginUser(req, res)`; the store is only read. `bcrypt.compare` rejects when either
argument is not a string. -/
def loginUser (ext : Ext) (now : Nat) (db : Db) (body : LoginBody) : Response :=
  match User.findOne db body.email with
  | none => ⟨404, ResBody.msg "User not found"⟩
  | some user =>
    match body.password, user.password with
    | some p, some h =>
      if !ext.bcryptCompare p h then ⟨400, ResBody.msg "Invalid credentials"⟩
      else ⟨200, ResBody.auth (ext.jwtSign ⟨user.id, user.role⟩ now) (summaryOf user)⟩
    | _, _ => ⟨500, ResBody.msg "Illegal arguments"⟩

/-! ## `controllers/googleAuthController.js` -/

/-- Handler `verifyAdminCode(req, res)`: the response sent. -/
def verifyAdminCode (cfg : Config) (adminCode : JsVal) : Response :=
  if !adminCode.truthy ∨ adminCode ≠ envVal cfg.adminUploadPassword then
    ⟨401, ResBody.verified false "Invalid admin code"⟩
  else ⟨200, ResBody.verified true "Admin code verified"⟩

/-- The request body of `POST /api/auth/google`. -/
structure GoogleBody where
  name : Option String
  email : Option String
  uid : Option String
  photoURL : Option String
  requestedRole : JsVal
  adminCode : JsVal
  deriving DecidableEq, Repr

/-- Schema validation run by `save()` on a loaded document. -/
def validUser (u : User) : Bool :=
  u.name != "" && u.email != ""
    && (truthyStr u.authProvider || requiredString u.password)
    && (u.status == "active" || u.status == "inactive")
    && (u.role == "user" || u.role == "admin")
    && (u.authProvider == none || u.authProvider == some "google")

/-- The `user` object sent with a token by `googleAuthCallback`. -/
def googleSummaryOf (u : User) : UserSummary :=
  { id := u.id, name := u.name, email := u.email, role := u.role, photoURL := u.photoURL }

/-- Handler `googleAuthCallback(req, res)`: the response sent and the store afterwards. -/
def googleAuthCallback (ext : Ext) (cfg : Config) (now : Nat) (db : Db) (body : GoogleBody) :
    Response × Db :=
  if body.requestedRole = JsVal.str "admin" ∧ body.adminCode ≠ envVal cfg.adminUploadPassword
  then (⟨401, ResBody.adminCodeRequired "Invalid admin code"⟩, db)
  else
    let finish (user : User) (db1 : Db) : Response × Db :=
      (⟨200, ResBody.auth (ext.jwtSign ⟨user.id, user.role⟩ now) (googleSummaryOf user)⟩, db1)
    match User.findOne db body.email with
    | some user =>
      if !truthyStr user.authProvider then
        let u1 := { user with authProvider := some "google", providerUID := body.uid,
                              photoURL := body.photoURL }
        let u2 :=
          if body.requestedRole = JsVal.str "admin"
              ∧ body.adminCode = envVal cfg.adminUploadPassword
          then { u1 with role := "admin" } else u1
        if !validUser u2 then (⟨500, ResBody.msg "Server error"⟩, db)
        else
          let saved := User.save db now u2
          finish saved.1 saved.2
      else finish user db
    | none =>
      let role :=
        if body.requestedRole = JsVal.str "admin"
            ∧ body.adminCode = envVal cfg.adminUploadPassword
        then "admin" else "user"
      match User.create db now
          { name := body.name, email := body.email, password := none, role := some role,
            authProvider := some "google", providerUID := body.uid,
            photoURL := body.photoURL } with
      | Except.error _ => (⟨500, ResBody.msg "Server error"⟩, db)
      | Except.ok (user, db1) => finish user db1

/-! ## `middleware/authMiddleware.js` -/

/-- What one run of the middleware did: the response it sent (if any), how many times it
called `next`, and the value it assigned to `req.user` (if any). -/
structure GateResult where
  response : Option Response
  nextCalls : Nat
  reqUser : Option User
  deriving DecidableEq, Repr

/-- A rejection: a response is sent, `next` is not called, `req.user` is not assigned. -/
def reject (status : Nat) (msg : String) : GateResult :=
  { response := some ⟨status, ResBody.failure msg⟩, nextCalls := 0, reqUser := none }

/-- The `catch` block of the middleware: the message depends on `err.name`, the status
does not. -/
def jwtErrorMsg : JwtError → String
  | JwtError.tokenExpired => "Token expired"
  | JwtError.jsonWebToken => "Malformed token"
  | JwtError.other => "Invalid token"

/-- The default parameter `requiredRole = "user"`: applies when the argument is
`undefined`. -/
def defaultRole : JsVal → JsVal
  | JsVal.undefined => JsVal.str "user"
  | v => v

/-- A successful run of the middleware: `req.user = user; next();` and no response. -/
def passOn (user : User) : GateResult :=
  { response := none, nextCalls := 1, reqUser := some user }

/-- The token read from the request:
`req.header("Authorization")?.replace("Bearer ", "")`. -/
def bearerToken (authorization : Option String) : Option String :=
  authorization.map (fun h => replaceFirst h "Bearer " "")

/-- Middleware `authMiddleware(requiredRole)(req, res, next)` for a request whose `Authorization`
header is `authorization` (`none` when the header is absent). -/
def authMiddleware (ext : Ext) (requiredRoleArg : JsVal) (now : Nat) (db : Db)
    (authorization : Option String) : GateResult :=
  let requiredRole := defaultRole requiredRoleArg
  match bearerToken authorization with
  | none => reject 401 "Authorization token required"
  | some token =>
    if token = "" then reject 401 "Authorization token required"
    else
      match ext.jwtVerify token now with
      | Except.error e => reject 401 (jwtErrorMsg e)
      | Except.ok decoded =>
        match (User.findById db decoded.id).map User.selectNoPassword with
        | none => reject 401 "User not found or token invalid"
        | some user =>
          if user.status ≠ "active" then reject 403 "Account is not active"
          else if requiredRole.truthy then
            if requiredRole = JsVal.str "user" then
              if user.role ≠ "user" ∧ user.role ≠ "admin" then
                reject 403 "Insufficient privileges"
              else passOn user
            else if JsVal.str user.role ≠ requiredRole then
              reject 403 "Insufficient privileges"
            else passOn user
          else passOn user

/-- The gate mounted on every route of `routes/adminRoutes.js`:
`router.use(authMiddleware("admin"))`. -/
def adminRouterGate (ext : Ext) (now : Nat) (db : Db) (authorization : Option String) :
    GateResult :=
  authMiddleware ext (JsVal.str "admin") now db authorization

/-! ## Object identifiers and queries shared by the routes -/

/-- The `ObjectId` functions of the database driver: `hex` is the string form of an `_id`
(the `id` getter of a document), `cast` is the cast of a request string to an `_id`, which
fails (`CastError`) on a malformed string. -/
structure IdCodec where
  hex : Nat → String
  cast : String → Option Nat

/-- Model of `.sort({ createdAt: -1 })`: newest first; documents with equal `createdAt`
keep their collection order. -/
def sortNewestFirst {α : Type} (createdAt : α → Nat) (l : List α) : List α :=
  l.insertionSort (fun a b => createdAt b ≤ createdAt a)

/-- Replace the first element that satisfies `p` by its image under `f`. -/
def updateFirst {α : Type} (p : α → Bool) (f : α → α) : List α → List α
  | [] => []
  | a :: l => if p a then f a :: l else a :: updateFirst p f l

/-- Model of `User.findByIdAndDelete(id)`: removes the document with that `_id`. -/
def User.findByIdAndDelete (db : Db) (id : Nat) : Db :=
  { db with users := db.users.eraseP (fun u => u.id == id) }

/-- Model of `User.findByIdAndUpdate(id, update, { new: true })`: applies the update to
the document with that `_id`, bumps `updatedAt`, and returns the updated document. -/
def User.findByIdAndUpdate (db : Db) (now : Nat) (id : Nat) (update : User → User) :
    Option User × Db :=
  match User.findById db id with
  | none => (none, db)
  | some u =>
    let stamped : User → User := fun v => { update v with updatedAt := now }
    (some (stamped u), { db with users := updateFirst (fun v => v.id == id) stamped db.users })

/-- Model of `History.find({ user })`: the entries of one owner, in collection order. -/
def History.findByUser (db : Db) (user : Nat) : List History :=
  db.histories.filter (fun h => h.user == user)

/-- Model of `History.deleteMany({ user })`. -/
def History.deleteMany (db : Db) (user : Nat) : Db :=
  { db with histories := db.histories.filter (fun h => !(h.user == user)) }

/-- Model of `History.findByIdAndDelete(id)`: the removed entry (if any) and the store
afterwards. -/
def History.findByIdAndDelete (db : Db) (id : Nat) : Option History × Db :=
  (db.histories.find? (fun h => h.id == id),
    { db with histories := db.histories.eraseP (fun h => h.id == id) })

/-- What the JavaScript runtime knows of the values that the embedding does not spell
out, uninterpreted like `Ext`: `objectId n` is the `_id` property of the `n`-th object of
a request body when that property is a string (`none` for every other object and for
arrays), and `bigNumberToString x` is `x.toString()` for a number `x` outside the safe
integers, where it is the shortest text that reads back as the same double. -/
structure JsRuntime where
  objectId : Nat → Option String
  bigNumberToString : Int → String

/-- The text `x.toString()` of a whole number: its decimal digits for a safe integer. -/
def numberToString (js : JsRuntime) (n : Int) : String :=
  if n.natAbs < 2 ^ 53 then toString n else js.bigNumberToString n

/-- Mongoose cast of a request value to a `String` path (`lib/cast/string.js`):
`null`/`undefined` stay empty; an object with a non-empty string `_id` is cast to that
`_id`; booleans and numbers are printed with `toString()`; every other object and every
array fails (`CastError`). -/
def castString (js : JsRuntime) : JsVal → Except String (Option String)
  | JsVal.undefined => Except.ok none
  | JsVal.null => Except.ok none
  | JsVal.bool b => Except.ok (some (if b then "true" else "false"))
  | JsVal.num n => Except.ok (some (numberToString js n))
  | JsVal.str s => Except.ok (some s)
  | JsVal.obj n =>
    match js.objectId n with
    | some id => if id ≠ "" then Except.ok (some id) else Except.error "Cast to string failed"
    | none => Except.error "Cast to string failed"

/-- Model of `new History(doc).save()` / `History.create(doc)`: casts the four string
paths, checks `required` on each and the `enum` of `chartType`, stamps `createdAt` with
`Date.now`, assigns a fresh `_id` and appends the entry. -/
def History.create (js : JsRuntime) (db : Db) (now : Nat) (user : Nat)
    (fileName xAxis yAxis chartType : JsVal) : Except String (History × Db) :=
  match castString js fileName, castString js xAxis, castString js yAxis,
      castString js chartType with
  | Except.ok f, Except.ok x, Except.ok y, Except.ok c =>
    if requiredString f && requiredString x && requiredString y && requiredString c
        && (c == some "Bar" || c == some "Line" || c == some "Pie") then
      let h : History :=
        { id := db.nextId, user := user, fileName := f.getD "", xAxis := x.getD "",
          yAxis := y.getD "", chartType := c.getD "", createdAt := now }
      Except.ok (h, { db with histories := db.histories ++ [h], nextId := db.nextId + 1 })
    else Except.error "History validation failed"
  | _, _, _, _ => Except.error "History validation failed"

/-! ## Responses of the history, admin and upload routes -/

/-- A history entry as returned by `.select('-__v -user')`. -/
structure HistoryView where
  id : Nat
  fileName : String
  xAxis : String
  yAxis : String
  chartType : String
  createdAt : Nat
  deriving DecidableEq, Repr

/-- The owner of an entry as filled in by `.populate("user", "name email")`. -/
structure OwnerView where
  id : Nat
  name : String
  email : String
  deriving DecidableEq, Repr

/-- A history entry whose `user` path has been populated (`null` when the owner is not in
the store). -/
structure PopulatedHistory where
  id : Nat
  user : Option OwnerView
  fileName : String
  xAxis : String
  yAxis : String
  chartType : String
  createdAt : Nat
  deriving DecidableEq, Repr

/-- An account as returned by `.select("name email role status")`. -/
structure UserRow where
  id : Nat
  name : String
  email : String
  role : String
  status : String
  deriving DecidableEq, Repr

/-- An account as returned by `.select("name email role createdAt")`. -/
structure RecentUser where
  id : Nat
  name : String
  email : String
  role : String
  createdAt : Nat
  deriving DecidableEq, Repr

/-- The `data` object of `GET /api/admin/stats`. `avgUploadsPerUserTenths` is the JSON
number `avgUploadsPerUser` counted in tenths (it has at most one decimal). -/
structure Stats where
  totalUsers : Nat
  totalUploads : Nat
  weeklyUploads : Nat
  weeklyUsers : Nat
  recentUsers : List RecentUser
  recentUploads : List PopulatedHistory
  avgUploadsPerUserTenths : Nat
  deriving DecidableEq, Repr

/-- The JSON bodies sent by the history, admin and upload routes. -/
inductive ApiBody where
  | error (error : String)
  | plainError (error : String)
  | msgOnly (msg : String)
  | message (message : String)
  | userUpdated (data : UserRow) (message : String)
  | historySaved (message : String) (data : History)
  | historyList (count : Nat) (data : List HistoryView)
  | allHistory (count : Nat) (data : List PopulatedHistory)
  | uploads (data : List PopulatedHistory)
  | stats (data : Stats)
  | sheet (data : List (List (String × Cell))) (message : String)
  | parsed (msg : String) (data : List (List (String × Cell)))
  deriving DecidableEq, Repr

/-- A response of the history, admin and upload routes. -/
structure ApiResponse where
  status : Nat
  body : ApiBody
  deriving DecidableEq, Repr

/-! ## `routes/historyRoutes.js` -/

/-- The request body of `POST /api/history`. -/
structure HistoryBody where
  fileName : JsVal
  xAxis : JsVal
  yAxis : JsVal
  chartType : JsVal
  deriving DecidableEq, Repr

/-- Handler of `POST /api/history` for the admitted account `reqUser`: the response sent
and the store afterwards. -/
def postHistory (js : JsRuntime) (now : Nat) (db : Db) (reqUser : User)
    (body : HistoryBody) : ApiResponse × Db :=
  if !body.fileName.truthy || !body.xAxis.truthy || !body.yAxis.truthy
      || !body.chartType.truthy then
    (⟨400, ApiBody.error "Missing required fields"⟩, db)
  else
    match History.create js db now reqUser.id body.fileName body.xAxis body.yAxis
        body.chartType with
    | Except.error _ => (⟨500, ApiBody.error "Failed to save history"⟩, db)
    | Except.ok (history, db1) =>
      (⟨201, ApiBody.historySaved "History saved successfully" history⟩, db1)

/-- Projection `.select('-__v -user')` of an entry. -/
def History.view (h : History) : HistoryView :=
  { id := h.id, fileName := h.fileName, xAxis := h.xAxis, yAxis := h.yAxis,
    chartType := h.chartType, createdAt := h.createdAt }

/-- Handler of `GET /api/history` for the admitted account `reqUser`. -/
def getHistory (db : Db) (reqUser : User) : ApiResponse :=
  let history :=
    (sortNewestFirst History.createdAt (History.findByUser db reqUser.id)).map History.view
  ⟨200, ApiBody.historyList history.length history⟩

/-- Model of `.populate("user", "name email")` on one entry. -/
def populateUser (db : Db) (h : History) : PopulatedHistory :=
  { id := h.id
    user := (User.findById db h.user).map (fun u => OwnerView.mk u.id u.name u.email)
    fileName := h.fileName
    xAxis := h.xAxis
    yAxis := h.yAxis
    chartType := h.chartType
    createdAt := h.createdAt }

/-- Handler of `GET /api/history/admin/all`. -/
def getAllHistory (db : Db) : ApiResponse :=
  let allHistory := (sortNewestFirst History.createdAt db.histories).map (populateUser db)
  ⟨200, ApiBody.allHistory allHistory.length allHistory⟩

/-! ## `routes/adminRoutes.js`

The handlers below run behind `adminRouterGate`; `reqUser` is the account the gate put in
`req.user`, and `id` is the `:id` path parameter. -/

/-- Handler of `GET /api/admin/uploads`. -/
def getUploads (db : Db) : ApiResponse :=
  ⟨200, ApiBody.uploads ((sortNewestFirst History.createdAt db.histories).map
    (populateUser db))⟩

/-- Handler of `DELETE /api/admin/users/:id`. -/
def deleteUser (codec : IdCodec) (db : Db) (reqUser : User) (id : String) :
    ApiResponse × Db :=
  if id = codec.hex reqUser.id then
    (⟨400, ApiBody.error "Cannot delete your own account"⟩, db)
  else
    match codec.cast id with
    | none => (⟨500, ApiBody.error "Failed to delete user"⟩, db)
    | some oid =>
      match User.findById db oid with
      | none => (⟨404, ApiBody.error "User not found"⟩, db)
      | some user =>
        if user.role = "admin" then (⟨403, ApiBody.error "Cannot delete admin users"⟩, db)
        else
          (⟨200, ApiBody.message "User deleted successfully"⟩,
            History.deleteMany (User.findByIdAndDelete db oid) oid)

/-- Handler of `DELETE /api/admin/uploads/:id`. -/
def deleteUpload (codec : IdCodec) (db : Db) (id : String) : ApiResponse × Db :=
  match codec.cast id with
  | none => (⟨500, ApiBody.error "Failed to delete upload record"⟩, db)
  | some oid =>
    match History.findByIdAndDelete db oid with
    | (none, _) => (⟨404, ApiBody.error "Upload not found"⟩, db)
    | (some _, db1) => (⟨200, ApiBody.message "Upload record deleted successfully"⟩, db1)

/-- The test `allowed.includes(v)` on a body value, with the string it found. -/
def includedIn (allowed : List String) : JsVal → Option String
  | JsVal.str s => if allowed.contains s then some s else none
  | _ => none

/-- Projection `.select("name email role status")` of an account. -/
def User.row (u : User) : UserRow :=
  { id := u.id, name := u.name, email := u.email, role := u.role, status := u.status }

/-- Handler of `PATCH /api/admin/users/:id/role`; `role` is `req.body.role`. -/
def patchUserRole (codec : IdCodec) (now : Nat) (db : Db) (reqUser : User) (id : String)
    (role : JsVal) : ApiResponse × Db :=
  match includedIn ["user", "admin"] role with
  | none => (⟨400, ApiBody.error "Invalid role"⟩, db)
  | some r =>
    if id = codec.hex reqUser.id then
      (⟨400, ApiBody.error "Cannot change your own role"⟩, db)
    else
      match codec.cast id with
      | none => (⟨500, ApiBody.error "Failed to update user role"⟩, db)
      | some oid =>
        match User.findByIdAndUpdate db now oid (fun u => { u with role := r }) with
        | (none, _) => (⟨404, ApiBody.error "User not found"⟩, db)
        | (some user, db1) =>
          (⟨200, ApiBody.userUpdated user.row "User role updated successfully"⟩, db1)

/-- Handler of `PATCH /api/admin/users/:id/status`; `status` is `req.body.status`. -/
def patchUserStatus (codec : IdCodec) (now : Nat) (db : Db) (reqUser : User) (id : String)
    (status : JsVal) : ApiResponse × Db :=
  match includedIn ["active", "inactive"] status with
  | none => (⟨400, ApiBody.error "Invalid status"⟩, db)
  | some s =>
    if id = codec.hex reqUser.id then
      (⟨400, ApiBody.error "Cannot change your own status"⟩, db)
    else
      match codec.cast id with
      | none => (⟨500, ApiBody.error "Failed to update user status"⟩, db)
      | some oid =>
        match User.findByIdAndUpdate db now oid (fun u => { u with status := s }) with
        | (none, _) => (⟨404, ApiBody.error "User not found"⟩, db)
        | (some user, db1) =>
          (⟨200, ApiBody.userUpdated user.row
              (if s = "active" then "User activated successfully"
               else "User deactivated successfully")⟩, db1)

/-! ### Statistics

`totalUploads / totalUsers` is a division of IEEE-754 doubles and `toFixed(1)` rounds the
resulting double; both are modelled exactly for counts below `2 ^ 53`, the integers a
JavaScript number holds exactly. A positive double is written `mant / 2 ^ scale` with
`2 ^ 52 ≤ mant ≤ 2 ^ 53`. -/

/-- Round `num / den` to the nearest integer, ties to even. -/
def roundHalfEven (num den : Nat) : Nat :=
  let d := num / den
  let r := num % den
  if 2 * r < den then d
  else if den < 2 * r then d + 1
  else if d % 2 = 0 then d else d + 1

/-- The least `k` from `start` on with `2 ^ 52 ≤ a * 2 ^ k / b`, trying `fuel` values. -/
def scaleFrom (a b : Nat) : Nat → Nat → Nat
  | 0, start => start
  | fuel + 1, start =>
    if 2 ^ 52 * b ≤ a * 2 ^ start then start else scaleFrom a b fuel (start + 1)

/-- The binary scale `k` of the quotient `a / b`: `2 ^ 52 ≤ a * 2 ^ k / b < 2 ^ 53`. For
positive `a`, `b` below `2 ^ 53` it is at most 105. -/
def doubleScale (a b : Nat) : Nat :=
  scaleFrom a b 106 0

/-- The double `a / b` (round to nearest, ties to even) as `(mant, scale)`, its value
being `mant / 2 ^ scale`. -/
def doubleDiv (a b : Nat) : Nat × Nat :=
  if a = 0 then (0, 0)
  else (roundHalfEven (a * 2 ^ doubleScale a b) b, doubleScale a b)

/-- The tenths of `Number(x.toFixed(1))` for the double `x = mant / 2 ^ scale`: the
integer `n` with `n / 10` nearest to `x`, the larger one on a tie. -/
def toFixed1 (x : Nat × Nat) : Nat :=
  (20 * x.1 + 2 ^ x.2) / 2 ^ (x.2 + 1)

/-- The field `avgUploadsPerUser`, in tenths:
`totalUsers > 0 ? Number((totalUploads / totalUsers).toFixed(1)) : 0`. -/
def avgUploadsPerUserTenths (totalUploads totalUsers : Nat) : Nat :=
  if totalUsers > 0 then toFixed1 (doubleDiv totalUploads totalUsers) else 0

/-- The local-time calendar behind the server's `Date` objects, uninterpreted like `Ext`
(the time zone and its daylight-saving rules are not part of the program): `getDate t` is
the day of the month of the instant `t` in the server's time zone, and `setDate t day` is
the instant held by a date `d` that held `t`, after `d.setDate(day)`: the same local time
of day on day `day` of the month, counting back into earlier months for `day < 1`.
Instants are milliseconds since the epoch. -/
structure LocalCalendar where
  getDate : Nat → Int
  setDate : Nat → Int → Int

/-- The date `weekAgo`: `new Date()` after `weekAgo.setDate(weekAgo.getDate() - 7)`. -/
def weekAgo (cal : LocalCalendar) (now : Nat) : Int :=
  cal.setDate now (cal.getDate now - 7)

/-- Projection `.select("name email role createdAt")` of an account. -/
def User.recent (u : User) : RecentUser :=
  { id := u.id, name := u.name, email := u.email, role := u.role, createdAt := u.createdAt }

/-- Handler of `GET /api/admin/stats` at time `now`. -/
def getStats (cal : LocalCalendar) (now : Nat) (db : Db) : ApiResponse :=
  let totalUsers := db.users.length
  let totalUploads := db.histories.length
  let recentUsers := ((sortNewestFirst User.createdAt db.users).take 10).map User.recent
  let recentUploads :=
    ((sortNewestFirst History.createdAt db.histories).take 20).map (populateUser db)
  let weeklyUploads :=
    (db.histories.filter (fun h => weekAgo cal now ≤ (h.createdAt : Int))).length
  let weeklyUsers := (db.users.filter (fun u => weekAgo cal now ≤ (u.createdAt : Int))).length
  ⟨200, ApiBody.stats
    { totalUsers := totalUsers
      totalUploads := totalUploads
      weeklyUploads := weeklyUploads
      weeklyUsers := weeklyUsers
      recentUsers := recentUsers
      recentUploads := recentUploads
      avgUploadsPerUserTenths := avgUploadsPerUserTenths totalUploads totalUsers }⟩

/-! ## `routes/uploadRoutes.js` and `controllers/uploadController.js` -/

/-- The file stored by `multer` for a request (`req.file`). -/
structure UploadedFile where
  path : String
  filename : String
  originalname : String
  mimetype : String
  size : Nat
  deriving DecidableEq, Repr

/-- What an upload handler did: the response sent, the store afterwards, and the paths
for which `fs.unlink` was started. -/
structure UploadResult where
  response : ApiResponse
  db : Db
  unlinked : List String
  deriving DecidableEq, Repr

/-- Model of `processExcel(filePath)` of `routes/uploadRoutes.js`; `readSheet` stands for
`xlsx.readFile` followed by `sheet_to_json` on the first sheet. The `finally` block starts
`fs.unlink(filePath)` on both exits. -/
def processExcel (readSheet : String → Except String (List (List (String × Cell))))
    (filePath : String) : Except String (List (List (String × Cell))) × List String :=
  match readSheet filePath with
  | Except.ok rows => (Except.ok rows, [filePath])
  | Except.error _ => (Except.error "Failed to process Excel file", [filePath])

/-- Handler of `POST /api/upload/excel` for the admitted account `reqUser`, after
`upload.single("excelFile")` has stored `file` (if any). -/
def postExcel (readSheet : String → Except String (List (List (String × Cell))))
    (db : Db) (reqUser : User) (file : Option UploadedFile) : UploadResult :=
  match file with
  | none => ⟨⟨400, ApiBody.error "No file uploaded"⟩, db, []⟩
  | some f =>
    match processExcel readSheet f.path with
    | (Except.error _, unlinked) => ⟨⟨500, ApiBody.plainError "Upload failed"⟩, db, unlinked⟩
    | (Except.ok data, unlinked) =>
      ⟨⟨200, ApiBody.sheet data
          (if reqUser.role = "admin" then "Admin upload successful" else "Upload successful")⟩,
        db, unlinked⟩

/-- Model of `Upload.create(doc)`: no path of the schema is required. -/
def Upload.create (db : Db) (now : Nat) (filename originalName : String)
    (data : List (List (String × Cell))) (uploadedBy : Nat) : Upload × Db :=
  let u : Upload :=
    { id := db.nextId, filename := some filename, originalName := some originalName,
      data := data, uploadedBy := some uploadedBy, createdAt := now, updatedAt := now }
  (u, { db with uploads := db.uploads ++ [u], nextId := db.nextId + 1 })

/-- The expression `Object.keys(row)[i] || dflt`. -/
def keyOr (row : List (String × Cell)) (i : Nat) (dflt : String) : String :=
  match (row.map Prod.fst)[i]? with
  | none => dflt
  | some k => if k = "" then dflt else k

/-- Controller `uploadExcel(req, res)` of `controllers/uploadController.js` for the account
`reqUser`; it is not mounted on any route. -/
def uploadExcel (js : JsRuntime)
    (readSheet : String → Except String (List (List (String × Cell))))
    (now : Nat) (db : Db) (reqUser : User) (file : Option UploadedFile) : UploadResult :=
  match file with
  | none => ⟨⟨400, ApiBody.msgOnly "No file uploaded"⟩, db, []⟩
  | some f =>
    match readSheet f.path with
    | Except.error e => ⟨⟨500, ApiBody.msgOnly e⟩, db, []⟩
    | Except.ok data =>
      let db1 := (Upload.create db now f.filename f.originalname data reqUser.id).2
      match data.head? with
      | none => ⟨⟨500, ApiBody.msgOnly "Cannot convert undefined or null to object"⟩, db1, []⟩
      | some row =>
        match History.create js db1 now reqUser.id (JsVal.str f.originalname)
            (JsVal.str (keyOr row 0 "X")) (JsVal.str (keyOr row 1 "Y")) (JsVal.str "Bar") with
        | Except.error e => ⟨⟨500, ApiBody.msgOnly e⟩, db1, []⟩
        | Except.ok (_, db2) =>
          ⟨⟨200, ApiBody.parsed "File uploaded and parsed successfully" data⟩, db2, []⟩

/-! ### Account listing (`GET /api/admin/users`) -/

/-- The regular-expression engine of the database: `compile p` is the matcher of
`{ $regex: p, $options: "i" }`, or `none` when `p` is not a valid expression (the query
then fails). -/
structure RegexEngine where
  compile : String → Option (String → Bool)

/-- The query string of `GET /api/admin/users`; `page` and `limit` are decimal numerals
when present. -/
structure UsersQuery where
  page : Option Nat
  limit : Option Nat
  role : Option String
  status : Option String
  search : Option String
  deriving DecidableEq, Repr

/-- An account as returned by `.select("name email role status createdAt updatedAt")`. -/
structure UserListRow where
  id : Nat
  name : String
  email : String
  role : String
  status : String
  createdAt : Nat
  updatedAt : Nat
  deriving DecidableEq, Repr

/-- The `pagination` object; `pages` is `null` when `Math.ceil(total / limit)` is not a
finite number. -/
structure Pagination where
  current : Nat
  pages : Option Nat
  total : Nat
  deriving DecidableEq, Repr

/-- The JSON bodies of `GET /api/admin/users`. -/
inductive UsersBody where
  | error (error : String)
  | list (data : List UserListRow) (pagination : Pagination)
  deriving DecidableEq, Repr

/-- A response of `GET /api/admin/users`. -/
structure UsersResponse where
  status : Nat
  body : UsersBody
  deriving DecidableEq, Repr

/-- Projection `.select("name email role status createdAt updatedAt")` of an account. -/
def User.listRow (u : User) : UserListRow :=
  { id := u.id, name := u.name, email := u.email, role := u.role, status := u.status,
    createdAt := u.createdAt, updatedAt := u.updatedAt }

/-- The matcher for `filter.$or`, when `search` is given and non-empty: `none` when the
expression is invalid, `some none` when there is no search. -/
def searchMatcher (re : RegexEngine) (search : Option String) :
    Option (Option (String → Bool)) :=
  if truthyStr search then (re.compile (search.getD "")).map some else some none

/-- Whether an account satisfies the `filter` object built from `role`, `status` and the
search matcher. -/
def matchesFilter (m : Option (String → Bool)) (role status : Option String) (u : User) :
    Bool :=
  (!truthyStr role || some u.role == role) && (!truthyStr status || some u.status == status)
    && (match m with
        | none => true
        | some f => f u.name || f u.email)

/-- The value `Math.ceil(x)` for the double `x = mant / 2 ^ scale`. -/
def ceilDouble (x : Nat × Nat) : Nat :=
  (x.1 + 2 ^ x.2 - 1) / 2 ^ x.2

/-- The field `pages`: `Math.ceil(total / limit)`; a division by zero gives `Infinity` or
`NaN`, which JSON renders as `null`. -/
def pagesOf (total limit : Nat) : Option Nat :=
  if limit = 0 then none else some (ceilDouble (doubleDiv total limit))

/-- Handler of `GET /api/admin/users`. A negative `skip` (page 0 with a positive limit)
is refused by the database; `limit(0)` means no limit. -/
def getUsers (re : RegexEngine) (db : Db) (q : UsersQuery) : UsersResponse :=
  let page := q.page.getD 1
  let limit := q.limit.getD 20
  match searchMatcher re q.search with
  | none => ⟨500, UsersBody.error "Failed to fetch users"⟩
  | some m =>
    if page = 0 ∧ 0 < limit then ⟨500, UsersBody.error "Failed to fetch users"⟩
    else
      let matched := db.users.filter (matchesFilter m q.role q.status)
      let skipped := (sortNewestFirst User.createdAt matched).drop ((page - 1) * limit)
      let users := if limit = 0 then skipped else skipped.take limit
      ⟨200, UsersBody.list (users.map User.listRow)
        { current := page, pages := pagesOf matched.length limit, total := matched.length }⟩

/-! ## `client/src/pages/AdminPanel.jsx` -/

/-- The state `userFilters` of the admin panel. -/
structure UserFilters where
  search : String
  role : String
  status : String
  deriving DecidableEq, Repr

/-- The value of `String.prototype.toLowerCase` on a string whose letters are all ASCII:
the letters `A`-`Z` are folded. On other strings the runtime folds every cased letter of
Unicode, which this function does not; the client-side predicate below therefore takes
`toLowerCase` as a parameter, and this function instantiates it on ASCII sample data only. -/
def asciiLowerCase (s : String) : String :=
  String.mk (s.data.map Char.toLower)

/-- Whether `sub` occurs in the character list. -/
def includesChars (sub : List Char) : List Char → Bool
  | [] => sub.isEmpty
  | c :: cs => sub.isPrefixOf (c :: cs) || includesChars sub cs

/-- Model of `s.includes(sub)`. -/
def jsIncludes (s sub : String) : Bool :=
  includesChars sub.data s.data

/-- The predicate of `allUsers.filter(...)` that defines `filteredUsers`; `toLowerCase` is
`String.prototype.toLowerCase` of the browser. -/
def matchesClient (toLowerCase : String → String) (f : UserFilters) (user : UserListRow) :
    Bool :=
  let matchesSearch :=
    f.search == "" || jsIncludes (toLowerCase user.name) (toLowerCase f.search)
      || jsIncludes (toLowerCase user.email) (toLowerCase f.search)
  let matchesRole := f.role == "" || user.role == f.role
  let matchesStatus := f.status == "" || user.status == f.status
  matchesSearch && matchesRole && matchesStatus

/-- The list `filteredUsers` of the admin panel. -/
def filteredUsers (toLowerCase : String → String) (allUsers : List UserListRow)
    (f : UserFilters) : List UserListRow :=
  allUsers.filter (matchesClient toLowerCase f)

/-! ## The upload pipeline of `POST /api/upload/excel` and the error handler of `server.js` -/

/-- A file part of a multipart request: the form field it came in, and the file as the
disk storage would store it. -/
structure IncomingFile where
  fieldname : String
  file : UploadedFile
  deriving DecidableEq, Repr

/-- An error passed to `next(err)`: its `name`, `message` and `status` property (absent
on plain errors and on `MulterError`s). -/
structure AppError where
  name : String
  message : String
  status : Option Nat
  deriving DecidableEq, Repr

/-- What `upload.single(field)` did with the request. A failure carries, besides the error
passed to `next`, the paths of the files that the disk storage had written by then and
that `multer` removes again with `fs.unlink`. -/
inductive MulterOutcome where
  | noFile
  | stored (file : UploadedFile)
  | failed (err : AppError) (removed : List String)
  deriving DecidableEq, Repr

/-- The `fileFilter` of `routes/uploadRoutes.js`: whether the MIME type is allowed. -/
def fileFilter (mimetype : String) : Bool :=
  ["application/vnd.ms-excel",
    "application/vnd.openxmlformats-officedocument.spreadsheetml.sheet"].contains mimetype

/-- The limit `fileSize: 5 * 1024 * 1024`. -/
def fileSizeLimit : Nat :=
  5 * 1024 * 1024

/-- Model of `upload.single("excelFile")`; `inc.file.size` is the number of bytes of the
file part sent. A file in another field and a file refused by `fileFilter` end in an error
before anything is written. A file whose size reaches the limit ends in an error while it
is being written: the disk storage has written the part below the limit to `inc.file.path`,
and `multer` removes that file. -/
def uploadSingle (field : String) (incoming : Option IncomingFile) : MulterOutcome :=
  match incoming with
  | none => MulterOutcome.noFile
  | some inc =>
    if inc.fieldname ≠ field then
      MulterOutcome.failed ⟨"MulterError", "Unexpected field", none⟩ []
    else if !fileFilter inc.file.mimetype then
      MulterOutcome.failed ⟨"Error", "Only Excel files are allowed!", none⟩ []
    else if fileSizeLimit ≤ inc.file.size then
      MulterOutcome.failed ⟨"MulterError", "File too large", none⟩ [inc.file.path]
    else MulterOutcome.stored inc.file

/-- The error-handling middleware of `server.js`: `err.status || 500`. -/
def errorHandler (err : AppError) : ApiResponse :=
  if err.name = "UnauthorizedError" then ⟨401, ApiBody.plainError "Invalid token"⟩
  else
    match err.status with
    | some s => if s = 0 then ⟨500, ApiBody.plainError "Internal Server Error"⟩
                else ⟨s, ApiBody.plainError "Internal Server Error"⟩
    | none => ⟨500, ApiBody.plainError "Internal Server Error"⟩

/-- The route `POST /api/upload/excel` behind `authMiddleware()`: `upload.single`, then
the handler, or the error handler when `upload.single` fails. -/
def postExcelRoute (readSheet : String → Except String (List (List (String × Cell))))
    (db : Db) (reqUser : User) (incoming : Option IncomingFile) : UploadResult :=
  match uploadSingle "excelFile" incoming with
  | MulterOutcome.failed err removed => ⟨errorHandler err, db, removed⟩
  | MulterOutcome.noFile => postExcel readSheet db reqUser none
  | MulterOutcome.stored f => postExcel readSheet db reqUser (some f)

/-! ## Requests as operations on the store -/

/-- The outcome of a route: the status sent (if a response was sent) and the store
afterwards. -/
structure RouteResult where
  status : Option Nat
  db : Db
  deriving DecidableEq, Repr

/-- A handler of `routes/adminRoutes.js` behind `router.use(authMiddleware("admin"))`: it
runs, with the account the gate stored in `req.user`, only when the gate called `next`. -/
def behindAdminGate (ext : Ext) (now : Nat) (db : Db) (authorization : Option String)
    (handler : User → ApiResponse × Db) : RouteResult :=
  let gate := adminRouterGate ext now db authorization
  match gate.reqUser with
  | some reqUser =>
    if 0 < gate.nextCalls then ⟨some (handler reqUser).1.status, (handler reqUser).2⟩
    else ⟨gate.response.map (fun r => r.status), db⟩
  | none => ⟨gate.response.map (fun r => r.status), db⟩

/-- A request that can change the accounts: a registration, a provider sign-in, or one of
the four mutations of the admin panel, each with the time at which it is handled. -/
inductive Op where
  | register (now : Nat) (body : RegisterBody)
  | google (now : Nat) (body : GoogleBody)
  | adminDeleteUser (now : Nat) (authorization : Option String) (id : String)
  | adminPatchRole (now : Nat) (authorization : Option String) (id : String) (role : JsVal)
  | adminPatchStatus (now : Nat) (authorization : Option String) (id : String)
      (status : JsVal)
  | adminDeleteUpload (now : Nat) (authorization : Option String) (id : String)
  deriving DecidableEq, Repr

/-- The outcome of one request on the store `db`. -/
def Op.result (ext : Ext) (cfg : Config) (codec : IdCodec) (db : Db) : Op → RouteResult
  | Op.register now body =>
    ⟨some (registerUser ext cfg now db body).1.status, (registerUser ext cfg now db body).2⟩
  | Op.google now body =>
    ⟨some (googleAuthCallback ext cfg now db body).1.status,
      (googleAuthCallback ext cfg now db body).2⟩
  | Op.adminDeleteUser now authorization id =>
    behindAdminGate ext now db authorization (fun reqUser => deleteUser codec db reqUser id)
  | Op.adminPatchRole now authorization id role =>
    behindAdminGate ext now db authorization
      (fun reqUser => patchUserRole codec now db reqUser id role)
  | Op.adminPatchStatus now authorization id status =>
    behindAdminGate ext now db authorization
      (fun reqUser => patchUserStatus codec now db reqUser id status)
  | Op.adminDeleteUpload now authorization id =>
    behindAdminGate ext now db authorization (fun _ => deleteUpload codec db id)

/-- The store after a sequence of requests handled one after the other. -/
def runOps (ext : Ext) (cfg : Config) (codec : IdCodec) (db : Db) (ops : List Op) : Db :=
  ops.foldl (fun d op => (op.result ext cfg codec d).db) db

/-- The `required` function of the `password` path in `models/User.js`:
`!this.authProvider`. -/
def User.passwordRequired (u : User) : Bool :=
  !truthyStr u.authProvider

/-! ## `client/src/components/ChartVisualizer.jsx` -/

/-- A cell of a parsed row as a JavaScript value. -/
def Cell.toJs : Cell → JsVal
  | Cell.text s => JsVal.str s
  | Cell.number n => JsVal.num n
  | Cell.boolean b => JsVal.bool b

/-- The constant `keys`: `data.length > 0 ? Object.keys(data[0]) : []`. -/
def chartKeys (data : List (List (String × Cell))) : List String :=
  match data.head? with
  | some row => row.map Prod.fst
  | none => []

/-- The constant `isReady` of `ChartVisualizer`. -/
def isReady (data : List (List (String × Cell))) (xKey yKey : String) : Bool :=
  decide (0 < data.length) && xKey != "" && yKey != ""
    && (chartKeys data).contains xKey && (chartKeys data).contains yKey

/-- The body that `saveHistory` posts to `/api/history` (`none` when the component is not
ready and posts nothing). -/
def saveHistoryBody (data : List (List (String × Cell))) (xKey yKey chartType : String) :
    Option HistoryBody :=
  if !isReady data xKey yKey then none
  else
    let given : JsVal :=
      match data.head?.bind (fun row => row.lookup "__filename") with
      | some cell => cell.toJs
      | none => JsVal.undefined
    some { fileName := if given.truthy then given else JsVal.str "uploaded_file.xlsx"
           chartType := JsVal.str chartType
           xAxis := JsVal.str xKey
           yAxis := JsVal.str yKey }

/-- The chart types offered by the `select` of `ChartVisualizer`. -/
def chartTypeOptions : List String :=
  ["Bar", "Line", "Pie", "3D"]

/-! ## `client/src/components/ThreeJsChart.jsx` -/

/-- The result of a JavaScript division and multiplication on integers: `NaN`, an
infinity, or the finite value `num / den` (`den ≠ 0`; the rounding of the double
operations is not modelled). -/
inductive JsNumber where
  | nan
  | posInf
  | negInf
  | ratio (num den : Int)
  deriving DecidableEq, Repr

/-- The expression `Number(item[yKey]) || 0`; `toNumber` is the conversion of a string to
a number (`none` for `NaN`), and a missing cell is `undefined`. -/
def numericReading (toNumber : String → Option Int) : Option Cell → Int
  | none => 0
  | some (Cell.text s) => (toNumber s).getD 0
  | some (Cell.number n) => n
  | some (Cell.boolean b) => if b then 1 else 0

/-- The value `Math.max(...values)` of a non-empty list (of an empty one the code makes
no use). -/
def maxOf (values : List Int) : Int :=
  match values with
  | [] => 0
  | v :: vs => vs.foldl max v

/-- The function `normalizeValue`: `(val / maxValue) * 10`. -/
def normalizeValue (maxValue val : Int) : JsNumber :=
  if maxValue = 0 then
    if val = 0 then JsNumber.nan else if 0 < val then JsNumber.posInf else JsNumber.negInf
  else JsNumber.ratio (val * 10) maxValue

/-- The heights `normalizedHeight` of the bars that `createDataBars` adds to the scene,
in the order of the rows (`none` on the early return for missing data or keys). -/
def createDataBars (toNumber : String → Option Int) (data : List (List (String × Cell)))
    (xKey yKey : String) : Option (List JsNumber) :=
  if data.length = 0 ∨ xKey = "" ∨ yKey = "" then none
  else
    let values := data.map (fun item => numericReading toNumber (item.lookup yKey))
    some (values.map (normalizeValue (maxOf values)))

/-- The rows carried by a response of `GET /api/admin/users` (none for an error). -/
def UsersResponse.rows (r : UsersResponse) : List UserListRow :=
  match r.body with
  | UsersBody.list data _ => data
  | UsersBody.error _ => []

/-! ## Invariants of the accounts collection -/

/-- The `_id`s of the accounts are pairwise distinct and were all drawn from the counter
(the store's primary key). -/
def Db.idsFresh (db : Db) : Prop :=
  (db.users.map User.id).Nodup ∧ ∀ u ∈ db.users, u.id < db.nextId

/-- Every account satisfies the `required` rule of the `password` path: a non-empty
password hash unless `authProvider` is set. -/
def Db.credentialed (db : Db) : Prop :=
  ∀ u ∈ db.users, u.passwordRequired = true → requiredString u.password = true

/-- The emails of the accounts are pairwise distinct. -/
def Db.emailsDistinct (db : Db) : Prop :=
  (db.users.map User.email).Nodup

/-- The accounts that are admins and active. -/
def activeAdmins (db : Db) : List User :=
  db.users.filter (fun u => u.role == "admin" && u.status == "active")

/-- The ways one request changes the accounts collection: not at all; by appending one
account with the fresh `_id`, an email not yet stored and a valid `password` path; by
rewriting accounts in place, keeping `_id`, email and the validity of the `password`
path; or by removing the account with a given `_id`. -/
def AccountsStep (db db1 : Db) : Prop :=
  (db1.users = db.users ∧ db1.nextId = db.nextId)
    ∨ (∃ u, db1.users = db.users ++ [u] ∧ db1.nextId = db.nextId + 1 ∧ u.id = db.nextId
        ∧ (∀ v ∈ db.users, v.email ≠ u.email)
        ∧ (u.passwordRequired = true → requiredString u.password = true))
    ∨ (∃ g : User → User, db1.users = db.users.map g ∧ db1.nextId = db.nextId
        ∧ ∀ v ∈ db.users, (g v).id = v.id ∧ (g v).email = v.email
            ∧ ((v.passwordRequired = true → requiredString v.password = true) →
                (g v).passwordRequired = true → requiredString (g v).password = true))
    ∨ (∃ k, db1.users = db.users.eraseP (fun u => u.id == k) ∧ db1.nextId = db.nextId)

/-! ## The role rule of the specification -/

/-- The role rule as the specification words it (section 4.4): a route that requires
`"user"` is satisfied by roles `user` and `admin`; a route that requires another role is
satisfied by that role only. -/
def specRoleAuthorized (required : JsVal) (role : String) : Bool :=
  if required = JsVal.str "user" then role == "user" || role == "admin"
  else JsVal.str role == required

/-! ## Sample environment used by the concrete evaluations -/

/-- A concrete instance of the library functions: four tokens are known to
`jwtVerify`, every other string is malformed. -/
def sampleExt : Ext where
  bcryptHash := fun p => "$2a$10$" ++ p
  bcryptCompare := fun p h => h == "$2a$10$" ++ p
  jwtSign := fun payload _ => "signed-" ++ payload.role
  jwtVerify := fun token _ =>
    if token = "tok-1-admin" then Except.ok ⟨1, "admin"⟩
    else if token = "tok-2-user" then Except.ok ⟨2, "user"⟩
    else if token = "tok-2-admin" then Except.ok ⟨2, "admin"⟩
    else if token = "tok-3-user" then Except.ok ⟨3, "user"⟩
    else if token = "tok-9-user" then Except.ok ⟨9, "user"⟩
    else if token = "tok-old" then Except.error JwtError.tokenExpired
    else Except.error JwtError.jsonWebToken

/-- A configuration with the admin code set. -/
def sampleCfg : Config :=
  { adminUploadPassword := some "s3cret" }

/-- The empty store. -/
def emptyDb : Db :=
  { users := [], histories := [], uploads := [], nextId := 1 }

/-- An active admin who signed in through Google. -/
def asha : User :=
  { id := 1, name := "Asha", email := "asha@corp.io", password := none,
    status := "active", role := "admin", authProvider := some "google",
    providerUID := some "g-1", photoURL := none, createdAt := 10, updatedAt := 10 }

/-- An active user with a password account. -/
def bob : User :=
  { id := 2, name := "Bob", email := "bob@corp.io", password := some "$2a$10$pw",
    status := "active", role := "user", authProvider := none,
    providerUID := none, photoURL := none, createdAt := 20, updatedAt := 20 }

/-- An inactive user. -/
def cy : User :=
  { id := 3, name := "Cy", email := "cy@corp.io", password := some "$2a$10$pw",
    status := "inactive", role := "user", authProvider := none,
    providerUID := none, photoURL := none, createdAt := 30, updatedAt := 30 }

/-- A store holding `asha`, `bob` and `cy`. -/
def sampleDb : Db :=
  { users := [asha, bob, cy], histories := [], uploads := [], nextId := 4 }

/-- A configuration in which `ADMIN_UPLOAD_PASSWORD` is unset. -/
def unsetCfg : Config :=
  { adminUploadPassword := none }

/-- A registration that claims role `admin` and sends no `adminCode`. -/
def noCodeRegistration : RegisterBody :=
  { name := some "Eve", email := some "eve@corp.io", password := some "pw",
    role := JsVal.str "admin", adminCode := JsVal.undefined }

/-- A registration that claims role `admin` with the configured code. -/
def rightCodeRegistration : RegisterBody :=
  { name := some "Eve", email := some "eve@corp.io", password := some "pw",
    role := JsVal.str "admin", adminCode := JsVal.str "s3cret" }

/-- A sign-in of the stored, Google-linked admin `asha@corp.io` that asks for role
`user`. -/
def plainSignIn : GoogleBody :=
  { name := some "Asha", email := some "asha@corp.io", uid := some "g-1", photoURL := none,
    requestedRole := JsVal.str "user", adminCode := JsVal.null }

/-- A sign-in of the stored password account `bob@corp.io` that asks for role `admin`
with the configured code. -/
def elevatingSignIn : GoogleBody :=
  { name := some "Bob", email := some "bob@corp.io", uid := some "g-2", photoURL := none,
    requestedRole := JsVal.str "admin", adminCode := JsVal.str "s3cret" }

/-- A registration that claims role `admin` with a wrong code. -/
def wrongCodeRegistration : RegisterBody :=
  { name := some "Eve", email := some "eve@corp.io", password := some "pw",
    role := JsVal.str "admin", adminCode := JsVal.str "S3CRET" }

/-- A provider sign-in that claims role `admin` and omits the code. -/
def noCodeSignIn : GoogleBody :=
  { name := some "Eve", email := some "eve@corp.io", uid := some "g-7", photoURL := none,
    requestedRole := JsVal.str "admin", adminCode := JsVal.undefined }

/-- A concrete instance of the identifier functions: four-character hexadecimal strings,
read without regard to the case of the letters; every other string is malformed. -/
def sampleCodec : IdCodec where
  hex := fun n =>
    if n = 1 then "0a01" else if n = 2 then "0a02" else if n = 3 then "0a03"
    else if n = 4 then "0a04" else if n = 5 then "0a05" else if n = 6 then "0a06"
    else "0aff"
  cast := fun s =>
    if s = "0a01" ∨ s = "0A01" then some 1
    else if s = "0a02" ∨ s = "0A02" then some 2
    else if s = "0a03" ∨ s = "0A03" then some 3
    else if s = "0a04" ∨ s = "0A04" then some 4
    else if s = "0a05" ∨ s = "0A05" then some 5
    else if s = "0a06" ∨ s = "0A06" then some 6
    else if s = "0aff" ∨ s = "0AFF" then some 255
    else none

/-- Bob's first chart. -/
def chartA : History :=
  { id := 4, user := 2, fileName := "sales.xlsx", xAxis := "Name", yAxis := "Salary",
    chartType := "Bar", createdAt := 40 }

/-- A chart of Asha. -/
def chartB : History :=
  { id := 5, user := 1, fileName := "ops.xlsx", xAxis := "Week", yAxis := "Tickets",
    chartType := "Line", createdAt := 50 }

/-- Bob's second chart. -/
def chartC : History :=
  { id := 6, user := 2, fileName := "q2.xlsx", xAxis := "Region", yAxis := "Revenue",
    chartType := "Pie", createdAt := 60 }

/-- The store `sampleDb` with three history entries. -/
def historyDb : Db :=
  { users := [asha, bob, cy], histories := [chartA, chartB, chartC], uploads := [],
    nextId := 7 }

/-- A complete record request. -/
def salesRecord : HistoryBody :=
  { fileName := JsVal.str "sales.xlsx", xAxis := JsVal.str "Name",
    yAxis := JsVal.str "Salary", chartType := JsVal.str "Bar" }

/-- A record request whose `fileName` is the object number 0 of the body. -/
def documentRecord : HistoryBody :=
  { fileName := JsVal.obj 0, xAxis := JsVal.str "Name",
    yAxis := JsVal.str "Salary", chartType := JsVal.str "Bar" }

/-- A record request without `yAxis`. -/
def partialRecord : HistoryBody :=
  { fileName := JsVal.str "sales.xlsx", xAxis := JsVal.str "Name",
    yAxis := JsVal.undefined, chartType := JsVal.str "Bar" }

/-- The stored temporary file of an upload of `sales.xlsx`. -/
def salesFile : UploadedFile :=
  { path := "uploads/excelFile-1.xlsx", filename := "excelFile-1.xlsx",
    originalname := "sales.xlsx",
    mimetype := "application/vnd.openxmlformats-officedocument.spreadsheetml.sheet",
    size := 9000 }

/-- The rows of `sales.xlsx`. -/
def salesRows : List (List (String × Cell)) :=
  [[("Name", Cell.text "Bob"), ("Salary", Cell.number 50000)],
   [("Name", Cell.text "Ann"), ("Salary", Cell.number 60000)]]

/-- A reader that parses the stored `sales.xlsx` and fails on every other path. -/
def sampleReadSheet (path : String) : Except String (List (List (String × Cell))) :=
  if path = "uploads/excelFile-1.xlsx" then Except.ok salesRows
  else Except.error "Cannot access file"

/-- A second active admin. -/
def dee : User :=
  { id := 255, name := "Dee", email := "dee@corp.io", password := some "$2a$10$pw",
    status := "active", role := "admin", authProvider := none,
    providerUID := none, photoURL := none, createdAt := 35, updatedAt := 35 }

/-- The store `historyDb` with the second admin `dee`. -/
def teamDb : Db :=
  { users := [asha, bob, cy, dee], histories := [chartA, chartB, chartC], uploads := [],
    nextId := 256 }

/-- The store `historyDb` in which the accounts have other password hashes, roles and
statuses, and the same identifiers, names and emails. -/
def reshuffledDb : Db :=
  { users :=
      [{ asha with password := some "$2a$10$other", role := "user" },
       { bob with password := none, role := "admin", status := "inactive" },
       { cy with password := some "$2a$10$third" }]
    histories := [chartA, chartB, chartC]
    uploads := []
    nextId := 7 }

/-- An atom of the sample expressions: a character (read without regard to case) or the
dot. -/
inductive ReAtom where
  | char (c : Char)
  | any
  deriving DecidableEq, Repr

/-- An item of the sample expressions: an atom, or an atom followed by `*`. -/
inductive ReItem where
  | one (a : ReAtom)
  | star (a : ReAtom)
  deriving DecidableEq, Repr

/-- Whether an atom accepts a character. -/
def ReAtom.accepts : ReAtom → Char → Bool
  | ReAtom.char c, d => c.toLower == d.toLower
  | ReAtom.any, d => d != '\n'

/-- The characters with a special meaning that the sample expressions do not support. -/
def reSpecial (c : Char) : Bool :=
  "()[]{}+?|^$*".data.contains c

/-- Reader of the sample expressions: characters, `.`, a backslash before a character, and
`*` after one of these; every other use of a special character is refused (among them an
unmatched parenthesis, a leading `*` and a trailing backslash). -/
def parseRe : List Char → Option (List ReItem)
  | [] => some []
  | ['\\'] => none
  | '\\' :: c :: '*' :: rest => (parseRe rest).map (fun l => ReItem.star (ReAtom.char c) :: l)
  | '\\' :: c :: rest => (parseRe rest).map (fun l => ReItem.one (ReAtom.char c) :: l)
  | c :: '*' :: rest =>
    if reSpecial c then none
    else (parseRe rest).map
      (fun l => ReItem.star (if c = '.' then ReAtom.any else ReAtom.char c) :: l)
  | c :: rest =>
    if reSpecial c then none
    else (parseRe rest).map
      (fun l => ReItem.one (if c = '.' then ReAtom.any else ReAtom.char c) :: l)

/-- Match `a*` followed by `rest`. -/
def matchStar (a : ReAtom) (rest : List Char → Bool) : List Char → Bool
  | [] => rest []
  | c :: cs => rest (c :: cs) || (a.accepts c && matchStar a rest cs)

/-- Match the items at the start of the text. -/
def matchHere : List ReItem → List Char → Bool
  | [], _ => true
  | ReItem.one _ :: _, [] => false
  | ReItem.one a :: items, c :: cs => a.accepts c && matchHere items cs
  | ReItem.star a :: items, text => matchStar a (matchHere items) text

/-- Match the items somewhere in the text. -/
def matchAnywhere (items : List ReItem) : List Char → Bool
  | [] => matchHere items []
  | c :: cs => matchHere items (c :: cs) || matchAnywhere items cs

/-- A concrete regular-expression engine for a fragment of the syntax. -/
def sampleRegex : RegexEngine where
  compile := fun p =>
    (parseRe p.data).map (fun items subject => matchAnywhere items subject.data)

/-- A conversion of strings to numbers that reads decimal digits and gives `NaN` for
everything else. -/
def sampleToNumber (s : String) : Option Int :=
  if s.data.all Char.isDigit then
    some (s.data.foldl (fun n c => n * 10 + ((c.toNat : Int) - 48)) 0)
  else none

/-- A CSV file sent in the field `excelFile`. -/
def csvUpload : IncomingFile :=
  { fieldname := "excelFile"
    file := { path := "uploads/excelFile-2.csv", filename := "excelFile-2.csv",
              originalname := "sales.csv", mimetype := "text/csv", size := 9000 } }

/-- An Excel file of exactly five megabytes sent in the field `excelFile`. -/
def limitUpload : IncomingFile :=
  { fieldname := "excelFile"
    file := { path := "uploads/excelFile-4.xlsx", filename := "excelFile-4.xlsx",
              originalname := "full.xlsx",
              mimetype := "application/vnd.openxmlformats-officedocument.spreadsheetml.sheet",
              size := 5 * 1024 * 1024 } }

/-- An Excel file of six megabytes sent in the field `excelFile`. -/
def bigUpload : IncomingFile :=
  { fieldname := "excelFile"
    file := { path := "uploads/excelFile-3.xlsx", filename := "excelFile-3.xlsx",
              originalname := "big.xlsx",
              mimetype := "application/vnd.openxmlformats-officedocument.spreadsheetml.sheet",
              size := 6 * 1024 * 1024 } }

/-- The file `salesFile` sent in the field `excelFile`. -/
def salesUpload : IncomingFile :=
  { fieldname := "excelFile", file := salesFile }

/-- A provider sign-in for a new email whose body carries no `uid`. -/
def noUidSignIn : GoogleBody :=
  { name := some "Gus", email := some "gus@corp.io", uid := none, photoURL := none,
    requestedRole := JsVal.str "user", adminCode := JsVal.null }

/-- Asha's request to change the role of the account `0A01` (her own `_id`, written with
a capital letter) to `user`. -/
def selfDemotion : Op :=
  Op.adminPatchRole 100 (some "Bearer tok-1-admin") "0A01" (JsVal.str "user")

/-- Asha's request to deactivate the account `0A01`. -/
def selfDeactivation : Op :=
  Op.adminPatchStatus 100 (some "Bearer tok-1-admin") "0A01" (JsVal.str "inactive")

/-- A registration, a provider sign-in without `uid`, a role change and a deletion. -/
def sampleOps : List Op :=
  [Op.register 100 rightCodeRegistration, Op.google 110 noUidSignIn,
   Op.adminPatchRole 120 (some "Bearer tok-1-admin") "0a02" (JsVal.str "admin"),
   Op.adminDeleteUser 130 (some "Bearer tok-1-admin") "0a03"]

/-- A runtime for request bodies that hold no object with a string `_id` and no number
outside the safe integers. -/
def sampleJs : JsRuntime where
  objectId := fun _ => none
  bigNumberToString := fun _ => "NaN"

/-- A runtime for a request body whose object number 0 is `{ "_id": "report.xlsx" }`. -/
def documentJs : JsRuntime where
  objectId := fun n => if n = 0 then some "report.xlsx" else none
  bigNumberToString := fun _ => "NaN"

/-- The day of the month of the day that lies `days` days after 1 January 1970, in the
Gregorian calendar. -/
def dayOfMonth (days : Nat) : Nat :=
  let doe := (days + 719468) % 146097
  let yoe := (doe - doe / 1460 + doe / 36524 - doe / 146096) / 365
  let doy := doe - (365 * yoe + yoe / 4 - yoe / 100)
  let mp := (5 * doy + 2) / 153
  doy - (153 * mp + 2) / 5 + 1

/-- The calendar of a server whose time zone is UTC, where every day has 24 hours. -/
def utcCalendar : LocalCalendar where
  getDate := fun t => dayOfMonth (t / 86400000)
  setDate := fun t day => (t : Int) + (day - dayOfMonth (t / 86400000)) * 86400000

/-! ## Role assignment on registration -/

/-- The role `registerUser` stores for a request that passed the admin-code guard. -/
theorem registerUser_cases (ext : Ext) (cfg : Config) (now : Nat) (db : Db)
    (body : RegisterBody) (h : (registerUser ext cfg now db body).1.status = 201) :
    User.findOne db body.email = none
      ∧ ¬ (body.role = JsVal.str "admin" ∧ body.adminCode ≠ envVal cfg.adminUploadPassword)
      ∧ ∃ p u db1,
          body.password = some p
          ∧ User.create db now
              { name := body.name, email := body.email, password := some (ext.bcryptHash p),
                role := some (if body.role = JsVal.str "admin"
                    ∧ body.adminCode = envVal cfg.adminUploadPassword then "admin" else "user"),
                authProvider := none, providerUID := none, photoURL := none }
              = Except.ok (u, db1)
          ∧ registerUser ext cfg now db body
              = (⟨201, ResBody.auth (ext.jwtSign ⟨u.id, u.role⟩ now) (summaryOf u)⟩, db1) := by
  unfold registerUser at h ⊢
  cases hf : User.findOne db body.email with
  | some v => simp [hf] at h
  | none =>
    simp only [hf] at h ⊢
    by_cases hg : body.role = JsVal.str "admin" ∧ body.adminCode ≠ envVal cfg.adminUploadPassword
    · simp [hg] at h
    · simp only [hg, if_false] at h ⊢
      refine ⟨trivial, not_false, ?_⟩
      cases hp : body.password with
      | none => simp [hp, bcryptHashArg] at h
      | some p =>
        simp only [hp, bcryptHashArg] at h ⊢
        cases hc : User.create db now
              { name := body.name, email := body.email, password := some (ext.bcryptHash p),
                role := some (if body.role = JsVal.str "admin"
                    ∧ body.adminCode = envVal cfg.adminUploadPassword then "admin" else "user"),
                authProvider := none, providerUID := none, photoURL := none } with
        | error e => simp [hc] at h
        | ok r =>
          obtain ⟨u, db1⟩ := r
          exact ⟨p, u, db1, rfl, hc, by simp [hc]⟩

/-- A successful `User.create` appends exactly the new document, built from the given
fields. -/
theorem User.create_ok (db : Db) (now : Nat) (d : NewUser) (u : User) (db1 : Db)
    (h : User.create db now d = Except.ok (u, db1)) :
    db1.users = db.users ++ [u] ∧ db1.histories = db.histories ∧ db1.uploads = db.uploads
      ∧ u.role = d.role.getD "user" ∧ u.status = "active" ∧ u.id = db.nextId
      ∧ u.password = d.password ∧ u.authProvider = d.authProvider
      ∧ u.providerUID = d.providerUID ∧ some u.email = d.email
      ∧ validNewUser d = true ∧ User.findOne db d.email = none := by
  unfold User.create at h
  by_cases hv : validNewUser d = true
  · cases hf : User.findOne db d.email with
    | some v => simp [hv, hf] at h
    | none =>
      simp only [hv, hf, Bool.not_true, Option.isSome_none] at h
      simp at h
      obtain ⟨hu, hdb⟩ := h
      subst hu hdb
      have he : requiredString d.email = true := by
        simp only [validNewUser, Bool.and_eq_true] at hv
        exact hv.1.1.1.2
      cases hemail : d.email with
      | none => simp [hemail, requiredString] at he
      | some e => simp [hv]
  · simp [hv] at h

/-- Sufficient conditions for a registration to succeed: the email is not registered,
`name`, `email` and `password` are given, the hash is non-empty, and the request is not an
admin claim with a code that differs from the secret. -/
theorem registerUser_succeeds (ext : Ext) (cfg : Config) (now : Nat) (db : Db)
    (body : RegisterBody) (n e p : String)
    (hn : body.name = some n) (hn0 : n ≠ "") (he : body.email = some e) (he0 : e ≠ "")
    (hp : body.password = some p) (hh : ext.bcryptHash p ≠ "")
    (hf : User.findOne db body.email = none)
    (hg : ¬ (body.role = JsVal.str "admin" ∧ body.adminCode ≠ envVal cfg.adminUploadPassword)) :
    (registerUser ext cfg now db body).1.status = 201 := by
  unfold registerUser
  simp only [hf, hg, if_false, hp, bcryptHashArg]
  have hv : ∀ r : String, (r = "user" ∨ r = "admin") →
      validNewUser (NewUser.mk body.name body.email (some (ext.bcryptHash p)) (some r)
        none none none) = true := by
    intro r hr
    rcases hr with hr | hr <;>
      simp [validNewUser, requiredString, truthyStr, hn, he, hn0, he0, hh, hr]
  by_cases hel : body.role = JsVal.str "admin" ∧ body.adminCode = envVal cfg.adminUploadPassword
  · simp [hel, User.create, hv "admin" (Or.inr rfl), hf]
  · simp [hel, User.create, hv "user" (Or.inl rfl), hf]

/-- A registration that claims role `admin` with an `adminCode` that is not strictly equal
to the secret changes nothing in the store: it is answered 400 (email taken) or 401. -/
theorem registerUser_no_elevation (ext : Ext) (cfg : Config) (now : Nat) (db : Db)
    (body : RegisterBody) (hr : body.role = JsVal.str "admin")
    (hc : body.adminCode ≠ envVal cfg.adminUploadPassword) :
    (registerUser ext cfg now db body).2 = db
      ∧ ((registerUser ext cfg now db body).1.status = 400
        ∨ (registerUser ext cfg now db body).1.status = 401) := by
  unfold registerUser
  cases hf : User.findOne db body.email with
  | some v => simp
  | none => simp [hr, hc]

/-- C1 (defect): with `ADMIN_UPLOAD_PASSWORD` unset, a registration that claims role
`admin` and sends no `adminCode` at all is accepted (201) and stores an account with role
`admin`, although the sibling handler `verifyAdminCode` rejects the same missing code
(401) under the same configuration. -/
theorem registerUser_missing_code_unset_secret :
    (registerUser sampleExt unsetCfg 100 emptyDb noCodeRegistration).1.status = 201
      ∧ (registerUser sampleExt unsetCfg 100 emptyDb noCodeRegistration).2.users.map
          (fun u => (u.email, u.role)) = [("eve@corp.io", "admin")]
      ∧ (verifyAdminCode unsetCfg noCodeRegistration.adminCode).status = 401 := by
  decide

/-- C2: every registration that succeeds (status 201) was for an email not yet registered
and carried a password; it appends exactly one account to the store, and the role of that
account, which is also the role returned in the response, is `admin` when the claimed
role is `"admin"` and `adminCode` is strictly equal to the secret (as JavaScript values,
so an absent code equals an unset secret), and `user` in every other case. -/
theorem registerUser_role_decision (ext : Ext) (cfg : Config) (now : Nat) (db : Db)
    (body : RegisterBody) (h : (registerUser ext cfg now db body).1.status = 201) :
    User.findOne db body.email = none ∧ body.password.isSome = true
      ∧ ∃ u token,
          (registerUser ext cfg now db body).2.users = db.users ++ [u]
          ∧ (registerUser ext cfg now db body).1.body = ResBody.auth token (summaryOf u)
          ∧ some u.email = body.email
          ∧ u.role = (if body.role = JsVal.str "admin"
              ∧ body.adminCode = envVal cfg.adminUploadPassword then "admin" else "user") := by
  obtain ⟨hf, _, p, u, db1, hp, hc, hr⟩ := registerUser_cases ext cfg now db body h
  obtain ⟨husers, _, _, hrole, _, _, _, _, _, hemail, _, _⟩ := User.create_ok db now _ u db1 hc
  refine ⟨hf, by simp [hp], u, ext.jwtSign ⟨u.id, u.role⟩ now, ?_, ?_, hemail, ?_⟩
  · rw [hr]; exact husers
  · rw [hr]
  · simpa using hrole

/-- Witness for C2: a registration that claims role `admin` with the configured code
succeeds and stores an account with role `admin`. -/
theorem registerUser_role_decision_witness :
    (registerUser sampleExt sampleCfg 100 sampleDb rightCodeRegistration).1.status = 201
      ∧ (User.findOne sampleDb rightCodeRegistration.email = none
        ∧ rightCodeRegistration.password.isSome = true
        ∧ ∃ u token,
          (registerUser sampleExt sampleCfg 100 sampleDb rightCodeRegistration).2.users
            = sampleDb.users ++ [u]
          ∧ (registerUser sampleExt sampleCfg 100 sampleDb rightCodeRegistration).1.body
            = ResBody.auth token (summaryOf u)
          ∧ some u.email = rightCodeRegistration.email
          ∧ u.role = (if rightCodeRegistration.role = JsVal.str "admin"
              ∧ rightCodeRegistration.adminCode = envVal sampleCfg.adminUploadPassword
              then "admin" else "user")) :=
  ⟨by decide,
    registerUser_role_decision sampleExt sampleCfg 100 sampleDb rightCodeRegistration
      (by decide)⟩

/-! ## Role assignment on identity-provider sign-in -/

/-- C3 (as stated, refuted): a sign-in for an existing admin account that requests role
`user` succeeds, the account stays stored with role `admin` and `admin` is the role
returned, although `requestedRole` is not `"admin"`. -/
theorem googleAuthCallback_existing_admin_kept :
    (googleAuthCallback sampleExt sampleCfg 100 sampleDb
        plainSignIn).1.status = 200
      ∧ (googleAuthCallback sampleExt sampleCfg 100 sampleDb
        plainSignIn).1.userRole = some "admin"
      ∧ (User.findOne
          (googleAuthCallback sampleExt sampleCfg 100 sampleDb
            plainSignIn).2 (some "asha@corp.io")).map (fun u => u.role) = some "admin"
      ∧ ¬ (plainSignIn.requestedRole = JsVal.str "admin"
          ∧ plainSignIn.adminCode = envVal sampleCfg.adminUploadPassword) := by
  decide

/-- C3 (amended): for every sign-in that succeeds (status 200), with
`elevate := requestedRole === "admin" ∧ adminCode === secret`:
a new email creates exactly one account whose role is `admin` if `elevate` and `user`
otherwise; an existing account without a linked provider is saved with role `admin` if
`elevate` and with its stored role otherwise; an existing account with a linked provider,
when not `elevate`, leaves the store unchanged and keeps its stored role. In each case the
role returned in the response is the role stored. -/
theorem googleAuthCallback_role (ext : Ext) (cfg : Config) (now : Nat) (db : Db)
    (body : GoogleBody) (h : (googleAuthCallback ext cfg now db body).1.status = 200) :
    match User.findOne db body.email with
    | none =>
      ∃ u, (googleAuthCallback ext cfg now db body).2.users = db.users ++ [u]
        ∧ some u.email = body.email
        ∧ u.role = (if body.requestedRole = JsVal.str "admin"
            ∧ body.adminCode = envVal cfg.adminUploadPassword then "admin" else "user")
        ∧ (googleAuthCallback ext cfg now db body).1.userRole = some u.role
    | some user =>
      if truthyStr user.authProvider = false then
        ∃ u, (googleAuthCallback ext cfg now db body).2.users
            = db.users.map (fun v => if v.id == user.id then u else v)
          ∧ u.id = user.id ∧ u.email = user.email
          ∧ u.role = (if body.requestedRole = JsVal.str "admin"
              ∧ body.adminCode = envVal cfg.adminUploadPassword then "admin" else user.role)
          ∧ (googleAuthCallback ext cfg now db body).1.userRole = some u.role
      else
        ¬ (body.requestedRole = JsVal.str "admin"
            ∧ body.adminCode = envVal cfg.adminUploadPassword) →
          (googleAuthCallback ext cfg now db body).2 = db
            ∧ (googleAuthCallback ext cfg now db body).1.userRole = some user.role := by
  unfold googleAuthCallback at h ⊢
  by_cases hg : body.requestedRole = JsVal.str "admin"
      ∧ body.adminCode ≠ envVal cfg.adminUploadPassword
  · simp [hg] at h
  · simp only [hg, if_false] at h ⊢
    cases hf : User.findOne db body.email with
    | none =>
      simp only [hf] at h ⊢
      cases hc : User.create db now
          { name := body.name, email := body.email, password := none,
            role := some (if body.requestedRole = JsVal.str "admin"
                ∧ body.adminCode = envVal cfg.adminUploadPassword then "admin" else "user"),
            authProvider := some "google", providerUID := body.uid,
            photoURL := body.photoURL } with
      | error e => simp [hc] at h
      | ok r =>
        obtain ⟨u, db1⟩ := r
        obtain ⟨husers, _, _, hrole, _, _, _, _, _, hemail, _, _⟩ :=
          User.create_ok db now _ u db1 hc
        refine ⟨u, ?_, hemail, by simpa using hrole, ?_⟩
        · simp [hc, husers]
        · simp [hc, Response.userRole, googleSummaryOf]
    | some user =>
      simp only [hf] at h ⊢
      by_cases hl : truthyStr user.authProvider = false
      · simp only [hl, Bool.not_false, if_true] at h ⊢
        by_cases hel : body.requestedRole = JsVal.str "admin"
            ∧ body.adminCode = envVal cfg.adminUploadPassword
        · simp only [hel, and_self, if_true] at h ⊢
          split at h
          · simp at h
          · rename_i hv
            simp only [hv, if_false]
            exact ⟨_, rfl, rfl, rfl, rfl, rfl⟩
        · simp only [hel, if_false] at h ⊢
          split at h
          · simp at h
          · rename_i hv
            simp only [hv, if_false]
            exact ⟨_, rfl, rfl, rfl, rfl, rfl⟩
      · simp only [hl, if_false]
        intro _
        have hl1 : truthyStr user.authProvider = true := by simpa using hl
        simp [hl1, Response.userRole, googleSummaryOf]

/-- Witness for C3 (amended): the stored password account `bob@corp.io` signs in through
the provider with the right admin code and is saved with role `admin`. -/
theorem googleAuthCallback_role_witness :
    (googleAuthCallback sampleExt sampleCfg 100 sampleDb elevatingSignIn).1.status = 200
      ∧ (match User.findOne sampleDb elevatingSignIn.email with
        | none =>
          ∃ u, (googleAuthCallback sampleExt sampleCfg 100 sampleDb elevatingSignIn).2.users
              = sampleDb.users ++ [u]
            ∧ some u.email = elevatingSignIn.email
            ∧ u.role = (if elevatingSignIn.requestedRole = JsVal.str "admin"
                ∧ elevatingSignIn.adminCode = envVal sampleCfg.adminUploadPassword
                then "admin" else "user")
            ∧ (googleAuthCallback sampleExt sampleCfg 100 sampleDb
                elevatingSignIn).1.userRole = some u.role
        | some user =>
          if truthyStr user.authProvider = false then
            ∃ u, (googleAuthCallback sampleExt sampleCfg 100 sampleDb elevatingSignIn).2.users
                = sampleDb.users.map (fun v => if v.id == user.id then u else v)
              ∧ u.id = user.id ∧ u.email = user.email
              ∧ u.role = (if elevatingSignIn.requestedRole = JsVal.str "admin"
                  ∧ elevatingSignIn.adminCode = envVal sampleCfg.adminUploadPassword
                  then "admin" else user.role)
              ∧ (googleAuthCallback sampleExt sampleCfg 100 sampleDb
                  elevatingSignIn).1.userRole = some u.role
          else
            ¬ (elevatingSignIn.requestedRole = JsVal.str "admin"
                ∧ elevatingSignIn.adminCode = envVal sampleCfg.adminUploadPassword) →
              (googleAuthCallback sampleExt sampleCfg 100 sampleDb elevatingSignIn).2 = sampleDb
                ∧ (googleAuthCallback sampleExt sampleCfg 100 sampleDb
                    elevatingSignIn).1.userRole = some user.role) :=
  ⟨by decide,
    googleAuthCallback_role sampleExt sampleCfg 100 sampleDb elevatingSignIn (by decide)⟩

/-! ## Rejected elevation attempts -/

/-- C4 (as stated, refuted): a registration and a provider sign-in that claim role
`admin` with a wrong or omitted code are answered with status 401, not 403. -/
theorem elevation_rejected_not_403 :
    (registerUser sampleExt sampleCfg 100 sampleDb wrongCodeRegistration).1.status = 401
      ∧ (registerUser sampleExt sampleCfg 100 sampleDb wrongCodeRegistration).1.status ≠ 403
      ∧ (googleAuthCallback sampleExt sampleCfg 100 sampleDb noCodeSignIn).1.status = 401
      ∧ (googleAuthCallback sampleExt sampleCfg 100 sampleDb noCodeSignIn).1.status ≠ 403 := by
  decide

/-- C4 (amended): a registration for an email not yet registered, and a provider sign-in,
that claim role `admin` with an `adminCode` that is not strictly equal to the configured
secret (a wrong code, or an omitted code while a secret is configured) are answered with
status 401 and body `msg: "Invalid admin code", requiresAdminCode: true`, and the store
is left exactly as it was. -/
theorem elevation_rejected_401 (ext : Ext) (cfg : Config) (now : Nat) (db : Db)
    (rb : RegisterBody) (gb : GoogleBody)
    (hnew : User.findOne db rb.email = none)
    (hr : rb.role = JsVal.str "admin") (hrc : rb.adminCode ≠ envVal cfg.adminUploadPassword)
    (hg : gb.requestedRole = JsVal.str "admin")
    (hgc : gb.adminCode ≠ envVal cfg.adminUploadPassword) :
    registerUser ext cfg now db rb
        = (⟨401, ResBody.adminCodeRequired "Invalid admin code"⟩, db)
      ∧ googleAuthCallback ext cfg now db gb
        = (⟨401, ResBody.adminCodeRequired "Invalid admin code"⟩, db) := by
  constructor
  · unfold registerUser
    simp [hnew, hr, hrc]
  · unfold googleAuthCallback
    simp [hg, hgc]

/-- Witness for C4 (amended): a wrong code on registration and an omitted code on
sign-in, against a configured secret. -/
theorem elevation_rejected_401_witness :
    User.findOne sampleDb wrongCodeRegistration.email = none
      ∧ wrongCodeRegistration.adminCode ≠ envVal sampleCfg.adminUploadPassword
      ∧ noCodeSignIn.adminCode ≠ envVal sampleCfg.adminUploadPassword
      ∧ registerUser sampleExt sampleCfg 100 sampleDb wrongCodeRegistration
        = (⟨401, ResBody.adminCodeRequired "Invalid admin code"⟩, sampleDb)
      ∧ googleAuthCallback sampleExt sampleCfg 100 sampleDb noCodeSignIn
        = (⟨401, ResBody.adminCodeRequired "Invalid admin code"⟩, sampleDb) :=
  ⟨by decide, by decide, by decide,
    elevation_rejected_401 sampleExt sampleCfg 100 sampleDb wrongCodeRegistration noCodeSignIn
      (by decide) (by decide) (by decide) (by decide) (by decide)⟩

/-! ## The access control gate -/

/-- The middleware on a request whose token verifies and resolves to the stored account
`u`: only the status and role checks remain. -/
theorem authMiddleware_resolved (ext : Ext) (arg : JsVal) (now : Nat) (db : Db)
    (authorization : Option String) (token : String) (decoded : TokenPayload) (u : User)
    (ht : bearerToken authorization = some token) (hne : token ≠ "")
    (hv : ext.jwtVerify token now = Except.ok decoded)
    (hu : User.findById db decoded.id = some u) :
    authMiddleware ext arg now db authorization =
      if u.status ≠ "active" then reject 403 "Account is not active"
      else if (defaultRole arg).truthy then
        if defaultRole arg = JsVal.str "user" then
          if u.role ≠ "user" ∧ u.role ≠ "admin" then reject 403 "Insufficient privileges"
          else passOn u.selectNoPassword
        else if JsVal.str u.role ≠ defaultRole arg then reject 403 "Insufficient privileges"
        else passOn u.selectNoPassword
      else passOn u.selectNoPassword := by
  unfold authMiddleware
  simp only [ht, hne, hv, hu, if_false, Option.map_some', User.selectNoPassword]

/-- The middleware on a request that does not resolve to a stored account: the header is
absent, the token is empty, `jwt.verify` throws, or no account has the decoded id. -/
theorem authMiddleware_unresolved (ext : Ext) (arg : JsVal) (now : Nat) (db : Db)
    (authorization : Option String)
    (h : authorization = none ∨ bearerToken authorization = some ""
      ∨ (∃ token e, bearerToken authorization = some token
          ∧ ext.jwtVerify token now = Except.error e)
      ∨ (∃ token d, bearerToken authorization = some token
          ∧ ext.jwtVerify token now = Except.ok d ∧ User.findById db d.id = none)) :
    ∃ msg, authMiddleware ext arg now db authorization = reject 401 msg := by
  unfold authMiddleware
  rcases h with h | h | ⟨token, e, ht, hv⟩ | ⟨token, d, ht, hv, hu⟩
  · subst h
    exact ⟨_, rfl⟩
  · simp only [h, if_true]
    exact ⟨_, rfl⟩
  · simp only [ht, hv]
    by_cases h0 : token = ""
    · simp only [h0, if_true]; exact ⟨_, rfl⟩
    · simp only [h0, if_false]; exact ⟨_, rfl⟩
  · simp only [ht, hv, hu, Option.map_none']
    by_cases h0 : token = ""
    · simp only [h0, if_true]; exact ⟨_, rfl⟩
    · simp only [h0, if_false]; exact ⟨_, rfl⟩

/-- Every request either resolves to a stored account or falls under
`authMiddleware_unresolved`. -/
theorem resolved_or_unresolved (ext : Ext) (now : Nat) (db : Db)
    (authorization : Option String) :
    (∃ token d u, bearerToken authorization = some token ∧ token ≠ ""
        ∧ ext.jwtVerify token now = Except.ok d ∧ User.findById db d.id = some u)
      ∨ (authorization = none ∨ bearerToken authorization = some ""
        ∨ (∃ token e, bearerToken authorization = some token
            ∧ ext.jwtVerify token now = Except.error e)
        ∨ (∃ token d, bearerToken authorization = some token
            ∧ ext.jwtVerify token now = Except.ok d ∧ User.findById db d.id = none)) := by
  cases authorization with
  | none => exact Or.inr (Or.inl rfl)
  | some hdr =>
    by_cases h0 : replaceFirst hdr "Bearer " "" = ""
    · exact Or.inr (Or.inr (Or.inl (by simp [bearerToken, h0])))
    · cases hv : ext.jwtVerify (replaceFirst hdr "Bearer " "") now with
      | error e => exact Or.inr (Or.inr (Or.inr (Or.inl ⟨_, e, rfl, hv⟩)))
      | ok d =>
        cases hu : User.findById db d.id with
        | none => exact Or.inr (Or.inr (Or.inr (Or.inr ⟨_, d, rfl, hv, hu⟩)))
        | some u => exact Or.inl ⟨_, d, u, rfl, h0, hv, hu⟩

/-- C5: on a request whose token verifies and resolves to an active account, a route that
requires `"user"` (explicitly or by default) admits roles `user` and `admin` and answers
403 to any other role; a route that requires `"admin"` admits role `admin` and answers 403
to any other role; a route that requires any other role `r` answers 403 to every account
whose role is not `r`. Every 403 is a rejection: `next` is not called and `req.user` is
not set. -/
theorem authMiddleware_role_check (ext : Ext) (now : Nat) (db : Db)
    (authorization : Option String) (token : String) (decoded : TokenPayload) (u : User)
    (ht : bearerToken authorization = some token) (hne : token ≠ "")
    (hv : ext.jwtVerify token now = Except.ok decoded)
    (hu : User.findById db decoded.id = some u) (ha : u.status = "active") :
    (∀ arg, arg = JsVal.undefined ∨ arg = JsVal.str "user" →
        ((u.role = "user" ∨ u.role = "admin") →
          authMiddleware ext arg now db authorization
            = { response := none, nextCalls := 1, reqUser := some { u with password := none } })
        ∧ (¬ (u.role = "user" ∨ u.role = "admin") →
          authMiddleware ext arg now db authorization
            = { response := some ⟨403, ResBody.failure "Insufficient privileges"⟩,
                nextCalls := 0, reqUser := none }))
      ∧ (u.role = "admin" →
          authMiddleware ext (JsVal.str "admin") now db authorization
            = { response := none, nextCalls := 1, reqUser := some { u with password := none } })
      ∧ (u.role ≠ "admin" →
          authMiddleware ext (JsVal.str "admin") now db authorization
            = { response := some ⟨403, ResBody.failure "Insufficient privileges"⟩,
                nextCalls := 0, reqUser := none })
      ∧ (∀ r : String, r ≠ "" → r ≠ "user" → u.role ≠ r →
          authMiddleware ext (JsVal.str r) now db authorization
            = { response := some ⟨403, ResBody.failure "Insufficient privileges"⟩,
                nextCalls := 0, reqUser := none }) := by
  refine ⟨?_, ?_, ?_, ?_⟩
  · intro arg harg
    have hd : defaultRole arg = JsVal.str "user" := by
      rcases harg with h | h <;> subst h <;> rfl
    rw [authMiddleware_resolved ext arg now db authorization token decoded u ht hne hv hu, hd]
    constructor
    · intro hr
      have : ¬ (u.role ≠ "user" ∧ u.role ≠ "admin") := by
        rintro ⟨h1, h2⟩; rcases hr with h | h <;> contradiction
      simp [ha, this, JsVal.truthy, passOn, User.selectNoPassword]
    · intro hr
      have : u.role ≠ "user" ∧ u.role ≠ "admin" := by
        constructor <;> intro h <;> exact hr (by simp [h])
      simp [ha, this, JsVal.truthy, reject]
  · intro hr
    rw [authMiddleware_resolved ext _ now db authorization token decoded u ht hne hv hu]
    simp [ha, hr, defaultRole, JsVal.truthy, passOn, User.selectNoPassword]
  · intro hr
    rw [authMiddleware_resolved ext _ now db authorization token decoded u ht hne hv hu]
    simp [ha, hr, defaultRole, JsVal.truthy, reject]
  · intro r hr0 hr1 hr
    rw [authMiddleware_resolved ext _ now db authorization token decoded u ht hne hv hu]
    simp [ha, hr, hr0, hr1, defaultRole, JsVal.truthy, reject]

/-- Witness for C5: Bob (active, role `user`) is admitted by a default route and answered
403 by a route that requires `"admin"`. -/
theorem authMiddleware_role_check_witness :
    bearerToken (some "Bearer tok-2-user") = some "tok-2-user"
      ∧ sampleExt.jwtVerify "tok-2-user" 100 = Except.ok ⟨2, "user"⟩
      ∧ User.findById sampleDb 2 = some bob ∧ bob.status = "active"
      ∧ authMiddleware sampleExt JsVal.undefined 100 sampleDb (some "Bearer tok-2-user")
        = { response := none, nextCalls := 1, reqUser := some { bob with password := none } }
      ∧ authMiddleware sampleExt (JsVal.str "admin") 100 sampleDb (some "Bearer tok-2-user")
        = { response := some ⟨403, ResBody.failure "Insufficient privileges"⟩,
            nextCalls := 0, reqUser := none } :=
  have h := authMiddleware_role_check sampleExt 100 sampleDb (some "Bearer tok-2-user")
    "tok-2-user" ⟨2, "user"⟩ bob (by decide) (by decide) rfl (by decide) (by decide)
  ⟨by decide, rfl, by decide, by decide,
    (h.1 JsVal.undefined (Or.inl rfl)).1 (by decide), h.2.2.1 (by decide)⟩

/-- C6: a request whose `Authorization` header is absent, whose token is empty, whose
token `jwt.verify` rejects (malformed, wrongly signed or expired), or whose token verifies
but names an account that is not in the store, is answered 401; `next` is not called and
`req.user` is not set, whatever role the route requires. -/
theorem authMiddleware_rejects_unauthenticated (ext : Ext) (arg : JsVal) (now : Nat)
    (db : Db) (authorization : Option String)
    (h : authorization = none ∨ bearerToken authorization = some ""
      ∨ (∃ token e, bearerToken authorization = some token
          ∧ ext.jwtVerify token now = Except.error e)
      ∨ (∃ token d, bearerToken authorization = some token
          ∧ ext.jwtVerify token now = Except.ok d ∧ User.findById db d.id = none)) :
    (authMiddleware ext arg now db authorization).response.map (fun r => r.status) = some 401
      ∧ (authMiddleware ext arg now db authorization).nextCalls = 0
      ∧ (authMiddleware ext arg now db authorization).reqUser = none := by
  obtain ⟨msg, hm⟩ := authMiddleware_unresolved ext arg now db authorization h
  rw [hm]
  exact ⟨rfl, rfl, rfl⟩

/-- Witness for C6: an expired token. -/
theorem authMiddleware_rejects_unauthenticated_witness :
    (∃ token e, bearerToken (some "Bearer tok-old") = some token
        ∧ sampleExt.jwtVerify token 100 = Except.error e)
      ∧ (authMiddleware sampleExt JsVal.undefined 100 sampleDb
          (some "Bearer tok-old")).response.map (fun r => r.status) = some 401
      ∧ (authMiddleware sampleExt JsVal.undefined 100 sampleDb
          (some "Bearer tok-old")).nextCalls = 0
      ∧ (authMiddleware sampleExt JsVal.undefined 100 sampleDb
          (some "Bearer tok-old")).reqUser = none :=
  ⟨⟨"tok-old", JwtError.tokenExpired, by decide, rfl⟩,
    authMiddleware_rejects_unauthenticated sampleExt JsVal.undefined 100 sampleDb
      (some "Bearer tok-old")
      (Or.inr (Or.inr (Or.inl ⟨"tok-old", JwtError.tokenExpired, by decide, rfl⟩)))⟩

/-- C7: a request whose token verifies and resolves to an account whose status is not
`"active"` is answered 403 `"Account is not active"`; `next` is not called and `req.user`
is not set, whatever the account's role and whatever role the route requires. -/
theorem authMiddleware_rejects_inactive (ext : Ext) (arg : JsVal) (now : Nat) (db : Db)
    (authorization : Option String) (token : String) (decoded : TokenPayload) (u : User)
    (ht : bearerToken authorization = some token) (hne : token ≠ "")
    (hv : ext.jwtVerify token now = Except.ok decoded)
    (hu : User.findById db decoded.id = some u) (hs : u.status ≠ "active") :
    authMiddleware ext arg now db authorization
      = { response := some ⟨403, ResBody.failure "Account is not active"⟩,
          nextCalls := 0, reqUser := none } := by
  rw [authMiddleware_resolved ext arg now db authorization token decoded u ht hne hv hu]
  simp [hs, reject]

/-- Witness for C7: Cy's account is inactive. -/
theorem authMiddleware_rejects_inactive_witness :
    bearerToken (some "Bearer tok-3-user") = some "tok-3-user"
      ∧ sampleExt.jwtVerify "tok-3-user" 100 = Except.ok ⟨3, "user"⟩
      ∧ User.findById sampleDb 3 = some cy ∧ cy.status ≠ "active"
      ∧ authMiddleware sampleExt JsVal.undefined 100 sampleDb (some "Bearer tok-3-user")
        = { response := some ⟨403, ResBody.failure "Account is not active"⟩,
            nextCalls := 0, reqUser := none } :=
  ⟨by decide, rfl, by decide, by decide,
    authMiddleware_rejects_inactive sampleExt JsVal.undefined 100 sampleDb
      (some "Bearer tok-3-user") "tok-3-user" ⟨3, "user"⟩ cy
      (by decide) (by decide) rfl (by decide) (by decide)⟩

/-- On a resolved request to a route with a (truthy) required role, the middleware admits
exactly when the account is active and the specification's role rule is satisfied, and
answers 403 otherwise. -/
theorem authMiddleware_decision (ext : Ext) (arg : JsVal) (now : Nat) (db : Db)
    (authorization : Option String) (token : String) (decoded : TokenPayload) (u : User)
    (ht : bearerToken authorization = some token) (hne : token ≠ "")
    (hv : ext.jwtVerify token now = Except.ok decoded)
    (hu : User.findById db decoded.id = some u)
    (hreq : (defaultRole arg).truthy = true) :
    ∃ msg, authMiddleware ext arg now db authorization =
      if u.status = "active" ∧ specRoleAuthorized (defaultRole arg) u.role = true
      then passOn u.selectNoPassword else reject 403 msg := by
  rw [authMiddleware_resolved ext arg now db authorization token decoded u ht hne hv hu]
  by_cases hs : u.status = "active"
  · by_cases hd : defaultRole arg = JsVal.str "user"
    · by_cases hr : u.role = "user" ∨ u.role = "admin"
      · refine ⟨"", ?_⟩
        have : ¬ (u.role ≠ "user" ∧ u.role ≠ "admin") := by
          rintro ⟨h1, h2⟩; rcases hr with h | h <;> contradiction
        simp [hs, hd, this, specRoleAuthorized, JsVal.truthy, hr]
      · refine ⟨"Insufficient privileges", ?_⟩
        have : u.role ≠ "user" ∧ u.role ≠ "admin" := by
          constructor <;> intro h <;> exact hr (by simp [h])
        simp [hs, hd, this, specRoleAuthorized, JsVal.truthy]
    · by_cases hr : JsVal.str u.role = defaultRole arg
      · refine ⟨"", ?_⟩
        simp [hs, hd, hr, hreq, specRoleAuthorized]
      · refine ⟨"Insufficient privileges", ?_⟩
        simp [hs, hd, hr, hreq, specRoleAuthorized]
  · exact ⟨"Account is not active", by simp [hs]⟩

/-- C8: for a route with a required role, the middleware calls `next` if and only if the
token is present and verifies, the account it names exists, that account is active and its
role satisfies the route's required role; and in that case `next` is called exactly once,
no response is sent, and `req.user` is the stored account without its password hash. -/
theorem authMiddleware_admits_iff (ext : Ext) (arg : JsVal) (now : Nat) (db : Db)
    (authorization : Option String) (hreq : (defaultRole arg).truthy = true) :
    (0 < (authMiddleware ext arg now db authorization).nextCalls ↔
        ∃ token d u, bearerToken authorization = some token ∧ token ≠ ""
          ∧ ext.jwtVerify token now = Except.ok d ∧ User.findById db d.id = some u
          ∧ u.status = "active" ∧ specRoleAuthorized (defaultRole arg) u.role = true)
      ∧ (∀ token d u, bearerToken authorization = some token → token ≠ "" →
          ext.jwtVerify token now = Except.ok d → User.findById db d.id = some u →
          u.status = "active" → specRoleAuthorized (defaultRole arg) u.role = true →
          authMiddleware ext arg now db authorization
            = { response := none, nextCalls := 1,
                reqUser := some { u with password := none } }) := by
  have key : ∀ token d u, bearerToken authorization = some token → token ≠ "" →
      ext.jwtVerify token now = Except.ok d → User.findById db d.id = some u →
      u.status = "active" → specRoleAuthorized (defaultRole arg) u.role = true →
      authMiddleware ext arg now db authorization
        = { response := none, nextCalls := 1,
            reqUser := some { u with password := none } } := by
    intro token d u ht hne hv hu hs hr
    obtain ⟨msg, hm⟩ :=
      authMiddleware_decision ext arg now db authorization token d u ht hne hv hu hreq
    rw [hm]
    simp [hs, hr, passOn, User.selectNoPassword]
  refine ⟨⟨?_, ?_⟩, key⟩
  · intro hn
    rcases resolved_or_unresolved ext now db authorization with
      ⟨token, d, u, ht, hne, hv, hu⟩ | hun
    · obtain ⟨msg, hm⟩ :=
        authMiddleware_decision ext arg now db authorization token d u ht hne hv hu hreq
      by_cases hok : u.status = "active" ∧ specRoleAuthorized (defaultRole arg) u.role = true
      · exact ⟨token, d, u, ht, hne, hv, hu, hok.1, hok.2⟩
      · rw [hm, if_neg hok] at hn
        simp [reject] at hn
    · obtain ⟨msg, hm⟩ := authMiddleware_unresolved ext arg now db authorization hun
      rw [hm] at hn
      simp [reject] at hn
  · rintro ⟨token, d, u, ht, hne, hv, hu, hs, hr⟩
    rw [key token d u ht hne hv hu hs hr]
    exact Nat.one_pos

/-- Witness for C8: the admin route admits Asha once, with her stored account. -/
theorem authMiddleware_admits_iff_witness :
    (defaultRole (JsVal.str "admin")).truthy = true
      ∧ authMiddleware sampleExt (JsVal.str "admin") 100 sampleDb (some "Bearer tok-1-admin")
        = { response := none, nextCalls := 1, reqUser := some { asha with password := none } } :=
  ⟨by decide,
    (authMiddleware_admits_iff sampleExt (JsVal.str "admin") 100 sampleDb
      (some "Bearer tok-1-admin") (by decide)).2 "tok-1-admin" ⟨1, "admin"⟩ asha
      (by decide) (by decide) rfl (by decide) (by decide) (by decide)⟩

/-- C9: two requests whose tokens both verify and carry the same account id get the same
result from the middleware (same response, same call of `next`, same `req.user`),
whatever role each token carries. -/
theorem authMiddleware_ignores_token_role (ext : Ext) (arg : JsVal) (now : Nat) (db : Db)
    (a1 a2 : Option String) (t1 t2 : String) (id : Nat) (r1 r2 : String)
    (h1 : bearerToken a1 = some t1) (hne1 : t1 ≠ "")
    (hv1 : ext.jwtVerify t1 now = Except.ok ⟨id, r1⟩)
    (h2 : bearerToken a2 = some t2) (hne2 : t2 ≠ "")
    (hv2 : ext.jwtVerify t2 now = Except.ok ⟨id, r2⟩) :
    authMiddleware ext arg now db a1 = authMiddleware ext arg now db a2 := by
  unfold authMiddleware
  simp only [h1, hne1, hv1, h2, hne2, hv2, if_false]

/-- Witness for C9: a token for account 2 that carries role `admin` is treated exactly
like one that carries role `user`; the admin route answers both with 403. -/
theorem authMiddleware_ignores_token_role_witness :
    ("user" : String) ≠ "admin"
      ∧ authMiddleware sampleExt (JsVal.str "admin") 100 sampleDb (some "Bearer tok-2-user")
        = authMiddleware sampleExt (JsVal.str "admin") 100 sampleDb (some "Bearer tok-2-admin")
      ∧ (authMiddleware sampleExt (JsVal.str "admin") 100 sampleDb
          (some "Bearer tok-2-admin")).response.map (fun r => r.status) = some 403 :=
  ⟨by decide,
    authMiddleware_ignores_token_role sampleExt (JsVal.str "admin") 100 sampleDb
      (some "Bearer tok-2-user") (some "Bearer tok-2-admin") "tok-2-user" "tok-2-admin" 2
      "user" "admin" (by decide) (by decide) rfl (by decide) (by decide) rfl,
    by decide⟩

/-! ## The admin router -/

/-- C10 (as stated, refuted): a caller of an `/api/admin` route with no token, with an
expired token, or with a token for an account that no longer exists is answered 401, not
403. -/
theorem adminRouterGate_unauthenticated_401 :
    (adminRouterGate sampleExt 100 sampleDb none).response.map (fun r => r.status) = some 401
      ∧ (adminRouterGate sampleExt 100 sampleDb none).response.map (fun r => r.status)
        ≠ some 403
      ∧ (adminRouterGate sampleExt 100 sampleDb
          (some "Bearer tok-old")).response.map (fun r => r.status) = some 401
      ∧ (adminRouterGate sampleExt 100 sampleDb
          (some "Bearer tok-9-user")).response.map (fun r => r.status) = some 401 := by
  decide

/-- C10 (amended): when the caller of an `/api/admin` route is not an admin (the request
does not resolve to a stored account with role `admin`), the handler behind the gate is
never called and `req.user` is not set; the response status is 403 when the token verifies
and names a stored account, and 401 when the token is absent, empty, rejected by
`jwt.verify`, or names no stored account. -/
theorem adminRouterGate_non_admin (ext : Ext) (now : Nat) (db : Db)
    (authorization : Option String)
    (hnon : ∀ token d u, bearerToken authorization = some token →
      ext.jwtVerify token now = Except.ok d → User.findById db d.id = some u →
      u.role ≠ "admin") :
    (adminRouterGate ext now db authorization).nextCalls = 0
      ∧ (adminRouterGate ext now db authorization).reqUser = none
      ∧ ((∃ token d u, bearerToken authorization = some token ∧ token ≠ ""
            ∧ ext.jwtVerify token now = Except.ok d ∧ User.findById db d.id = some u) →
          (adminRouterGate ext now db authorization).response.map (fun r => r.status)
            = some 403)
      ∧ (¬ (∃ token d u, bearerToken authorization = some token ∧ token ≠ ""
            ∧ ext.jwtVerify token now = Except.ok d ∧ User.findById db d.id = some u) →
          (adminRouterGate ext now db authorization).response.map (fun r => r.status)
            = some 401) := by
  have hres : ∀ token d u, bearerToken authorization = some token → token ≠ "" →
      ext.jwtVerify token now = Except.ok d → User.findById db d.id = some u →
      ∃ msg, adminRouterGate ext now db authorization = reject 403 msg := by
    intro token d u ht hne hv hu
    obtain ⟨msg, hm⟩ := authMiddleware_decision ext (JsVal.str "admin") now db authorization
      token d u ht hne hv hu (by decide)
    have hr : u.role ≠ "admin" := hnon token d u ht hv hu
    refine ⟨msg, ?_⟩
    unfold adminRouterGate
    rw [hm]
    simp [specRoleAuthorized, defaultRole, hr]
  rcases resolved_or_unresolved ext now db authorization with
    ⟨token, d, u, ht, hne, hv, hu⟩ | hun
  · obtain ⟨msg, hm⟩ := hres token d u ht hne hv hu
    rw [hm]
    refine ⟨rfl, rfl, fun _ => rfl, fun hno => absurd ⟨token, d, u, ht, hne, hv, hu⟩ hno⟩
  · obtain ⟨msg, hm⟩ := authMiddleware_unresolved ext (JsVal.str "admin") now db
      authorization hun
    have hm1 : adminRouterGate ext now db authorization = reject 401 msg := hm
    rw [hm1]
    refine ⟨rfl, rfl, ?_, fun _ => rfl⟩
    rintro ⟨token, d, u, ht, hne, hv, hu⟩
    obtain ⟨msg1, hm2⟩ := hres token d u ht hne hv hu
    rw [hm1] at hm2
    simp [reject] at hm2

/-- Witness for C10 (amended): Bob (active, role `user`) calls an admin route with his
valid token and is answered 403; the handler is not called. -/
theorem adminRouterGate_non_admin_witness :
    (adminRouterGate sampleExt 100 sampleDb (some "Bearer tok-2-user")).nextCalls = 0
      ∧ (adminRouterGate sampleExt 100 sampleDb
          (some "Bearer tok-2-user")).response.map (fun r => r.status) = some 403 := by
  have hb : bearerToken (some "Bearer tok-2-user") = some "tok-2-user" := by decide
  have h := adminRouterGate_non_admin sampleExt 100 sampleDb (some "Bearer tok-2-user")
    (by
      intro token d u ht hv hu
      rw [hb] at ht
      have ht1 : token = "tok-2-user" := (Option.some.inj ht).symm
      subst ht1
      have hd : d = ⟨2, "user"⟩ := by
        have : sampleExt.jwtVerify "tok-2-user" 100 = Except.ok ⟨2, "user"⟩ := rfl
        rw [this] at hv
        exact (Except.ok.inj hv).symm
      subst hd
      have hu1 : User.findById sampleDb 2 = some bob := by decide
      rw [hu1] at hu
      have : u = bob := (Option.some.inj hu).symm
      subst this
      decide)
  exact ⟨h.1, h.2.2.1 ⟨"tok-2-user", ⟨2, "user"⟩, bob, hb, by decide, rfl, by decide⟩⟩

/-! ## Admin mutations -/

/-- On a list whose keys are pairwise distinct, erasing the first element with key `k`
removes every element with key `k`. -/
theorem eraseP_eq_filter_of_nodup {α : Type} (key : α → Nat) (k : Nat) :
    ∀ l : List α, (l.map key).Nodup →
      l.eraseP (fun x => key x == k) = l.filter (fun x => !(key x == k)) := by
  intro l
  induction l with
  | nil => intro _; rfl
  | cons a t ih =>
    intro hn
    rw [List.map_cons, List.nodup_cons] at hn
    by_cases hk : key a = k
    · have hfil : t.filter (fun x => !(key x == k)) = t := by
        rw [List.filter_eq_self]
        intro x hx
        have : key x ≠ k := by
          intro hxk
          exact hn.1 (hk ▸ hxk ▸ List.mem_map_of_mem key hx)
        simp [this]
      simp [List.eraseP_cons, hk, hfil]
    · simp [List.eraseP_cons, hk, ih hn.2]

/-- C11 (as stated, refuted): an admin who targets their own account with a delete, a
role change or a status change is answered 400, not 403. -/
theorem self_target_status_400 :
    (deleteUser sampleCodec historyDb asha (sampleCodec.hex asha.id)).1.status = 400
      ∧ (deleteUser sampleCodec historyDb asha (sampleCodec.hex asha.id)).1.status ≠ 403
      ∧ (patchUserRole sampleCodec 100 historyDb asha (sampleCodec.hex asha.id)
          (JsVal.str "user")).1.status = 400
      ∧ (patchUserStatus sampleCodec 100 historyDb asha (sampleCodec.hex asha.id)
          (JsVal.str "inactive")).1.status = 400 := by
  decide

/-- C11 (amended): when the `:id` path parameter is equal to the acting admin's own id
string (`req.user.id`), a delete, a role change and a status change are each answered with
status 400 and the store (accounts, history entries, uploads) is left exactly as it was,
whatever role or status the request body carries. -/
theorem self_target_rejected (codec : IdCodec) (now : Nat) (db : Db) (reqUser : User)
    (id : String) (role status : JsVal) (hself : id = codec.hex reqUser.id) :
    deleteUser codec db reqUser id
        = (⟨400, ApiBody.error "Cannot delete your own account"⟩, db)
      ∧ (patchUserRole codec now db reqUser id role).1.status = 400
      ∧ (patchUserRole codec now db reqUser id role).2 = db
      ∧ (patchUserStatus codec now db reqUser id status).1.status = 400
      ∧ (patchUserStatus codec now db reqUser id status).2 = db := by
  subst hself
  refine ⟨by simp [deleteUser], ?_, ?_, ?_, ?_⟩
  · unfold patchUserRole
    cases includedIn ["user", "admin"] role <;> simp
  · unfold patchUserRole
    cases includedIn ["user", "admin"] role <;> simp
  · unfold patchUserStatus
    cases includedIn ["active", "inactive"] status <;> simp
  · unfold patchUserStatus
    cases includedIn ["active", "inactive"] status <;> simp

/-- Witness for C11 (amended): Asha asks to demote herself. -/
theorem self_target_rejected_witness :
    (patchUserRole sampleCodec 100 historyDb asha "0a01" (JsVal.str "user")).1.status = 400
      ∧ (patchUserRole sampleCodec 100 historyDb asha "0a01" (JsVal.str "user")).2
        = historyDb :=
  have h := self_target_rejected sampleCodec 100 historyDb asha "0a01" (JsVal.str "user")
    (JsVal.str "inactive") (by decide)
  ⟨h.2.1, h.2.2.1⟩

/-- C12: a delete request whose `:id` names a stored account with role `admin` is rejected
and leaves the store exactly as it was, so neither the target nor any history entry is
removed: the status is 400 when the id string is the acting admin's own, and otherwise
403 `"Cannot delete admin users"`; in particular it is 403 whenever the target is another
account than the acting admin. -/
theorem deleteUser_admin_target (codec : IdCodec) (db : Db) (reqUser : User) (id : String)
    (oid : Nat) (target : User) (hc : codec.cast id = some oid)
    (ht : User.findById db oid = some target) (hr : target.role = "admin") :
    (deleteUser codec db reqUser id).2 = db
      ∧ (id = codec.hex reqUser.id → (deleteUser codec db reqUser id).1.status = 400)
      ∧ (id ≠ codec.hex reqUser.id →
          (deleteUser codec db reqUser id).1 = ⟨403, ApiBody.error "Cannot delete admin users"⟩)
      ∧ (codec.cast (codec.hex reqUser.id) = some reqUser.id → oid ≠ reqUser.id →
          (deleteUser codec db reqUser id).1 = ⟨403, ApiBody.error "Cannot delete admin users"⟩) := by
  have hne : id ≠ codec.hex reqUser.id →
      deleteUser codec db reqUser id
        = (⟨403, ApiBody.error "Cannot delete admin users"⟩, db) := by
    intro h
    unfold deleteUser
    simp [h, hc, ht, hr]
  refine ⟨?_, ?_, ?_, ?_⟩
  · by_cases h : id = codec.hex reqUser.id
    · simp [deleteUser, h]
    · rw [hne h]
  · intro h
    simp [deleteUser, h]
  · intro h
    rw [hne h]
  · intro hlaw hother
    have h : id ≠ codec.hex reqUser.id := by
      intro heq
      rw [heq, hlaw] at hc
      exact hother (Option.some.inj hc).symm
    rw [hne h]

/-- Witness for C12: the admin Dee asks to delete the admin Asha. -/
theorem deleteUser_admin_target_witness :
    sampleCodec.cast "0a01" = some 1 ∧ User.findById teamDb 1 = some asha
      ∧ asha.role = "admin"
      ∧ (deleteUser sampleCodec teamDb dee "0a01").2 = teamDb
      ∧ (deleteUser sampleCodec teamDb dee "0a01").1
        = ⟨403, ApiBody.error "Cannot delete admin users"⟩ :=
  have h := deleteUser_admin_target sampleCodec teamDb dee "0a01" 1 asha (by decide)
    (by decide) (by decide)
  ⟨by decide, by decide, by decide, h.1, h.2.2.1 (by decide)⟩

/-- The handler `deleteUser` answers 200 only on the path that removes a stored
non-admin account. -/
theorem deleteUser_cases (codec : IdCodec) (db : Db) (reqUser : User) (id : String)
    (h : (deleteUser codec db reqUser id).1.status = 200) :
    ∃ oid target, id ≠ codec.hex reqUser.id ∧ codec.cast id = some oid
      ∧ User.findById db oid = some target ∧ target.role ≠ "admin"
      ∧ deleteUser codec db reqUser id
        = (⟨200, ApiBody.message "User deleted successfully"⟩,
            History.deleteMany (User.findByIdAndDelete db oid) oid) := by
  unfold deleteUser at h ⊢
  by_cases hs : id = codec.hex reqUser.id
  · simp [hs] at h
  · simp only [hs, if_false] at h ⊢
    cases hc : codec.cast id with
    | none => simp [hc] at h
    | some oid =>
      simp only [hc] at h ⊢
      cases hf : User.findById db oid with
      | none => simp [hf] at h
      | some target =>
        simp only [hf] at h ⊢
        by_cases hr : target.role = "admin"
        · simp [hr] at h
        · simp only [hr, if_false]
          exact ⟨oid, target, hs, rfl, hf, hr, rfl⟩

/-- C13: after a successful `DELETE /api/admin/users/:id` (status 200), with `_id`s
unique in the collection, the account named by `:id` is no longer in the store and no
history entry that references it remains; every other account and every history entry of
another owner is still stored, unchanged and in the same order, and the uploads
collection is untouched. -/
theorem deleteUser_success (codec : IdCodec) (db : Db) (reqUser : User) (id : String)
    (hids : (db.users.map User.id).Nodup)
    (h : (deleteUser codec db reqUser id).1.status = 200) :
    ∃ oid target, codec.cast id = some oid ∧ User.findById db oid = some target
      ∧ (deleteUser codec db reqUser id).2.users
        = db.users.filter (fun u => !(u.id == oid))
      ∧ (deleteUser codec db reqUser id).2.histories
        = db.histories.filter (fun e => !(e.user == oid))
      ∧ (deleteUser codec db reqUser id).2.uploads = db.uploads
      ∧ User.findById (deleteUser codec db reqUser id).2 oid = none
      ∧ (∀ e ∈ (deleteUser codec db reqUser id).2.histories, e.user ≠ oid)
      ∧ (∀ u ∈ db.users, u.id ≠ oid → u ∈ (deleteUser codec db reqUser id).2.users)
      ∧ (∀ e ∈ db.histories, e.user ≠ oid →
          e ∈ (deleteUser codec db reqUser id).2.histories) := by
  obtain ⟨oid, target, _, hc, hf, _, hres⟩ := deleteUser_cases codec db reqUser id h
  have husers : (deleteUser codec db reqUser id).2.users
      = db.users.filter (fun u => !(u.id == oid)) := by
    rw [hres]
    exact eraseP_eq_filter_of_nodup User.id oid db.users hids
  have hhist : (deleteUser codec db reqUser id).2.histories
      = db.histories.filter (fun e => !(e.user == oid)) := by
    rw [hres]; rfl
  refine ⟨oid, target, hc, hf, husers, hhist, by rw [hres]; rfl, ?_, ?_, ?_, ?_⟩
  · unfold User.findById
    rw [husers, List.find?_eq_none]
    intro u hu
    have := (List.mem_filter.mp hu).2
    simpa using this
  · intro e he
    rw [hhist] at he
    have := (List.mem_filter.mp he).2
    simpa using this
  · intro u hu hne
    rw [husers]
    exact List.mem_filter.mpr ⟨hu, by simpa using hne⟩
  · intro e he hne
    rw [hhist]
    exact List.mem_filter.mpr ⟨he, by simpa using hne⟩

/-- Witness for C13: Asha deletes Bob; Bob and his two charts are gone, the other
accounts and Asha's chart remain. -/
theorem deleteUser_success_witness :
    (historyDb.users.map User.id).Nodup
      ∧ (deleteUser sampleCodec historyDb asha "0a02").1.status = 200
      ∧ (deleteUser sampleCodec historyDb asha "0a02").2.users = [asha, cy]
      ∧ (deleteUser sampleCodec historyDb asha "0a02").2.histories = [chartB]
      ∧ ∃ oid target, sampleCodec.cast "0a02" = some oid
          ∧ User.findById historyDb oid = some target
          ∧ User.findById (deleteUser sampleCodec historyDb asha "0a02").2 oid = none :=
  have h := deleteUser_success sampleCodec historyDb asha "0a02" (by decide) (by decide)
  ⟨by decide, by decide, by decide, by decide,
    h.elim fun oid h1 => h1.elim fun target h2 =>
      ⟨oid, target, h2.1, h2.2.1, h2.2.2.2.2.2.1⟩⟩

/-! ## Deleting a history entry -/

/-- C19 (as stated, refuted): for the identifier `not-an-id`, which no stored entry has,
`DELETE /api/admin/uploads/:id` is answered 500, not 404 (the collection is unchanged). -/
theorem deleteUpload_malformed_500 :
    (∀ e ∈ historyDb.histories, sampleCodec.hex e.id ≠ "not-an-id")
      ∧ sampleCodec.cast "not-an-id" = none
      ∧ (deleteUpload sampleCodec historyDb "not-an-id").1.status = 500
      ∧ (deleteUpload sampleCodec historyDb "not-an-id").1.status ≠ 404
      ∧ (deleteUpload sampleCodec historyDb "not-an-id").2 = historyDb := by
  decide

/-- C19 (amended): for a well-formed identifier (one that casts to an `_id`), with `_id`s
unique in the collection: when an entry has that `_id` the request is answered 200, that
entry is removed and every other entry, account and upload is unchanged; when no entry
has it the request is answered 404 `"Upload not found"` and the store is unchanged. -/
theorem deleteUpload_wellformed (codec : IdCodec) (db : Db) (id : String) (oid : Nat)
    (hc : codec.cast id = some oid) (hids : (db.histories.map History.id).Nodup) :
    ((∃ e ∈ db.histories, e.id = oid) →
        (deleteUpload codec db id).1
          = ⟨200, ApiBody.message "Upload record deleted successfully"⟩
        ∧ (deleteUpload codec db id).2.histories
          = db.histories.filter (fun e => !(e.id == oid))
        ∧ (deleteUpload codec db id).2.users = db.users
        ∧ (deleteUpload codec db id).2.uploads = db.uploads)
      ∧ ((∀ e ∈ db.histories, e.id ≠ oid) →
        deleteUpload codec db id = (⟨404, ApiBody.error "Upload not found"⟩, db)) := by
  constructor
  · rintro ⟨e, he, heq⟩
    have hfind : (db.histories.find? (fun h => h.id == oid)).isSome = true := by
      rw [List.find?_isSome]
      exact ⟨e, he, by simp [heq]⟩
    obtain ⟨x, hx⟩ := Option.isSome_iff_exists.mp hfind
    unfold deleteUpload
    simp only [hc, History.findByIdAndDelete, hx]
    exact ⟨trivial, eraseP_eq_filter_of_nodup History.id oid db.histories hids, trivial, trivial⟩
  · intro hno
    have hfind : db.histories.find? (fun h => h.id == oid) = none := by
      rw [List.find?_eq_none]
      intro x hx
      simpa using hno x hx
    unfold deleteUpload
    simp only [hc, History.findByIdAndDelete, hfind]

/-- Witness for C19 (amended): deleting Asha's chart by its identifier. -/
theorem deleteUpload_wellformed_witness :
    sampleCodec.cast "0a05" = some 5 ∧ (historyDb.histories.map History.id).Nodup
      ∧ (deleteUpload sampleCodec historyDb "0a05").1
        = ⟨200, ApiBody.message "Upload record deleted successfully"⟩
      ∧ (deleteUpload sampleCodec historyDb "0a05").2.histories = [chartA, chartC] :=
  have h := (deleteUpload_wellformed sampleCodec historyDb "0a05" 5 (by decide)
    (by decide)).1 ⟨chartB, by decide, by decide⟩
  ⟨by decide, by decide, h.1, by decide⟩

/-! ## The history ledger -/

/-- A successful `History.create` appends exactly the new entry, stamped with the current
time and the fresh `_id`, and every one of its string fields is non-empty. -/
theorem historyCreate_ok (js : JsRuntime) (db : Db) (now user : Nat)
    (fileName xAxis yAxis chartType : JsVal) (e : History) (db1 : Db)
    (h : History.create js db now user fileName xAxis yAxis chartType = Except.ok (e, db1)) :
    db1.histories = db.histories ++ [e] ∧ db1.users = db.users ∧ db1.uploads = db.uploads
      ∧ e.id = db.nextId ∧ e.user = user ∧ e.createdAt = now
      ∧ castString js fileName = Except.ok (some e.fileName) ∧ e.fileName ≠ ""
      ∧ castString js xAxis = Except.ok (some e.xAxis) ∧ e.xAxis ≠ ""
      ∧ castString js yAxis = Except.ok (some e.yAxis) ∧ e.yAxis ≠ ""
      ∧ castString js chartType = Except.ok (some e.chartType)
      ∧ (e.chartType = "Bar" ∨ e.chartType = "Line" ∨ e.chartType = "Pie") := by
  unfold History.create at h
  cases hf : castString js fileName with
  | error m => simp [hf] at h
  | ok f =>
    cases hx : castString js xAxis with
    | error m => simp [hf, hx] at h
    | ok x =>
      cases hy : castString js yAxis with
      | error m => simp [hf, hx, hy] at h
      | ok y =>
        cases hc : castString js chartType with
        | error m => simp [hf, hx, hy, hc] at h
        | ok c =>
          simp only [hf, hx, hy, hc] at h
          split at h
          · rename_i hv
            simp only [Bool.and_eq_true, Bool.or_eq_true, beq_iff_eq] at hv
            obtain ⟨⟨⟨⟨hf1, hx1⟩, hy1⟩, hc1⟩, henum⟩ := hv
            injection h with h
            injection h with he hdb
            subst he hdb
            cases f with
            | none => simp [requiredString] at hf1
            | some f =>
              cases x with
              | none => simp [requiredString] at hx1
              | some x =>
                cases y with
                | none => simp [requiredString] at hy1
                | some y =>
                  cases c with
                  | none => simp [requiredString] at hc1
                  | some c =>
                    simp only [requiredString, bne_iff_ne, ne_eq] at hf1 hx1 hy1
                    simp only [Option.some.injEq] at henum
                    exact ⟨rfl, rfl, rfl, rfl, rfl, rfl, rfl, hf1, rfl, hx1, rfl, hy1, rfl,
                      or_assoc.mp henum⟩
          · simp at h

/-- C14: a `POST /api/history` request from an admitted account in which `fileName`,
`xAxis`, `yAxis` or `chartType` is absent, `null` or the empty string is answered 400
`"Missing required fields"` and the store is unchanged; and for every request whatsoever
the store is either unchanged or gains exactly one entry all of whose fields are
non-empty, so no partial record is stored. -/
theorem postHistory_missing_field (js : JsRuntime) (now : Nat) (db : Db) (reqUser : User)
    (body : HistoryBody) (missing : JsVal)
    (hm : missing = JsVal.undefined ∨ missing = JsVal.null ∨ missing = JsVal.str "")
    (hb : body.fileName = missing ∨ body.xAxis = missing ∨ body.yAxis = missing
      ∨ body.chartType = missing) :
    postHistory js now db reqUser body = (⟨400, ApiBody.error "Missing required fields"⟩, db)
      ∧ ∀ other : HistoryBody,
          (postHistory js now db reqUser other).2 = db
            ∨ ∃ e, (postHistory js now db reqUser other).2.histories = db.histories ++ [e]
                ∧ (postHistory js now db reqUser other).2.users = db.users
                ∧ e.user = reqUser.id
                ∧ e.fileName ≠ "" ∧ e.xAxis ≠ "" ∧ e.yAxis ≠ "" ∧ e.chartType ≠ "" := by
  constructor
  · have hfalsy : missing.truthy = false := by
      rcases hm with h | h | h <;> subst h <;> rfl
    unfold postHistory
    rcases hb with h | h | h | h <;> simp [h, hfalsy]
  · intro other
    unfold postHistory
    split
    · exact Or.inl rfl
    · cases hc : History.create js db now reqUser.id other.fileName other.xAxis other.yAxis
          other.chartType with
      | error m => exact Or.inl rfl
      | ok r =>
        obtain ⟨e, db1⟩ := r
        obtain ⟨h1, h2, _, _, h5, _, _, h8, _, h10, _, h12, _, h14⟩ :=
          historyCreate_ok js db now reqUser.id _ _ _ _ e db1 hc
        refine Or.inr ⟨e, h1, h2, h5, h8, h10, h12, ?_⟩
        rcases h14 with h | h | h <;> rw [h] <;> decide

/-- Witness for C14: a record request without `yAxis`. -/
theorem postHistory_missing_field_witness :
    partialRecord.yAxis = JsVal.undefined
      ∧ postHistory sampleJs 100 historyDb bob partialRecord
        = (⟨400, ApiBody.error "Missing required fields"⟩, historyDb) :=
  ⟨rfl,
    (postHistory_missing_field sampleJs 100 historyDb bob partialRecord JsVal.undefined
      (Or.inl rfl) (Or.inr (Or.inr (Or.inl rfl)))).1⟩

/-- A record request whose `fileName` is an object is stored under the `_id` of that
object when the `_id` is a non-empty string, and is answered 500 with the store unchanged
when the object has no such `_id`; a safe integer is cast to its decimal digits. -/
theorem postHistory_casts_fileName :
    postHistory documentJs 100 sampleDb bob documentRecord
        = (⟨201, ApiBody.historySaved "History saved successfully"
              ⟨4, 2, "report.xlsx", "Name", "Salary", "Bar", 100⟩⟩,
            { sampleDb with
              histories := [⟨4, 2, "report.xlsx", "Name", "Salary", "Bar", 100⟩]
              nextId := 5 })
      ∧ postHistory sampleJs 100 sampleDb bob documentRecord
        = (⟨500, ApiBody.error "Failed to save history"⟩, sampleDb)
      ∧ castString sampleJs (JsVal.num 2024) = Except.ok (some "2024") :=
  ⟨by decide, by decide, rfl⟩

/-- The result of `sortNewestFirst` is a rearrangement of its input in which no entry is
followed by a newer one. -/
theorem sortNewestFirst_spec {α : Type} (createdAt : α → Nat) (l : List α) :
    (sortNewestFirst createdAt l).Perm l
      ∧ (sortNewestFirst createdAt l).Pairwise (fun a b => createdAt b ≤ createdAt a) := by
  haveI : IsTotal α (fun a b => createdAt b ≤ createdAt a) :=
    ⟨fun a b => Nat.le_total (createdAt b) (createdAt a)⟩
  haveI : IsTrans α (fun a b => createdAt b ≤ createdAt a) :=
    ⟨fun _ _ _ hab hbc => Nat.le_trans hbc hab⟩
  exact ⟨List.perm_insertionSort _ l, List.sorted_insertionSort _ l⟩

/-- An element appended to the collection that is strictly newer than all others comes
first in `sortNewestFirst`. -/
theorem sortNewestFirst_append_newest {α : Type} (createdAt : α → Nat) (a : α) :
    ∀ l : List α, (∀ b ∈ l, createdAt b < createdAt a) →
      sortNewestFirst createdAt (l ++ [a]) = a :: sortNewestFirst createdAt l := by
  intro l
  induction l with
  | nil => intro _; rfl
  | cons b t ih =>
    intro h
    have hb : ¬ createdAt a ≤ createdAt b := Nat.not_le.mpr (h b (List.mem_cons_self b t))
    have iht := ih (fun c hc => h c (List.mem_cons_of_mem b hc))
    unfold sortNewestFirst at iht ⊢
    rw [List.cons_append, List.insertionSort, iht, List.orderedInsert, if_neg hb]
    rfl

/-- C15: `GET /api/history` returns, with status 200, the projections of exactly the
stored entries whose owner is the requesting account (a rearrangement of that selection:
all of them and none of another account), ordered so that no entry is followed by a newer
one, with `count` equal to the number of entries returned. -/
theorem getHistory_exact (db : Db) (reqUser : User) :
    ∃ l : List History,
      l.Perm (db.histories.filter (fun e => e.user == reqUser.id))
        ∧ l.Pairwise (fun a b => b.createdAt ≤ a.createdAt)
        ∧ getHistory db reqUser
          = ⟨200, ApiBody.historyList l.length (l.map History.view)⟩ := by
  obtain ⟨hp, hs⟩ := sortNewestFirst_spec History.createdAt (History.findByUser db reqUser.id)
  refine ⟨_, hp, hs, ?_⟩
  simp [getHistory]

/-- A record request whose four fields are non-empty strings and whose chart type is
allowed is answered 201 and appends the entry built from it. -/
theorem postHistory_valid (js : JsRuntime) (now : Nat) (db : Db) (reqUser : User)
    (f x y c : String)
    (hf : f ≠ "") (hx : x ≠ "") (hy : y ≠ "")
    (hc : c = "Bar" ∨ c = "Line" ∨ c = "Pie") :
    postHistory js now db reqUser ⟨JsVal.str f, JsVal.str x, JsVal.str y, JsVal.str c⟩
      = (⟨201, ApiBody.historySaved "History saved successfully"
            ⟨db.nextId, reqUser.id, f, x, y, c, now⟩⟩,
          { db with histories := db.histories ++ [⟨db.nextId, reqUser.id, f, x, y, c, now⟩],
                    nextId := db.nextId + 1 }) := by
  have hc0 : c ≠ "" := by rcases hc with h | h | h <;> rw [h] <;> decide
  have hen : (c == "Bar" || c == "Line" || c == "Pie") = true := by
    rcases hc with h | h | h <;> rw [h] <;> decide
  simp only [Bool.or_eq_true, beq_iff_eq] at hen
  unfold postHistory History.create
  simp [JsVal.truthy, castString, requiredString, hf, hx, hy, hc0, hen]

/-- When the store gains one entry of an owner that is newer than the owner's stored
entries, the owner's listing becomes that entry followed by the previous listing. -/
theorem getHistory_append_newest (db db1 : Db) (reqUser : User) (e : History)
    (hh : db1.histories = db.histories ++ [e]) (hu : e.user = reqUser.id)
    (hclock : ∀ b ∈ db.histories, b.user = reqUser.id → b.createdAt < e.createdAt) :
    ∃ rest : List HistoryView,
      getHistory db reqUser = ⟨200, ApiBody.historyList rest.length rest⟩
        ∧ getHistory db1 reqUser
          = ⟨200, ApiBody.historyList (rest.length + 1) (e.view :: rest)⟩ := by
  refine ⟨_, rfl, ?_⟩
  have hfil : History.findByUser db1 reqUser.id = History.findByUser db reqUser.id ++ [e] := by
    simp [History.findByUser, hh, List.filter_append, hu]
  have hnew : ∀ b ∈ History.findByUser db reqUser.id,
      History.createdAt b < History.createdAt e := by
    intro b hb
    have hb2 := List.mem_filter.mp hb
    exact hclock b hb2.1 (by simpa using hb2.2)
  simp only [getHistory]
  rw [hfil, sortNewestFirst_append_newest History.createdAt _ _ hnew]
  simp

/-- C16 (as stated, refuted): a valid record request made when the clock does not exceed
the creation time of one of the owner's stored entries (here Bob's chart of time 60, with
the clock at 50 and at 60) is answered 201, and the listing afterwards returns the stored
entry first and the new entry second. -/
theorem record_not_first_unless_newer :
    (postHistory sampleJs 50 historyDb bob salesRecord).1.status = 201
      ∧ getHistory (postHistory sampleJs 50 historyDb bob salesRecord).2 bob
        = ⟨200, ApiBody.historyList 3
            [chartC.view, ⟨7, "sales.xlsx", "Name", "Salary", "Bar", 50⟩, chartA.view]⟩
      ∧ (postHistory sampleJs 60 historyDb bob salesRecord).1.status = 201
      ∧ getHistory (postHistory sampleJs 60 historyDb bob salesRecord).2 bob
        = ⟨200, ApiBody.historyList 3
            [chartC.view, ⟨7, "sales.xlsx", "Name", "Salary", "Bar", 60⟩, chartA.view]⟩ := by
  decide

/-- C16 (amended): for a record request whose `fileName`, `xAxis` and `yAxis` are non-empty strings
and whose `chartType` is `Bar`, `Line` or `Pie`, made at a time later than the creation
times of the owner's stored entries: the request is answered 201, and listing the owner's
history afterwards returns the new entry, with the same four fields, as the first element,
followed by the listing as it was before. -/
theorem record_then_list (js : JsRuntime) (now : Nat) (db : Db) (reqUser : User)
    (f x y c : String)
    (hf : f ≠ "") (hx : x ≠ "") (hy : y ≠ "")
    (hc : c = "Bar" ∨ c = "Line" ∨ c = "Pie")
    (hclock : ∀ e ∈ db.histories, e.user = reqUser.id → e.createdAt < now) :
    (postHistory js now db reqUser
        ⟨JsVal.str f, JsVal.str x, JsVal.str y, JsVal.str c⟩).1.status = 201
      ∧ ∃ rest : List HistoryView,
          getHistory db reqUser = ⟨200, ApiBody.historyList rest.length rest⟩
          ∧ getHistory (postHistory js now db reqUser
              ⟨JsVal.str f, JsVal.str x, JsVal.str y, JsVal.str c⟩).2 reqUser
            = ⟨200, ApiBody.historyList (rest.length + 1)
                (⟨db.nextId, f, x, y, c, now⟩ :: rest)⟩ := by
  rw [postHistory_valid js now db reqUser f x y c hf hx hy hc]
  refine ⟨rfl, ?_⟩
  obtain ⟨rest, hbefore, hafter⟩ := getHistory_append_newest db
    { db with histories := db.histories ++ [⟨db.nextId, reqUser.id, f, x, y, c, now⟩],
              nextId := db.nextId + 1 }
    reqUser ⟨db.nextId, reqUser.id, f, x, y, c, now⟩ rfl rfl hclock
  exact ⟨rest, hbefore, hafter⟩

/-- Witness for C16: Bob records a chart at time 100, after his charts of times 40 and
60. -/
theorem record_then_list_witness :
    (∀ e ∈ historyDb.histories, e.user = bob.id → e.createdAt < 100)
      ∧ (postHistory sampleJs 100 historyDb bob salesRecord).1.status = 201
      ∧ getHistory (postHistory sampleJs 100 historyDb bob salesRecord).2 bob
        = ⟨200, ApiBody.historyList 3
            [⟨7, "sales.xlsx", "Name", "Salary", "Bar", 100⟩, chartC.view, chartA.view]⟩ :=
  have h := record_then_list sampleJs 100 historyDb bob "sales.xlsx" "Name" "Salary" "Bar"
    (by decide) (by decide) (by decide) (Or.inl rfl) (by decide)
  ⟨by decide, h.1, by decide⟩

/-! ## Uploads and the history ledger -/

/-- C17 (as stated, refuted): Bob has no history entry; an upload through the
`uploadExcel` controller stores one (chart type `Bar`, axes from the first two column
names), so after one record call his listing holds two entries. -/
theorem uploadExcel_appends_history :
    History.findByUser sampleDb bob.id = []
      ∧ (uploadExcel sampleJs sampleReadSheet 90 sampleDb bob (some salesFile)).response.status
        = 200
      ∧ (uploadExcel sampleJs sampleReadSheet 90 sampleDb bob (some salesFile)).db.histories
        = [⟨5, 2, "sales.xlsx", "Name", "Salary", "Bar", 90⟩]
      ∧ getHistory (postHistory sampleJs 100
            (uploadExcel sampleJs sampleReadSheet 90 sampleDb bob (some salesFile)).db bob
            salesRecord).2 bob
        = ⟨200, ApiBody.historyList 2
            [⟨6, "sales.xlsx", "Name", "Salary", "Bar", 100⟩,
             ⟨5, "sales.xlsx", "Name", "Salary", "Bar", 90⟩]⟩ := by
  decide

/-- C17 (amended): the handler of `POST /api/upload/excel` leaves the store unchanged on
every request (file or no file, readable or not); so for an account with no stored entry,
an upload through that handler followed by one valid record call makes the listing return
exactly one entry, which carries the recorded `fileName`, `xAxis`, `yAxis` and
`chartType`. -/
theorem postExcel_then_record (js : JsRuntime)
    (readSheet : String → Except String (List (List (String × Cell))))
    (now : Nat) (db : Db) (reqUser : User) (file : Option UploadedFile) (f x y c : String)
    (hf : f ≠ "") (hx : x ≠ "") (hy : y ≠ "")
    (hc : c = "Bar" ∨ c = "Line" ∨ c = "Pie")
    (hnone : History.findByUser db reqUser.id = []) :
    (postExcel readSheet db reqUser file).db = db
      ∧ getHistory (postHistory js now (postExcel readSheet db reqUser file).db reqUser
          ⟨JsVal.str f, JsVal.str x, JsVal.str y, JsVal.str c⟩).2 reqUser
        = ⟨200, ApiBody.historyList 1 [⟨db.nextId, f, x, y, c, now⟩]⟩ := by
  have hdb : (postExcel readSheet db reqUser file).db = db := by
    unfold postExcel processExcel
    cases file with
    | none => rfl
    | some fl =>
      cases hr : readSheet fl.path <;> simp [hr]
  refine ⟨hdb, ?_⟩
  rw [hdb]
  have hclock : ∀ e ∈ db.histories, e.user = reqUser.id → e.createdAt < now := by
    intro e he hu
    have : e ∈ History.findByUser db reqUser.id :=
      List.mem_filter.mpr ⟨he, by simpa using hu⟩
    rw [hnone] at this
    exact absurd this (List.not_mem_nil e)
  rw [postHistory_valid js now db reqUser f x y c hf hx hy hc]
  obtain ⟨rest, hbefore, hafter⟩ := getHistory_append_newest db
    { db with histories := db.histories ++ [⟨db.nextId, reqUser.id, f, x, y, c, now⟩],
              nextId := db.nextId + 1 }
    reqUser ⟨db.nextId, reqUser.id, f, x, y, c, now⟩ rfl rfl hclock
  have hrest : rest = [] := by
    simp only [getHistory, hnone] at hbefore
    have := congrArg ApiResponse.body hbefore
    simp [sortNewestFirst] at this
    exact this.2
  subst hrest
  exact hafter

/-- Witness for C17 (amended): Bob uploads `sales.xlsx` through the route handler and
records one chart. -/
theorem postExcel_then_record_witness :
    History.findByUser sampleDb bob.id = []
      ∧ (postExcel sampleReadSheet sampleDb bob (some salesFile)).response.status = 200
      ∧ (postExcel sampleReadSheet sampleDb bob (some salesFile)).db = sampleDb
      ∧ getHistory (postHistory sampleJs 100 (postExcel sampleReadSheet sampleDb bob
          (some salesFile)).db bob
          ⟨JsVal.str "sales.xlsx", JsVal.str "Name", JsVal.str "Salary", JsVal.str "Bar"⟩).2 bob
        = ⟨200, ApiBody.historyList 1 [⟨4, "sales.xlsx", "Name", "Salary", "Bar", 100⟩]⟩ :=
  have h := postExcel_then_record sampleJs sampleReadSheet 100 sampleDb bob (some salesFile)
    "sales.xlsx" "Name" "Salary" "Bar" (by decide) (by decide) (by decide) (Or.inl rfl)
    (by decide)
  ⟨by decide, by decide, h.1, h.2⟩

/-! ## Statistics: the average -/

/-- Rounding to nearest is within half a unit. -/
theorem roundHalfEven_near (num den : Nat) (hd : 0 < den) :
    2 * (roundHalfEven num den * den) ≤ 2 * num + den
      ∧ 2 * num ≤ 2 * (roundHalfEven num den * den) + den := by
  have hdm : den * (num / den) + num % den = num := Nat.div_add_mod num den
  have hr : num % den < den := Nat.mod_lt _ hd
  have h1 : (num / den + 1) * den = den * (num / den) + den := by ring
  have h0 : num / den * den = den * (num / den) := by ring
  unfold roundHalfEven
  simp only
  split_ifs <;> first | (rw [h0]; omega) | (rw [h1]; omega)

/-- The scale search returns a scale that normalises the mantissa when one exists within
the fuel. -/
theorem scaleFrom_spec (a b : Nat) :
    ∀ fuel start, 2 ^ 52 * b ≤ a * 2 ^ (start + fuel) →
      2 ^ 52 * b ≤ a * 2 ^ scaleFrom a b fuel start := by
  intro fuel
  induction fuel with
  | zero => intro start h; simpa [scaleFrom] using h
  | succ n ih =>
    intro start h
    unfold scaleFrom
    split_ifs with hc
    · exact hc
    · apply ih
      have : start + 1 + n = start + (n + 1) := by omega
      rw [this]; exact h

/-- For a positive dividend and a divisor below `2 ^ 53` the mantissa is at least
`2 ^ 52`. -/
theorem doubleScale_spec (a b : Nat) (ha : 0 < a) (hb : b < 2 ^ 53) :
    2 ^ 52 * b ≤ a * 2 ^ doubleScale a b := by
  apply scaleFrom_spec a b
  calc 2 ^ 52 * b ≤ 2 ^ 52 * 2 ^ 53 := Nat.mul_le_mul_left _ hb.le
    _ ≤ 1 * 2 ^ (0 + 106) := by norm_num
    _ ≤ a * 2 ^ (0 + 106) := Nat.mul_le_mul_right _ ha

/-- The tenths computed for `a / b` are within half a tenth of the exact quotient, in
integers: `|2 n b - 20 a| ≤ b`. -/
theorem avgTenths_near (a b : Nat) (ha : a < 2 ^ 48) (hb0 : 0 < b) (hb : b < 2 ^ 53) :
    2 * (avgUploadsPerUserTenths a b * b) ≤ 20 * a + b
      ∧ 20 * a ≤ 2 * (avgUploadsPerUserTenths a b * b) + b := by
  unfold avgUploadsPerUserTenths
  simp only [gt_iff_lt, hb0, if_true]
  by_cases ha0 : a = 0
  · subst ha0
    simp [doubleDiv, toFixed1]
  · have hapos : 0 < a := Nat.pos_of_ne_zero ha0
    simp only [doubleDiv, ha0, if_false, toFixed1]
    generalize hk : doubleScale a b = k
    have hs : 2 ^ 52 * b ≤ a * 2 ^ k := hk ▸ doubleScale_spec a b hapos hb
    generalize hP : 2 ^ k = P at hs
    have hPpos : 0 < P := hP ▸ Nat.two_pow_pos k
    obtain ⟨f1, f2⟩ := roundHalfEven_near (a * P) b hb0
    generalize roundHalfEven (a * P) b = M at f1 f2
    have hpow : 2 ^ (k + 1) = 2 * P := by rw [pow_succ, hP]; ring
    rw [hpow]
    have h2P : 0 < 2 * P := by omega
    have f3 : (20 * M + P) / (2 * P) * (2 * P) ≤ 20 * M + P := Nat.div_mul_le_self _ _
    have f4 : 20 * M + P < ((20 * M + P) / (2 * P) + 1) * (2 * P) := by
      have h := Nat.lt_div_mul_add (a := 20 * M + P) h2P
      rw [Nat.add_mul, Nat.one_mul]
      exact h
    generalize (20 * M + P) / (2 * P) = n at f3 f4
    have f5 : 16 * b < P := by
      have h48 : a * P < 2 ^ 48 * P := Nat.mul_lt_mul_of_pos_right ha hPpos
      have : 2 ^ 48 * (16 * b) < 2 ^ 48 * P := by
        calc 2 ^ 48 * (16 * b) = 2 ^ 52 * b := by ring
          _ ≤ a * P := hs
          _ < 2 ^ 48 * P := h48
      exact Nat.lt_of_mul_lt_mul_left this
    constructor
    · by_contra hcon
      push_neg at hcon
      nlinarith [Nat.mul_le_mul_right b f3, Nat.mul_le_mul_right P hcon.le]
    · by_contra hcon
      push_neg at hcon
      nlinarith [Nat.mul_le_mul_right b f4.le, Nat.mul_le_mul_right P hcon.le]

/-- C20: `GET /api/admin/stats` answers 200 with `totalUsers` and `totalUploads` equal to
the sizes of the two collections; `avgUploadsPerUser` is 0 when there is no account, and
otherwise it is a number with one decimal (a whole number of tenths) that differs from the
exact quotient `totalUploads / totalUsers` by at most 0.05. Counts are taken below
`2 ^ 48` entries and `2 ^ 53` accounts, where the double arithmetic of the code is modelled
exactly. -/
theorem getStats_avgUploadsPerUser (cal : LocalCalendar) (now : Nat) (db : Db)
    (hh : db.histories.length < 2 ^ 48) (hu : db.users.length < 2 ^ 53) :
    ∃ st : Stats, getStats cal now db = ⟨200, ApiBody.stats st⟩
      ∧ st.totalUsers = db.users.length ∧ st.totalUploads = db.histories.length
      ∧ (db.users.length = 0 → st.avgUploadsPerUserTenths = 0)
      ∧ (0 < db.users.length →
          |(st.avgUploadsPerUserTenths : ℚ) / 10
              - (db.histories.length : ℚ) / (db.users.length : ℚ)| ≤ 1 / 20) := by
  refine ⟨_, rfl, rfl, rfl, ?_, ?_⟩
  · intro h0
    simp [avgUploadsPerUserTenths, h0]
  · intro hpos
    obtain ⟨h1, h2⟩ := avgTenths_near db.histories.length db.users.length hh hpos hu
    show |(avgUploadsPerUserTenths db.histories.length db.users.length : ℚ) / 10
        - (db.histories.length : ℚ) / (db.users.length : ℚ)| ≤ 1 / 20
    generalize avgUploadsPerUserTenths db.histories.length db.users.length = n at h1 h2
    generalize db.histories.length = a at h1 h2
    generalize db.users.length = b at hpos h1 h2
    have hb : (0 : ℚ) < b := by exact_mod_cast hpos
    have q1 : (2 : ℚ) * (n * b) ≤ 20 * a + b := by exact_mod_cast h1
    have q2 : (20 : ℚ) * a ≤ 2 * (n * b) + b := by exact_mod_cast h2
    have key : (n : ℚ) / 10 - (a : ℚ) / b = (2 * (n * b) - 20 * a) / (20 * b) := by
      field_simp
      ring
    rw [key, abs_le]
    constructor
    · rw [le_div_iff₀ (by positivity)]
      linarith
    · rw [div_le_iff₀ (by positivity)]
      linarith

/-- Witness for C20: three accounts and three entries give the average 1.0. -/
theorem getStats_avgUploadsPerUser_witness :
    historyDb.histories.length < 2 ^ 48 ∧ historyDb.users.length < 2 ^ 53
      ∧ avgUploadsPerUserTenths historyDb.histories.length historyDb.users.length = 10
      ∧ ∃ st : Stats, getStats utcCalendar 1000 historyDb = ⟨200, ApiBody.stats st⟩
          ∧ st.totalUsers = historyDb.users.length
          ∧ st.totalUploads = historyDb.histories.length
          ∧ (historyDb.users.length = 0 → st.avgUploadsPerUserTenths = 0)
          ∧ (0 < historyDb.users.length →
              |(st.avgUploadsPerUserTenths : ℚ) / 10
                  - (historyDb.histories.length : ℚ) / (historyDb.users.length : ℚ)|
                ≤ 1 / 20) :=
  ⟨by decide, by decide, by decide,
    getStats_avgUploadsPerUser utcCalendar 1000 historyDb (by decide) (by decide)⟩

/-! ## Admin listings of all history entries -/

/-- The owner filled in by `populate` depends on the accounts only through their
identifier, name and email. -/
theorem populateUser_congr (db db2 : Db)
    (hu : db2.users.map (fun u => (u.id, u.name, u.email))
      = db.users.map (fun u => (u.id, u.name, u.email))) (e : History) :
    populateUser db2 e = populateUser db e := by
  have hfind : ∀ d : Db, (User.findById d e.user).map (fun u => OwnerView.mk u.id u.name u.email)
      = ((d.users.map (fun u => (u.id, u.name, u.email))).find? (fun t => t.1 == e.user)).map
          (fun t => OwnerView.mk t.1 t.2.1 t.2.2) := by
    intro d
    unfold User.findById
    rw [List.find?_map, Option.map_map]
    rfl
  unfold populateUser
  rw [hfind db2, hfind db, hu]

/-- C18: both admin listings (`GET /api/history/admin/all` and `GET /api/admin/uploads`)
return every stored history entry (a rearrangement of the collection, newest first, with
`count` equal to its size), each with its own fields and, for its owner, the identifier,
name and email of the owning account (or `null` when that account is gone). Nothing else
of the accounts reaches the listing: two stores with the same entries whose accounts agree
on identifier, name and email (and may differ in password hash, role or anything else)
produce identical listings. -/
theorem admin_listings_owner_projection (db db2 : Db)
    (hh : db2.histories = db.histories)
    (hu : db2.users.map (fun u => (u.id, u.name, u.email))
      = db.users.map (fun u => (u.id, u.name, u.email))) :
    getAllHistory db2 = getAllHistory db ∧ getUploads db2 = getUploads db
      ∧ (∃ l : List History, l.Perm db.histories
          ∧ l.Pairwise (fun a b => b.createdAt ≤ a.createdAt)
          ∧ getAllHistory db
            = ⟨200, ApiBody.allHistory db.histories.length (l.map (populateUser db))⟩
          ∧ getUploads db = ⟨200, ApiBody.uploads (l.map (populateUser db))⟩)
      ∧ ∀ e : History,
          (populateUser db e).id = e.id ∧ (populateUser db e).fileName = e.fileName
            ∧ (populateUser db e).xAxis = e.xAxis ∧ (populateUser db e).yAxis = e.yAxis
            ∧ (populateUser db e).chartType = e.chartType
            ∧ (populateUser db e).createdAt = e.createdAt
            ∧ (populateUser db e).user
              = (User.findById db e.user).map (fun u => OwnerView.mk u.id u.name u.email) := by
  have hpop : populateUser db2 = populateUser db :=
    funext (populateUser_congr db db2 hu)
  obtain ⟨hp, hs⟩ := sortNewestFirst_spec History.createdAt db.histories
  refine ⟨?_, ?_, ⟨_, hp, hs, ?_, rfl⟩, fun e => ⟨rfl, rfl, rfl, rfl, rfl, rfl, rfl⟩⟩
  · simp only [getAllHistory, hh, hpop]
  · simp only [getUploads, hh, hpop]
  · simp only [getAllHistory, List.length_map]
    rw [hp.length_eq]

/-- Witness for C18: changing password hashes, roles and statuses of the accounts of
`historyDb` changes neither listing. -/
theorem admin_listings_owner_projection_witness :
    reshuffledDb.histories = historyDb.histories
      ∧ reshuffledDb.users.map (fun u => (u.id, u.name, u.email))
        = historyDb.users.map (fun u => (u.id, u.name, u.email))
      ∧ reshuffledDb.users.map (fun u => (u.password, u.role))
        ≠ historyDb.users.map (fun u => (u.password, u.role))
      ∧ getAllHistory reshuffledDb = getAllHistory historyDb
      ∧ getUploads reshuffledDb = getUploads historyDb
      ∧ getUploads historyDb
        = ⟨200, ApiBody.uploads
            [⟨6, some ⟨2, "Bob", "bob@corp.io"⟩, "q2.xlsx", "Region", "Revenue", "Pie", 60⟩,
             ⟨5, some ⟨1, "Asha", "asha@corp.io"⟩, "ops.xlsx", "Week", "Tickets", "Line", 50⟩,
             ⟨4, some ⟨2, "Bob", "bob@corp.io"⟩, "sales.xlsx", "Name", "Salary", "Bar", 40⟩]⟩ :=
  have h := admin_listings_owner_projection historyDb reshuffledDb (by decide) (by decide)
  ⟨by decide, by decide, by decide, h.1, h.2.1, by decide⟩

/-! ## Statistics: the counts -/

/-- C21 (as stated, refuted): on the unchanged store `historyDb`, with the server in UTC,
a statistics call at time 1000 counts three entries and three accounts of the last week,
and a call at a later time counts none, because every creation time then lies before the
instant seven calendar days earlier. -/
theorem getStats_weekly_counts_move :
    getStats utcCalendar 1000 historyDb
        = ⟨200, ApiBody.stats
            { totalUsers := 3, totalUploads := 3, weeklyUploads := 3, weeklyUsers := 3
              recentUsers := [cy.recent, bob.recent, asha.recent]
              recentUploads := [populateUser historyDb chartC, populateUser historyDb chartB,
                populateUser historyDb chartA]
              avgUploadsPerUserTenths := 10 }⟩
      ∧ weekAgo utcCalendar 700000000 = 95200000
      ∧ getStats utcCalendar 700000000 historyDb
        = ⟨200, ApiBody.stats
            { totalUsers := 3, totalUploads := 3, weeklyUploads := 0, weeklyUsers := 0
              recentUsers := [cy.recent, bob.recent, asha.recent]
              recentUploads := [populateUser historyDb chartC, populateUser historyDb chartB,
                populateUser historyDb chartA]
              avgUploadsPerUserTenths := 10 }⟩ := by
  decide

/-- Filtering by two predicates that agree on the list gives lists of the same length. -/
theorem filter_length_congr {α : Type} (l : List α) (p q : α → Bool)
    (h : ∀ a ∈ l, p a = q a) : (l.filter p).length = (l.filter q).length := by
  rw [List.filter_congr h]

/-- C21 (amended): two statistics calls on the same store return the same `totalUsers` and
`totalUploads` (and the same recent lists and average) whatever the two moments are. The
weekly counts are taken from `weekAgo`, the instant that `setDate(getDate() - 7)` gives in
the server's local time: the two calls return the same `weeklyUploads` and `weeklyUsers`
when no stored creation time lies between their two `weekAgo` instants, in particular
when the two moments coincide. This holds for every local calendar. -/
theorem getStats_twice (cal : LocalCalendar) (db : Db) (now1 now2 : Nat) :
    ∃ st1 st2 : Stats,
      getStats cal now1 db = ⟨200, ApiBody.stats st1⟩
        ∧ getStats cal now2 db = ⟨200, ApiBody.stats st2⟩
        ∧ st1.totalUsers = st2.totalUsers ∧ st1.totalUploads = st2.totalUploads
        ∧ st1.recentUsers = st2.recentUsers ∧ st1.recentUploads = st2.recentUploads
        ∧ st1.avgUploadsPerUserTenths = st2.avgUploadsPerUserTenths
        ∧ ((∀ e ∈ db.histories,
              weekAgo cal now1 ≤ (e.createdAt : Int) ↔ weekAgo cal now2 ≤ (e.createdAt : Int)) →
            st1.weeklyUploads = st2.weeklyUploads)
        ∧ ((∀ u ∈ db.users,
              weekAgo cal now1 ≤ (u.createdAt : Int) ↔ weekAgo cal now2 ≤ (u.createdAt : Int)) →
            st1.weeklyUsers = st2.weeklyUsers)
        ∧ (now1 = now2 → st1 = st2) := by
  refine ⟨_, _, rfl, rfl, rfl, rfl, rfl, rfl, rfl, ?_, ?_, ?_⟩
  · intro h
    exact filter_length_congr db.histories _ _ (fun e he => by simpa using h e he)
  · intro h
    exact filter_length_congr db.users _ _ (fun u hu => by simpa using h u hu)
  · intro h
    subst h
    rfl

/-- Witness for C21 (amended): calls at times 1000 and 2000 with the server in UTC, between
whose `weekAgo` instants no creation time lies. -/
theorem getStats_twice_witness :
    (∀ e ∈ historyDb.histories,
        weekAgo utcCalendar 1000 ≤ (e.createdAt : Int)
          ↔ weekAgo utcCalendar 2000 ≤ (e.createdAt : Int))
      ∧ ∃ st1 st2 : Stats,
          getStats utcCalendar 1000 historyDb = ⟨200, ApiBody.stats st1⟩
            ∧ getStats utcCalendar 2000 historyDb = ⟨200, ApiBody.stats st2⟩
            ∧ st1.totalUsers = st2.totalUsers ∧ st1.totalUploads = st2.totalUploads
            ∧ st1.weeklyUploads = st2.weeklyUploads :=
  ⟨by decide,
    (getStats_twice utcCalendar historyDb 1000 2000).elim fun st1 h1 => h1.elim fun st2 h =>
      ⟨st1, st2, h.1, h.2.1, h.2.2.1, h.2.2.2.1, h.2.2.2.2.2.2.2.1 (by decide)⟩⟩

/-! ## Account listing: search -/

/-- C22 (defect): the route hands the search string to the database as a regular
expression. The search `a.h` lists Asha (`a`, any character, `h`), whom the client-side
`filteredUsers` does not list because neither her name nor her email contains `a.h`; and
the search `(` is not a valid expression, so the server answers 500 where the client-side
filter finds nothing. Neither result is the set of accounts that contain the search
string. -/
theorem getUsers_search_is_regex :
    getUsers sampleRegex historyDb ⟨none, none, none, none, some "a.h"⟩
        = ⟨200, UsersBody.list [asha.listRow] ⟨1, some 1, 1⟩⟩
      ∧ jsIncludes (asciiLowerCase asha.name) "a.h" = false
      ∧ jsIncludes (asciiLowerCase asha.email) "a.h" = false
      ∧ filteredUsers asciiLowerCase (historyDb.users.map User.listRow) ⟨"a.h", "", ""⟩ = []
      ∧ getUsers sampleRegex historyDb ⟨none, none, none, none, some "("⟩
        = ⟨500, UsersBody.error "Failed to fetch users"⟩
      ∧ filteredUsers asciiLowerCase (historyDb.users.map User.listRow) ⟨"(", "", ""⟩ = [] := by
  decide

/-- The server-side filter and the client-side predicate select the same accounts when
the search matcher agrees with the case-insensitive substring test on the stored names
and emails. -/
theorem matchesFilter_eq_matchesClient (re : RegexEngine) (toLowerCase : String → String)
    (db : Db) (role status : Option String) (s : String)
    (hlit : s ≠ "" → ∃ f, re.compile s = some f ∧ ∀ u ∈ db.users,
      f u.name = jsIncludes (toLowerCase u.name) (toLowerCase s)
        ∧ f u.email = jsIncludes (toLowerCase u.email) (toLowerCase s)) :
    ∃ m, searchMatcher re (some s) = some m
      ∧ ∀ u ∈ db.users, matchesFilter m role status u
          = matchesClient toLowerCase ⟨s, role.getD "", status.getD ""⟩ u.listRow := by
  have hrole : ∀ (r : Option String) (v : String),
      (!truthyStr r || some v == r) = (r.getD "" == "" || v == r.getD "") := by
    intro r v
    cases r with
    | none => simp [truthyStr]
    | some x =>
      by_cases hx : x = ""
      · simp [truthyStr, hx]
      · have h1 : (x != "") = true := by simp [hx]
        have h2 : (x == "") = false := by simp [hx]
        simp [truthyStr, h1, h2]
  by_cases hs : s = ""
  · subst hs
    refine ⟨none, by simp [searchMatcher, truthyStr], ?_⟩
    intro u _
    simp [matchesFilter, matchesClient, hrole, User.listRow]
  · obtain ⟨f, hc, hf⟩ := hlit hs
    refine ⟨some f, by simp [searchMatcher, truthyStr, hs, hc], ?_⟩
    intro u hu
    obtain ⟨h1, h2⟩ := hf u hu
    have hsb : (s == "") = false := by simp [hs]
    simp [hsb, matchesFilter, matchesClient, hrole, User.listRow, h1, h2, hs, Bool.and_comm,
      Bool.and_assoc, Bool.and_left_comm]

/-- Where the defect does not show: for a search string that the regular-expression engine
accepts and reads literally on the stored names and emails (as it does a string without
special characters), `GET /api/admin/users` selects exactly the accounts that the
client-side `filteredUsers` predicate selects for the same search, role and status:
`total` is the number of those accounts and the data are the first 20 of them, newest
first. -/
theorem getUsers_agrees_with_client (re : RegexEngine) (toLowerCase : String → String)
    (db : Db) (role status : Option String) (s : String)
    (hlit : s ≠ "" → ∃ f, re.compile s = some f ∧ ∀ u ∈ db.users,
      f u.name = jsIncludes (toLowerCase u.name) (toLowerCase s)
        ∧ f u.email = jsIncludes (toLowerCase u.email) (toLowerCase s)) :
    getUsers re db ⟨none, none, role, status, some s⟩
      = ⟨200, UsersBody.list
          (((sortNewestFirst User.createdAt
              (db.users.filter
                (fun u => matchesClient toLowerCase
                  ⟨s, role.getD "", status.getD ""⟩ u.listRow))).take
            20).map User.listRow)
          { current := 1
            pages := pagesOf (filteredUsers toLowerCase (db.users.map User.listRow)
              ⟨s, role.getD "", status.getD ""⟩).length 20
            total := (filteredUsers toLowerCase (db.users.map User.listRow)
              ⟨s, role.getD "", status.getD ""⟩).length }⟩ := by
  obtain ⟨m, hm, hsame⟩ :=
    matchesFilter_eq_matchesClient re toLowerCase db role status s hlit
  have hfil : db.users.filter (matchesFilter m role status)
      = db.users.filter
          (fun u => matchesClient toLowerCase
            ⟨s, role.getD "", status.getD ""⟩ u.listRow) :=
    List.filter_congr hsame
  have hlen : (filteredUsers toLowerCase (db.users.map User.listRow)
      ⟨s, role.getD "", status.getD ""⟩).length
      = (db.users.filter
          (fun u => matchesClient toLowerCase
            ⟨s, role.getD "", status.getD ""⟩ u.listRow)).length := by
    unfold filteredUsers
    rw [List.filter_map, List.length_map]
    rfl
  unfold getUsers
  simp only [hm, hfil, hlen]
  simp

/-- The search string `bo` finds Bob on the server and in the client. -/
theorem getUsers_agrees_with_client_example :
    getUsers sampleRegex historyDb ⟨none, none, none, none, some "bo"⟩
        = ⟨200, UsersBody.list [bob.listRow] ⟨1, some 1, 1⟩⟩
      ∧ filteredUsers asciiLowerCase (historyDb.users.map User.listRow) ⟨"bo", "", ""⟩
        = [bob.listRow] := by
  have h := getUsers_agrees_with_client sampleRegex asciiLowerCase historyDb none none "bo"
    (fun _ => ⟨fun subject => matchAnywhere [ReItem.one (ReAtom.char 'b'),
      ReItem.one (ReAtom.char 'o')] subject.data, rfl, by decide⟩)
  exact ⟨by rw [h]; decide, by decide⟩

/-! ## Account listing: pagination -/

/-- For fewer than `2 ^ 48` accounts and a positive limit below `2 ^ 53` the double
quotient has the same ceiling as the exact quotient. -/
theorem pagesOf_eq_ceil (a b : Nat) (ha : a < 2 ^ 48) (hb0 : 0 < b) (hb : b < 2 ^ 53) :
    pagesOf a b = some ((a + b - 1) / b) := by
  have hbne : b ≠ 0 := Nat.pos_iff_ne_zero.mp hb0
  unfold pagesOf
  simp only [hbne, if_false, Option.some.injEq]
  by_cases ha0 : a = 0
  · subst ha0
    have : (b - 1) / b = 0 := Nat.div_eq_of_lt (by omega)
    simp [doubleDiv, ceilDouble, this]
  · have hapos : 0 < a := Nat.pos_of_ne_zero ha0
    simp only [doubleDiv, ha0, if_false, ceilDouble]
    generalize hk : doubleScale a b = k
    have hs : 2 ^ 52 * b ≤ a * 2 ^ k := hk ▸ doubleScale_spec a b hapos hb
    generalize hP : 2 ^ k = P at hs
    have hPpos : 0 < P := hP ▸ Nat.two_pow_pos k
    obtain ⟨f1, f2⟩ := roundHalfEven_near (a * P) b hb0
    generalize roundHalfEven (a * P) b = M at f1 f2
    have f5 : 16 * b < P := by
      have h48 : a * P < 2 ^ 48 * P := Nat.mul_lt_mul_of_pos_right ha hPpos
      have : 2 ^ 48 * (16 * b) < 2 ^ 48 * P := by
        calc 2 ^ 48 * (16 * b) = 2 ^ 52 * b := by ring
          _ ≤ a * P := hs
          _ < 2 ^ 48 * P := h48
      exact Nat.lt_of_mul_lt_mul_left this
    -- the exact ceiling `c = d + 1`
    have hc1 : (a + b - 1) / b * b ≤ a + b - 1 := Nat.div_mul_le_self _ _
    have hc2 : a + b - 1 < (a + b - 1) / b * b + b := Nat.lt_div_mul_add hb0
    have hcpos : 0 < (a + b - 1) / b := Nat.div_pos (by omega) hb0
    obtain ⟨d, hd⟩ : ∃ d, (a + b - 1) / b = d + 1 := ⟨(a + b - 1) / b - 1, by omega⟩
    rw [hd] at hc1 hc2 ⊢
    have hdb : (d + 1) * b = d * b + b := by ring
    have g1 : d * b < a := by omega
    have g2 : a ≤ d * b + b := by omega
    have hi : M ≤ (d + 1) * P := by
      by_contra hcon
      push_neg at hcon
      nlinarith [Nat.mul_le_mul_right b (Nat.succ_le_of_lt hcon), Nat.mul_le_mul_right P g2]
    have hlo : d * P < M := by
      by_contra hcon
      push_neg at hcon
      nlinarith [Nat.mul_le_mul_right b hcon, Nat.mul_le_mul_right P (Nat.succ_le_of_lt g1)]
    apply Nat.div_eq_of_lt_le
    · have : (d + 1) * P = d * P + P := by ring
      omega
    · have : (d + 1 + 1) * P = (d + 1) * P + P := by ring
      omega

/-- Cutting a list into consecutive pieces of `l` elements and joining the first `k`
pieces gives its first `k * l` elements. -/
theorem join_pages_eq_take {α : Type} (L : List α) (l : Nat) :
    ∀ k, (List.range k).flatMap (fun i => (L.drop (i * l)).take l) = L.take (k * l) := by
  intro k
  induction k with
  | zero => simp
  | succ n ih =>
    rw [List.range_succ, List.flatMap_append, ih]
    simp only [List.flatMap_cons, List.flatMap_nil, List.append_nil]
    rw [Nat.succ_mul, List.take_add]

/-- The response to a request with positive `page` and `limit`: the rows at positions
`(page - 1) * limit` up to `page * limit - 1` of the matching accounts, newest first. -/
theorem getUsers_page (re : RegexEngine) (db : Db) (role status search : Option String)
    (m : Option (String → Bool)) (p l : Nat) (hp : 0 < p) (hl : 0 < l) (hl53 : l < 2 ^ 53)
    (hsize : db.users.length < 2 ^ 48) (hm : searchMatcher re search = some m) :
    getUsers re db ⟨some p, some l, role, status, search⟩
      = ⟨200, UsersBody.list
          ((((sortNewestFirst User.createdAt
              (db.users.filter (matchesFilter m role status))).drop ((p - 1) * l)).take
            l).map User.listRow)
          { current := p
            pages := some (((db.users.filter (matchesFilter m role status)).length + l - 1) / l)
            total := (db.users.filter (matchesFilter m role status)).length }⟩ := by
  have hlen : (db.users.filter (matchesFilter m role status)).length < 2 ^ 48 :=
    Nat.lt_of_le_of_lt (List.length_filter_le _ _) hsize
  unfold getUsers
  simp only [hm, Option.getD_some]
  have hp0 : ¬ (p = 0 ∧ 0 < l) := fun h => by omega
  have hl0 : l ≠ 0 := by omega
  simp only [hp0, if_false, hl0, pagesOf_eq_ceil _ l hlen hl hl53]

/-- C28: for a positive page `p` and a positive limit `l` (below `2 ^ 53`, with fewer than
`2 ^ 48` accounts, and a search that the engine accepts), `GET /api/admin/users` answers
200 with the accounts at positions `(p - 1) * l` up to `p * l - 1` of the matching
accounts sorted newest first; `pagination.total` is the number of matching accounts and
`pagination.pages` is `ceil(total / l)`; and the rows of pages `1` to `pages`, joined in
order, are the matching accounts, each once, newest first. -/
theorem getUsers_pagination (re : RegexEngine) (db : Db) (role status search : Option String)
    (m : Option (String → Bool)) (p l : Nat) (hp : 0 < p) (hl : 0 < l) (hl53 : l < 2 ^ 53)
    (hsize : db.users.length < 2 ^ 48) (hm : searchMatcher re search = some m) :
    getUsers re db ⟨some p, some l, role, status, search⟩
        = ⟨200, UsersBody.list
            ((((sortNewestFirst User.createdAt
                (db.users.filter (matchesFilter m role status))).drop ((p - 1) * l)).take
              l).map User.listRow)
            { current := p
              pages := some
                (((db.users.filter (matchesFilter m role status)).length + l - 1) / l)
              total := (db.users.filter (matchesFilter m role status)).length }⟩
      ∧ (List.range (((db.users.filter (matchesFilter m role status)).length + l - 1) / l)).flatMap
          (fun i => (getUsers re db ⟨some (i + 1), some l, role, status, search⟩).rows)
        = (sortNewestFirst User.createdAt
            (db.users.filter (matchesFilter m role status))).map User.listRow := by
  refine ⟨getUsers_page re db role status search m p l hp hl hl53 hsize hm, ?_⟩
  have hrows : (fun i => (getUsers re db ⟨some (i + 1), some l, role, status, search⟩).rows)
      = fun i => (((sortNewestFirst User.createdAt
          (db.users.filter (matchesFilter m role status))).drop (i * l)).take l).map
            User.listRow := by
    funext i
    rw [getUsers_page re db role status search m (i + 1) l (Nat.succ_pos i) hl hl53 hsize hm]
    simp [UsersResponse.rows]
  rw [hrows, ← List.map_flatMap, join_pages_eq_take]
  congr 1
  apply List.take_of_length_le
  have hperm := (sortNewestFirst_spec User.createdAt
    (db.users.filter (matchesFilter m role status))).1.length_eq
  rw [hperm]
  have := Nat.lt_div_mul_add (a := (db.users.filter (matchesFilter m role status)).length + l - 1) hl
  omega

/-- Witness for C28: the three accounts of `historyDb` in pages of two. -/
theorem getUsers_pagination_witness :
    getUsers sampleRegex historyDb ⟨some 1, some 2, none, none, none⟩
        = ⟨200, UsersBody.list [cy.listRow, bob.listRow] ⟨1, some 2, 3⟩⟩
      ∧ getUsers sampleRegex historyDb ⟨some 2, some 2, none, none, none⟩
        = ⟨200, UsersBody.list [asha.listRow] ⟨2, some 2, 3⟩⟩
      ∧ (List.range 2).flatMap
          (fun i => (getUsers sampleRegex historyDb
            ⟨some (i + 1), some 2, none, none, none⟩).rows)
        = [cy.listRow, bob.listRow, asha.listRow] := by
  have h := getUsers_pagination sampleRegex historyDb none none none none 1 2 (by decide)
    (by decide) (by decide) (by decide) rfl
  exact ⟨h.1.trans (by decide), by decide, h.2.trans (by decide)⟩

/-! ## Uploads: the stored file and the refusals of `upload.single` -/

/-- C23 (as stated, refuted): the `uploadExcel` controller starts no deletion of the
stored file, neither after a successful parse and persistence (status 200) nor after a
parse failure (status 500). -/
theorem uploadExcel_never_unlinks :
    (uploadExcel sampleJs sampleReadSheet 90 sampleDb bob (some salesFile)).response.status = 200
      ∧ (uploadExcel sampleJs sampleReadSheet 90 sampleDb bob (some salesFile)).unlinked = []
      ∧ (uploadExcel sampleJs sampleReadSheet 90 sampleDb bob (some bigUpload.file)).response.status
        = 500
      ∧ (uploadExcel sampleJs sampleReadSheet 90 sampleDb bob (some bigUpload.file)).unlinked
        = [] := by
  decide

/-- C23 (amended): the handler of `POST /api/upload/excel` starts the deletion of the
stored file, and of that file only, on each of its exits once a file was stored: after a
successful parse (status 200) and after a parse failure (status 500); it has no
persistence step, and the store is unchanged. -/
theorem postExcel_unlinks
    (readSheet : String → Except String (List (List (String × Cell))))
    (db : Db) (reqUser : User) (file : UploadedFile) :
    (postExcel readSheet db reqUser (some file)).unlinked = [file.path]
      ∧ (postExcel readSheet db reqUser (some file)).db = db
      ∧ (∀ rows, readSheet file.path = Except.ok rows →
          (postExcel readSheet db reqUser (some file)).response.status = 200)
      ∧ (∀ e, readSheet file.path = Except.error e →
          (postExcel readSheet db reqUser (some file)).response
            = ⟨500, ApiBody.plainError "Upload failed"⟩) := by
  unfold postExcel processExcel
  cases hr : readSheet file.path <;> simp [hr]

/-- Witness for C23 (amended): a stored file that the reader parses, and one that it
cannot read. -/
theorem postExcel_unlinks_witness :
    (postExcel sampleReadSheet sampleDb bob (some salesFile)).response.status = 200
      ∧ (postExcel sampleReadSheet sampleDb bob (some salesFile)).unlinked
        = ["uploads/excelFile-1.xlsx"]
      ∧ (postExcel sampleReadSheet sampleDb bob (some bigUpload.file)).response.status = 500
      ∧ (postExcel sampleReadSheet sampleDb bob (some bigUpload.file)).unlinked
        = ["uploads/excelFile-3.xlsx"] :=
  ⟨(postExcel_unlinks sampleReadSheet sampleDb bob salesFile).2.2.1 salesRows rfl,
    (postExcel_unlinks sampleReadSheet sampleDb bob salesFile).1,
    by decide, (postExcel_unlinks sampleReadSheet sampleDb bob bigUpload.file).1⟩

/-- C24 (defect): an upload of a CSV file and an upload of an Excel file of six megabytes
to `POST /api/upload/excel` are both answered 500 `Internal Server Error`, not 400 and
413; the part of the large file that was written is removed again. -/
theorem postExcelRoute_refusals_are_500 :
    fileFilter csvUpload.file.mimetype = false
      ∧ postExcelRoute sampleReadSheet sampleDb bob (some csvUpload)
        = ⟨⟨500, ApiBody.plainError "Internal Server Error"⟩, sampleDb, []⟩
      ∧ (postExcelRoute sampleReadSheet sampleDb bob (some csvUpload)).response.status ≠ 400
      ∧ fileFilter bigUpload.file.mimetype = true
      ∧ fileSizeLimit < bigUpload.file.size
      ∧ postExcelRoute sampleReadSheet sampleDb bob (some bigUpload)
        = ⟨⟨500, ApiBody.plainError "Internal Server Error"⟩, sampleDb,
            ["uploads/excelFile-3.xlsx"]⟩
      ∧ (postExcelRoute sampleReadSheet sampleDb bob (some bigUpload)).response.status
        ≠ 413 := by
  decide

/-- What the route does with a refused upload: an upload in the field `excelFile` whose
MIME type is not one of the two Excel types, or whose MIME type is allowed and whose size
reaches the limit of 5 MB, is answered by the error handler with status 500
`Internal Server Error`; the store is unchanged; the only file deletion started is that
of the part written of a file that reached the limit; and the result is the same for every
spreadsheet reader, so the parser is not invoked. -/
theorem postExcelRoute_refused
    (readSheet : String → Except String (List (List (String × Cell))))
    (db : Db) (reqUser : User) (inc : IncomingFile) (hfield : inc.fieldname = "excelFile")
    (hbad : fileFilter inc.file.mimetype = false ∨ fileSizeLimit ≤ inc.file.size) :
    postExcelRoute readSheet db reqUser (some inc)
        = ⟨⟨500, ApiBody.plainError "Internal Server Error"⟩, db,
            if fileFilter inc.file.mimetype = true then [inc.file.path] else []⟩
      ∧ ∀ other : String → Except String (List (List (String × Cell))),
          postExcelRoute other db reqUser (some inc)
            = postExcelRoute readSheet db reqUser (some inc) := by
  have key : ∀ r : String → Except String (List (List (String × Cell))),
      postExcelRoute r db reqUser (some inc)
        = ⟨⟨500, ApiBody.plainError "Internal Server Error"⟩, db,
            if fileFilter inc.file.mimetype = true then [inc.file.path] else []⟩ := by
    intro r
    unfold postExcelRoute uploadSingle
    by_cases hf : fileFilter inc.file.mimetype = true
    · have hsize : fileSizeLimit ≤ inc.file.size := by
        rcases hbad with h | h
        · rw [hf] at h; exact absurd h (by decide)
        · exact h
      simp [hfield, hf, hsize, errorHandler]
    · simp [hfield, hf, errorHandler]
  exact ⟨key readSheet, fun other => by rw [key other, key readSheet]⟩

/-- A file of exactly the limit is refused like a larger one, and a CSV file is refused
before anything is written. -/
theorem postExcelRoute_refused_example :
    postExcelRoute sampleReadSheet sampleDb bob (some limitUpload)
        = ⟨⟨500, ApiBody.plainError "Internal Server Error"⟩, sampleDb,
            ["uploads/excelFile-4.xlsx"]⟩
      ∧ postExcelRoute sampleReadSheet sampleDb bob (some csvUpload)
        = ⟨⟨500, ApiBody.plainError "Internal Server Error"⟩, sampleDb, []⟩ :=
  ⟨(postExcelRoute_refused sampleReadSheet sampleDb bob limitUpload rfl
      (Or.inr (by decide))).1.trans (by decide),
    (postExcelRoute_refused sampleReadSheet sampleDb bob csvUpload rfl
      (Or.inl (by decide))).1.trans (by decide)⟩

/-! ## The record request of the chart component -/

/-- The digits of a number are never the empty list. -/
theorem toDigitsCore_ne_nil (b : Nat) :
    ∀ fuel n ds, ds ≠ [] → Nat.toDigitsCore b fuel n ds ≠ [] := by
  intro fuel
  induction fuel with
  | zero => intro n ds h; simpa [Nat.toDigitsCore] using h
  | succ f ih =>
    intro n ds h
    unfold Nat.toDigitsCore
    simp only
    split
    · simp
    · exact ih _ _ (by simp)

/-- A natural number is printed as a non-empty string. -/
theorem natRepr_ne_empty (n : Nat) : Nat.repr n ≠ "" := by
  unfold Nat.repr Nat.toDigits
  unfold Nat.toDigitsCore
  simp only
  intro h
  have h2 := congrArg String.data h
  simp only [List.asString] at h2
  split at h2
  · simp at h2
  · exact toDigitsCore_ne_nil 10 _ _ _ (by simp) h2

/-- An integer is printed as a non-empty string. -/
theorem intToString_ne_empty (n : Int) : toString n ≠ "" := by
  cases n with
  | ofNat m => exact natRepr_ne_empty m
  | negSucc m =>
    show "-" ++ Nat.repr (m + 1) ≠ ""
    intro h
    have h2 := congrArg String.length h
    simp at h2
    exact absurd h2.1 (by decide)

/-- A truthy value that came from a cell is cast to a non-empty string. -/
theorem castString_truthy_cell (js : JsRuntime) (hbig : ∀ n, js.bigNumberToString n ≠ "")
    (cell : Cell) (ht : cell.toJs.truthy = true) :
    ∃ s, castString js cell.toJs = Except.ok (some s) ∧ s ≠ "" := by
  cases cell with
  | text s =>
    refine ⟨s, rfl, ?_⟩
    simpa [Cell.toJs, JsVal.truthy] using ht
  | number n =>
    refine ⟨numberToString js n, rfl, ?_⟩
    unfold numberToString
    split
    · exact intToString_ne_empty n
    · exact hbig n
  | boolean b =>
    have hb : b = true := by simpa [Cell.toJs, JsVal.truthy] using ht
    subst hb
    exact ⟨"true", rfl, by decide⟩

/-- C27 (defect): `3D` is one of the chart types offered by the component; with valid axes
chosen the component posts a record request with `chartType: "3D"`, which
`POST /api/history` answers 500 without storing anything, while the same request with
`chartType: "Bar"` is answered 201. -/
theorem saveHistory_3D_rejected :
    chartTypeOptions = ["Bar", "Line", "Pie", "3D"]
      ∧ isReady salesRows "Name" "Salary" = true
      ∧ saveHistoryBody salesRows "Name" "Salary" "3D"
        = some ⟨JsVal.str "uploaded_file.xlsx", JsVal.str "Name", JsVal.str "Salary",
            JsVal.str "3D"⟩
      ∧ postHistory sampleJs 100 sampleDb bob
          ⟨JsVal.str "uploaded_file.xlsx", JsVal.str "Name", JsVal.str "Salary",
            JsVal.str "3D"⟩
        = (⟨500, ApiBody.error "Failed to save history"⟩, sampleDb)
      ∧ (postHistory sampleJs 100 sampleDb bob
          ⟨JsVal.str "uploaded_file.xlsx", JsVal.str "Name", JsVal.str "Salary",
            JsVal.str "Bar"⟩).1.status = 201 := by
  decide

/-- Where the defect does not show: for the chart types `Bar`, `Line` and `Pie`, whenever
the component is ready (data present, both axes chosen among the columns of the first
row) it posts a record request that `POST /api/history` answers 201, appending exactly
one entry, which carries the chosen chart type and axes and the requesting account. The
hypothesis on the runtime says that no number is printed as the empty text. -/
theorem saveHistory_accepted (js : JsRuntime) (hbig : ∀ n, js.bigNumberToString n ≠ "")
    (data : List (List (String × Cell))) (xKey yKey chartType : String)
    (now : Nat) (db : Db) (reqUser : User)
    (hready : isReady data xKey yKey = true)
    (htype : chartType = "Bar" ∨ chartType = "Line" ∨ chartType = "Pie") :
    ∃ body e, saveHistoryBody data xKey yKey chartType = some body
      ∧ (postHistory js now db reqUser body).1
        = ⟨201, ApiBody.historySaved "History saved successfully" e⟩
      ∧ (postHistory js now db reqUser body).2.histories = db.histories ++ [e]
      ∧ (postHistory js now db reqUser body).2.users = db.users
      ∧ e.user = reqUser.id ∧ e.chartType = chartType ∧ e.xAxis = xKey ∧ e.yAxis = yKey
      ∧ e.fileName ≠ "" ∧ e.createdAt = now := by
  have hr := hready
  simp only [isReady, Bool.and_eq_true, bne_iff_ne, ne_eq, decide_eq_true_eq] at hr
  obtain ⟨⟨⟨⟨_, hx⟩, hy⟩, _⟩, _⟩ := hr
  have hc0 : chartType ≠ "" := by rcases htype with h | h | h <;> rw [h] <;> decide
  have hen : (chartType = "Bar" ∨ chartType = "Line") ∨ chartType = "Pie" :=
    or_assoc.mpr htype
  -- the file name posted is cast to a non-empty string
  obtain ⟨fileName, hbody, f, hcast, hf0, htruthy⟩ :
      ∃ fileName, saveHistoryBody data xKey yKey chartType
          = some ⟨fileName, JsVal.str xKey, JsVal.str yKey, JsVal.str chartType⟩
        ∧ ∃ f, castString js fileName = Except.ok (some f) ∧ f ≠ "" ∧ fileName.truthy = true := by
    unfold saveHistoryBody
    simp only [hready, Bool.not_true, Bool.false_eq_true, if_false]
    cases hcell : data.head?.bind (fun row => row.lookup "__filename") with
    | none =>
      exact ⟨JsVal.str "uploaded_file.xlsx", by simp [JsVal.truthy],
        "uploaded_file.xlsx", rfl, by decide, by decide⟩
    | some cell =>
      by_cases ht : cell.toJs.truthy = true
      · obtain ⟨s, hs, hs0⟩ := castString_truthy_cell js hbig cell ht
        exact ⟨cell.toJs, by simp [ht], s, hs, hs0, ht⟩
      · exact ⟨JsVal.str "uploaded_file.xlsx", by simp [ht],
          "uploaded_file.xlsx", rfl, by decide, by decide⟩
  have hxt : (JsVal.str xKey).truthy = true := by simp [JsVal.truthy, hx]
  have hyt : (JsVal.str yKey).truthy = true := by simp [JsVal.truthy, hy]
  have hct : (JsVal.str chartType).truthy = true := by simp [JsVal.truthy, hc0]
  have hpost : postHistory js now db reqUser
        ⟨fileName, JsVal.str xKey, JsVal.str yKey, JsVal.str chartType⟩
      = (⟨201, ApiBody.historySaved "History saved successfully"
            ⟨db.nextId, reqUser.id, f, xKey, yKey, chartType, now⟩⟩,
          { db with histories := db.histories ++ [⟨db.nextId, reqUser.id, f, xKey, yKey,
                      chartType, now⟩],
                    nextId := db.nextId + 1 }) := by
    have hcx : castString js (JsVal.str xKey) = Except.ok (some xKey) := rfl
    have hcy : castString js (JsVal.str yKey) = Except.ok (some yKey) := rfl
    have hcc : castString js (JsVal.str chartType) = Except.ok (some chartType) := rfl
    unfold postHistory History.create
    simp [htruthy, hxt, hyt, hct, hcast, hcx, hcy, hcc, requiredString, hf0, hx, hy, hc0, hen]
  refine ⟨_, ⟨db.nextId, reqUser.id, f, xKey, yKey, chartType, now⟩, hbody, ?_, ?_, ?_,
    rfl, rfl, rfl, rfl, hf0, rfl⟩ <;> rw [hpost]

/-- A bar chart of `Salary` by `Name` is recorded. -/
theorem saveHistory_accepted_example :
    isReady salesRows "Name" "Salary" = true
      ∧ ∃ body e, saveHistoryBody salesRows "Name" "Salary" "Bar" = some body
          ∧ (postHistory sampleJs 100 sampleDb bob body).1
            = ⟨201, ApiBody.historySaved "History saved successfully" e⟩
          ∧ (postHistory sampleJs 100 sampleDb bob body).2.histories
            = sampleDb.histories ++ [e]
          ∧ e.chartType = "Bar" :=
  ⟨by decide,
    (saveHistory_accepted sampleJs (fun _ => (by decide : "NaN" ≠ "")) salesRows "Name"
      "Salary" "Bar" 100 sampleDb bob (by decide)
      (Or.inl rfl)).elim fun body h => h.elim fun e he =>
        ⟨body, e, he.1, he.2.1, he.2.2.1, he.2.2.2.2.2.1⟩⟩

/-! ## The bars of the 3D chart -/

/-- The fold `Math.max` is at least its start value and at least every element. -/
theorem foldl_max_bounds : ∀ (vs : List Int) (a : Int),
    a ≤ vs.foldl max a ∧ ∀ x ∈ vs, x ≤ vs.foldl max a := by
  intro vs
  induction vs with
  | nil => intro a; exact ⟨le_refl a, fun x hx => absurd hx (List.not_mem_nil x)⟩
  | cons v t ih =>
    intro a
    obtain ⟨h1, h2⟩ := ih (max a v)
    refine ⟨le_trans (le_max_left a v) h1, ?_⟩
    intro x hx
    rcases List.mem_cons.mp hx with h | h
    · rw [h]; exact le_trans (le_max_right a v) h1
    · exact h2 x h

/-- Every value is at most `maxOf` of the list. -/
theorem le_maxOf (values : List Int) (x : Int) (hx : x ∈ values) : x ≤ maxOf values := by
  cases values with
  | nil => exact absurd hx (List.not_mem_nil x)
  | cons v vs =>
    obtain ⟨h1, h2⟩ := foldl_max_bounds vs v
    rcases List.mem_cons.mp hx with h | h
    · rw [h]; exact h1
    · exact h2 x h

/-- When the largest reading is positive, every bar has the finite height
`10 * value / max`, and a non-negative value gives a height between 0 and 10. -/
theorem createDataBars_positive_max (toNumber : String → Option Int)
    (data : List (List (String × Cell))) (xKey yKey : String)
    (hd : data ≠ []) (hx : xKey ≠ "") (hy : yKey ≠ "")
    (hmax : 0 < maxOf (data.map (fun item => numericReading toNumber (item.lookup yKey)))) :
    createDataBars toNumber data xKey yKey
        = some (data.map (fun item =>
            JsNumber.ratio (numericReading toNumber (item.lookup yKey) * 10)
              (maxOf (data.map (fun item => numericReading toNumber (item.lookup yKey))))))
      ∧ ∀ item ∈ data, 0 ≤ numericReading toNumber (item.lookup yKey) →
          0 ≤ numericReading toNumber (item.lookup yKey) * 10
            ∧ numericReading toNumber (item.lookup yKey) * 10
              ≤ 10 * maxOf (data.map (fun item => numericReading toNumber (item.lookup yKey))) := by
  constructor
  · have hlen : data.length ≠ 0 := fun h => hd (List.length_eq_zero.mp h)
    have hne : maxOf (data.map (fun item => numericReading toNumber (item.lookup yKey))) ≠ 0 :=
      ne_of_gt hmax
    unfold createDataBars
    simp [hlen, hx, hy, normalizeValue, hne, List.map_map, Function.comp_def]
  · intro item hitem h0
    have hle : numericReading toNumber (item.lookup yKey)
        ≤ maxOf (data.map (fun item => numericReading toNumber (item.lookup yKey))) :=
      le_maxOf _ _ (List.mem_map_of_mem
        (fun item => numericReading toNumber (item.lookup yKey)) hitem)
    constructor <;> omega

/-- C30 (defect): with a text column chosen as the Y column (here `Name`, on the two rows
of `sales.xlsx`), every numeric reading is 0, the maximum is 0, the division by the
maximum is the division `0 / 0`, and every bar height is `NaN`; the same happens for a
numeric column that holds only zeros. -/
theorem createDataBars_zero_max :
    salesRows ≠ []
      ∧ salesRows.map (fun item => numericReading sampleToNumber (item.lookup "Name")) = [0, 0]
      ∧ maxOf (salesRows.map (fun item => numericReading sampleToNumber (item.lookup "Name")))
        = 0
      ∧ createDataBars sampleToNumber salesRows "Salary" "Name"
        = some [JsNumber.nan, JsNumber.nan]
      ∧ createDataBars sampleToNumber [[("Name", Cell.text "Bob"), ("Salary", Cell.number 0)]]
          "Name" "Salary"
        = some [JsNumber.nan] := by
  decide

/-! ## Requests as steps on the accounts collection -/

/-- A successful `User.create` is an appending step. -/
theorem create_appends (db : Db) (now : Nat) (d : NewUser) (u : User) (db1 : Db)
    (h : User.create db now d = Except.ok (u, db1)) :
    db1.users = db.users ++ [u] ∧ db1.nextId = db.nextId + 1 ∧ u.id = db.nextId
      ∧ (∀ v ∈ db.users, v.email ≠ u.email)
      ∧ (u.passwordRequired = true → requiredString u.password = true)
      ∧ u.authProvider = d.authProvider ∧ u.password = d.password
      ∧ u.providerUID = d.providerUID := by
  unfold User.create at h
  by_cases hv : validNewUser d = true
  · cases hf : User.findOne db d.email with
    | some v => simp [hv, hf] at h
    | none =>
      simp only [hv, hf, Bool.not_true, Option.isSome_none] at h
      simp at h
      obtain ⟨hu, hdb⟩ := h
      subst hu hdb
      simp only [validNewUser, Bool.and_eq_true, Bool.or_eq_true] at hv
      obtain ⟨⟨⟨⟨_, he⟩, hcred⟩, _⟩, _⟩ := hv
      refine ⟨rfl, rfl, rfl, ?_, ?_, rfl, rfl, rfl⟩
      · intro v hvm heq
        unfold User.findOne at hf
        rw [List.find?_eq_none] at hf
        have := hf v hvm
        cases hemail : d.email with
        | none => simp [hemail, requiredString] at he
        | some e =>
          simp only [hemail, Option.getD_some] at heq
          simp [hemail, heq] at this
      · intro hreq
        simp only [User.passwordRequired, Bool.not_eq_true'] at hreq
        rcases hcred with h1 | h1
        · rw [hreq] at h1; exact absurd h1 (by decide)
        · exact h1
  · simp [hv] at h

/-- The store after `registerUser` is the old store or the result of one `User.create`. -/
theorem registerUser_db (ext : Ext) (cfg : Config) (now : Nat) (db : Db)
    (body : RegisterBody) :
    (registerUser ext cfg now db body).2 = db
      ∨ ∃ d u, User.create db now d = Except.ok (u, (registerUser ext cfg now db body).2) := by
  unfold registerUser
  cases hf : User.findOne db body.email with
  | some v => exact Or.inl rfl
  | none =>
    simp only
    split
    · exact Or.inl rfl
    · cases hp : bcryptHashArg ext body.password with
      | error e => exact Or.inl rfl
      | ok hashed =>
        simp only
        split
        · exact Or.inl rfl
        · rename_i newUser db1 hc
          exact Or.inr ⟨_, newUser, hc⟩

/-- The store after `googleAuthCallback` is the old store, the result of one `User.create`
with `authProvider: "google"` and no password, or the result of saving the account found
by email with `authProvider: "google"`. -/
theorem googleAuthCallback_db (ext : Ext) (cfg : Config) (now : Nat) (db : Db)
    (body : GoogleBody) :
    (googleAuthCallback ext cfg now db body).2 = db
      ∨ (∃ d u, d.authProvider = some "google" ∧ d.password = none ∧ d.providerUID = body.uid
          ∧ User.create db now d = Except.ok (u, (googleAuthCallback ext cfg now db body).2))
      ∨ (∃ user u2, User.findOne db body.email = some user
          ∧ (googleAuthCallback ext cfg now db body).2 = (User.save db now u2).2
          ∧ u2.id = user.id ∧ u2.email = user.email ∧ u2.authProvider = some "google") := by
  unfold googleAuthCallback
  split
  · exact Or.inl rfl
  · cases hf : User.findOne db body.email with
    | none =>
      simp only
      split
      · exact Or.inl rfl
      · rename_i user db1 hc
        exact Or.inr (Or.inl ⟨_, user, rfl, rfl, rfl, hc⟩)
    | some user =>
      simp only
      split
      · split <;> split <;>
          first
          | exact Or.inl rfl
          | exact Or.inr (Or.inr ⟨user, _, rfl, rfl, rfl, rfl, rfl⟩)
      · exact Or.inl rfl
/-- On a list with distinct ids, replacing the first document with a given id is a map. -/
theorem updateFirst_eq_map (k : Nat) (f : User → User) (l : List User)
    (hn : (l.map User.id).Nodup) :
    updateFirst (fun v => v.id == k) f l = l.map (fun v => if v.id == k then f v else v) := by
  induction l with
  | nil => rfl
  | cons a l ih =>
    simp only [List.map_cons, List.nodup_cons, List.mem_map, not_exists, not_and] at hn
    by_cases ha : (a.id == k) = true
    · simp only [updateFirst, ha, if_true, List.map_cons, List.cons.injEq, true_and]
      symm
      conv_rhs => rw [← List.map_id l]
      apply List.map_congr_left
      intro v hv
      have hne : v.id ≠ a.id := hn.1 v hv
      have hk : a.id = k := by simpa using ha
      have : (v.id == k) = false := by simp [← hk, hne]
      simp [this]
    · simp only [updateFirst, ha, List.map_cons]
      simp [ih hn.2]

/-- The store after a gated handler is the old store or the store the handler returned. -/
theorem behindAdminGate_db (ext : Ext) (now : Nat) (db : Db) (authorization : Option String)
    (handler : User → ApiResponse × Db) :
    (behindAdminGate ext now db authorization handler).db = db
      ∨ ∃ r, (behindAdminGate ext now db authorization handler).db = (handler r).2 := by
  unfold behindAdminGate
  simp only
  split
  · rename_i r _
    split
    · exact Or.inr ⟨r, rfl⟩
    · exact Or.inl rfl
  · exact Or.inl rfl

/-- Registration is a step on the accounts. -/
theorem registerUser_accounts (ext : Ext) (cfg : Config) (now : Nat) (db : Db)
    (body : RegisterBody) : AccountsStep db (registerUser ext cfg now db body).2 := by
  rcases registerUser_db ext cfg now db body with h | ⟨d, u, hc⟩
  · rw [h]; exact Or.inl ⟨rfl, rfl⟩
  · obtain ⟨h1, h2, h3, h4, h5, _⟩ := create_appends db now d u _ hc
    exact Or.inr (Or.inl ⟨u, h1, h2, h3, h4, h5⟩)

/-- A provider sign-in is a step on the accounts. -/
theorem googleAuthCallback_accounts (ext : Ext) (cfg : Config) (now : Nat) (db : Db)
    (body : GoogleBody) (hid : db.idsFresh) :
    AccountsStep db (googleAuthCallback ext cfg now db body).2 := by
  rcases googleAuthCallback_db ext cfg now db body with h | ⟨d, u, _, _, _, hc⟩
      | ⟨user, u2, hf, hs, hi, he, ha⟩
  · rw [h]; exact Or.inl ⟨rfl, rfl⟩
  · obtain ⟨h1, h2, h3, h4, h5, _⟩ := create_appends db now d u _ hc
    exact Or.inr (Or.inl ⟨u, h1, h2, h3, h4, h5⟩)
  · rw [hs]
    refine Or.inr (Or.inr (Or.inl
      ⟨fun v => if v.id == u2.id then { u2 with updatedAt := now } else v, rfl, rfl, ?_⟩))
    intro v hv
    have hmem : user ∈ db.users := List.mem_of_find?_eq_some hf
    by_cases hvid : (v.id == u2.id) = true
    · have hvu : v.id = user.id := by rw [← hi]; simpa using hvid
      have hveq : v = user := by
        have hinj := List.inj_on_of_nodup_map hid.1
        exact hinj hv hmem hvu
      simp only [hvid, if_true]
      refine ⟨by rw [hvu, hi], by rw [hveq, he], ?_⟩
      intro _ hreq
      simp [User.passwordRequired, ha, truthyStr] at hreq
    · simp only [hvid]
      exact ⟨rfl, rfl, fun h => h⟩
/-- The store after `User.findByIdAndUpdate` is a step on the accounts when the update keeps
`_id`, `email`, `password` and `authProvider`. -/
theorem findByIdAndUpdate_accounts (db : Db) (now : Nat) (id : Nat) (update : User → User)
    (hid : db.idsFresh)
    (hkeep : ∀ v, (update v).id = v.id ∧ (update v).email = v.email
      ∧ (update v).password = v.password ∧ (update v).authProvider = v.authProvider) :
    AccountsStep db (User.findByIdAndUpdate db now id update).2 := by
  unfold User.findByIdAndUpdate
  cases User.findById db id with
  | none => exact Or.inl ⟨rfl, rfl⟩
  | some u =>
    simp only
    refine Or.inr (Or.inr (Or.inl
      ⟨fun v => if v.id == id then { update v with updatedAt := now } else v,
        updateFirst_eq_map id _ db.users hid.1, rfl, ?_⟩))
    intro v _
    obtain ⟨h1, h2, h3, h4⟩ := hkeep v
    by_cases hv : (v.id == id) = true
    · simp only [hv, if_true]
      refine ⟨h1, h2, ?_⟩
      simp only [User.passwordRequired, h3, h4]
      exact fun h => h
    · simp only [hv]
      exact ⟨rfl, rfl, fun h => h⟩

/-- The handler `DELETE /api/admin/users/:id` is a step on the accounts. -/
theorem deleteUser_accounts (codec : IdCodec) (db : Db) (reqUser : User) (id : String) :
    AccountsStep db (deleteUser codec db reqUser id).2 := by
  unfold deleteUser
  split
  · exact Or.inl ⟨rfl, rfl⟩
  · split
    · exact Or.inl ⟨rfl, rfl⟩
    · rename_i oid _
      split
      · exact Or.inl ⟨rfl, rfl⟩
      · split
        · exact Or.inl ⟨rfl, rfl⟩
        · exact Or.inr (Or.inr (Or.inr ⟨oid, rfl, rfl⟩))

/-- The handler `DELETE /api/admin/uploads/:id` leaves the accounts alone. -/
theorem deleteUpload_accounts (codec : IdCodec) (db : Db) (id : String) :
    AccountsStep db (deleteUpload codec db id).2 := by
  unfold deleteUpload
  split
  · exact Or.inl ⟨rfl, rfl⟩
  · unfold History.findByIdAndDelete
    split
    · exact Or.inl ⟨rfl, rfl⟩
    · rename_i h
      simp only [Prod.mk.injEq] at h
      rw [← h.2]
      exact Or.inl ⟨rfl, rfl⟩

/-- The handler `PATCH /api/admin/users/:id/role` is a step on the accounts. -/
theorem patchUserRole_accounts (codec : IdCodec) (now : Nat) (db : Db) (reqUser : User)
    (id : String) (role : JsVal) (hid : db.idsFresh) :
    AccountsStep db (patchUserRole codec now db reqUser id role).2 := by
  unfold patchUserRole
  split
  · exact Or.inl ⟨rfl, rfl⟩
  · rename_i r _
    split
    · exact Or.inl ⟨rfl, rfl⟩
    · split
      · exact Or.inl ⟨rfl, rfl⟩
      · rename_i oid _
        have hstep := findByIdAndUpdate_accounts db now oid (fun u => { u with role := r }) hid
          (fun _ => ⟨rfl, rfl, rfl, rfl⟩)
        split
        · exact Or.inl ⟨rfl, rfl⟩
        · rename_i h
          rw [h] at hstep
          exact hstep

/-- The handler `PATCH /api/admin/users/:id/status` is a step on the accounts. -/
theorem patchUserStatus_accounts (codec : IdCodec) (now : Nat) (db : Db) (reqUser : User)
    (id : String) (status : JsVal) (hid : db.idsFresh) :
    AccountsStep db (patchUserStatus codec now db reqUser id status).2 := by
  unfold patchUserStatus
  split
  · exact Or.inl ⟨rfl, rfl⟩
  · rename_i s _
    split
    · exact Or.inl ⟨rfl, rfl⟩
    · split
      · exact Or.inl ⟨rfl, rfl⟩
      · rename_i oid _
        have hstep := findByIdAndUpdate_accounts db now oid (fun u => { u with status := s })
          hid (fun _ => ⟨rfl, rfl, rfl, rfl⟩)
        split
        · exact Or.inl ⟨rfl, rfl⟩
        · rename_i h
          rw [h] at hstep
          exact hstep

/-- Every request is a step on the accounts. -/
theorem result_accounts (ext : Ext) (cfg : Config) (codec : IdCodec) (db : Db) (op : Op)
    (hid : db.idsFresh) : AccountsStep db (op.result ext cfg codec db).db := by
  cases op with
  | register now body => exact registerUser_accounts ext cfg now db body
  | google now body => exact googleAuthCallback_accounts ext cfg now db body hid
  | adminDeleteUser now authorization id =>
    rcases behindAdminGate_db ext now db authorization
      (fun reqUser => deleteUser codec db reqUser id) with h | ⟨r, h⟩
    · show AccountsStep db (behindAdminGate _ _ _ _ _).db
      rw [h]; exact Or.inl ⟨rfl, rfl⟩
    · show AccountsStep db (behindAdminGate _ _ _ _ _).db
      rw [h]; exact deleteUser_accounts codec db r id
  | adminPatchRole now authorization id role =>
    rcases behindAdminGate_db ext now db authorization
      (fun reqUser => patchUserRole codec now db reqUser id role) with h | ⟨r, h⟩
    · show AccountsStep db (behindAdminGate _ _ _ _ _).db
      rw [h]; exact Or.inl ⟨rfl, rfl⟩
    · show AccountsStep db (behindAdminGate _ _ _ _ _).db
      rw [h]; exact patchUserRole_accounts codec now db r id role hid
  | adminPatchStatus now authorization id status =>
    rcases behindAdminGate_db ext now db authorization
      (fun reqUser => patchUserStatus codec now db reqUser id status) with h | ⟨r, h⟩
    · show AccountsStep db (behindAdminGate _ _ _ _ _).db
      rw [h]; exact Or.inl ⟨rfl, rfl⟩
    · show AccountsStep db (behindAdminGate _ _ _ _ _).db
      rw [h]; exact patchUserStatus_accounts codec now db r id status hid
  | adminDeleteUpload now authorization id =>
    rcases behindAdminGate_db ext now db authorization
      (fun _ => deleteUpload codec db id) with h | ⟨r, h⟩
    · show AccountsStep db (behindAdminGate _ _ _ _ _).db
      rw [h]; exact Or.inl ⟨rfl, rfl⟩
    · show AccountsStep db (behindAdminGate _ _ _ _ _).db
      rw [h]; exact deleteUpload_accounts codec db id

/-- A step on the accounts keeps the ids distinct and below the next id. -/
theorem step_idsFresh (db db1 : Db) (hs : AccountsStep db db1) (hid : db.idsFresh) :
    db1.idsFresh := by
  obtain ⟨hnd, hlt⟩ := hid
  rcases hs with ⟨hu, hn⟩ | ⟨u, hu, hn, hi, _, _⟩ | ⟨g, hu, hn, hg⟩ | ⟨k, hu, hn⟩
  · exact ⟨by rw [hu]; exact hnd, by rw [hu, hn]; exact hlt⟩
  · constructor
    · rw [hu, List.map_append, List.nodup_append]
      refine ⟨hnd, by simp, ?_⟩
      intro a ha hb
      simp only [List.map_cons, List.map_nil, List.mem_singleton] at hb
      obtain ⟨v, hv, rfl⟩ := List.mem_map.mp ha
      have := hlt v hv
      omega
    · intro v hv
      rw [hu, List.mem_append, List.mem_singleton] at hv
      rw [hn]
      rcases hv with hv | rfl
      · have := hlt v hv; omega
      · omega
  · have hids : db1.users.map User.id = db.users.map User.id := by
      rw [hu, List.map_map]
      apply List.map_congr_left
      intro v hv
      exact (hg v hv).1
    constructor
    · rw [hids]; exact hnd
    · intro v hv
      rw [hu] at hv
      obtain ⟨w, hw, rfl⟩ := List.mem_map.mp hv
      rw [hn, (hg w hw).1]
      exact hlt w hw
  · have hsub : List.Sublist db1.users db.users := by rw [hu]; exact List.eraseP_sublist _
    constructor
    · exact List.Nodup.sublist (List.Sublist.map User.id hsub) hnd
    · intro v hv
      rw [hn]
      exact hlt v (hsub.subset hv)

/-- A step on the accounts keeps the emails pairwise distinct. -/
theorem step_emailsDistinct (db db1 : Db) (hs : AccountsStep db db1)
    (hem : db.emailsDistinct) : db1.emailsDistinct := by
  unfold Db.emailsDistinct at *
  rcases hs with ⟨hu, _⟩ | ⟨u, hu, _, _, hfresh, _⟩ | ⟨g, hu, _, hg⟩ | ⟨k, hu, _⟩
  · rw [hu]; exact hem
  · rw [hu, List.map_append, List.nodup_append]
    refine ⟨hem, by simp, ?_⟩
    intro a ha hb
    simp only [List.map_cons, List.map_nil, List.mem_singleton] at hb
    obtain ⟨v, hv, rfl⟩ := List.mem_map.mp ha
    exact hfresh v hv hb
  · have hems : db1.users.map User.email = db.users.map User.email := by
      rw [hu, List.map_map]
      apply List.map_congr_left
      intro v hv
      exact (hg v hv).2.1
    rw [hems]; exact hem
  · have hsub : List.Sublist db1.users db.users := by rw [hu]; exact List.eraseP_sublist _
    exact List.Nodup.sublist (List.Sublist.map User.email hsub) hem

/-- A step on the accounts keeps the schema rule on `password`. -/
theorem step_credentialed (db db1 : Db) (hs : AccountsStep db db1)
    (hc : db.credentialed) : db1.credentialed := by
  unfold Db.credentialed at *
  rcases hs with ⟨hu, _⟩ | ⟨u, hu, _, _, _, hcu⟩ | ⟨g, hu, _, hg⟩ | ⟨k, hu, _⟩
  · rw [hu]; exact hc
  · intro v hv
    rw [hu, List.mem_append, List.mem_singleton] at hv
    rcases hv with hv | rfl
    · exact hc v hv
    · exact hcu
  · intro v hv
    rw [hu] at hv
    obtain ⟨w, hw, rfl⟩ := List.mem_map.mp hv
    exact (hg w hw).2.2 (hc w hw)
  · intro v hv
    rw [hu] at hv
    exact hc v ((List.eraseP_sublist _).subset hv)

/-- The three invariants of the accounts survive every sequence of requests. -/
theorem runOps_invariants (ext : Ext) (cfg : Config) (codec : IdCodec) (ops : List Op) :
    ∀ db : Db, db.idsFresh →
      (runOps ext cfg codec db ops).idsFresh
        ∧ (db.emailsDistinct → (runOps ext cfg codec db ops).emailsDistinct)
        ∧ (db.credentialed → (runOps ext cfg codec db ops).credentialed) := by
  induction ops with
  | nil => intro db hid; exact ⟨hid, fun h => h, fun h => h⟩
  | cons op ops ih =>
    intro db hid
    have hs := result_accounts ext cfg codec db op hid
    have h1 := step_idsFresh _ _ hs hid
    obtain ⟨i1, i2, i3⟩ := ih _ h1
    exact ⟨i1, fun h => i2 (step_emailsDistinct _ _ hs h),
      fun h => i3 (step_credentialed _ _ hs h)⟩
/-! ## The schema rule on `password` -/

/-- C25 (counterexample): on a store in which every account has a password hash or a
`providerUID`, a provider sign-in whose body carries no `uid` is answered with 200 and
creates an account that has neither a password hash nor a `providerUID`; the only provider
field it has is `authProvider: "google"`. -/
theorem googleAuthCallback_without_uid :
    (∀ u ∈ historyDb.users, u.password.isSome = true ∨ u.providerUID.isSome = true)
      ∧ (googleAuthCallback sampleExt sampleCfg 110 historyDb noUidSignIn).1.status = 200
      ∧ ((googleAuthCallback sampleExt sampleCfg 110 historyDb noUidSignIn).2.users.map
          (fun u => (u.email, u.password, u.providerUID, u.authProvider)))
        = [("asha@corp.io", none, some "g-1", some "google"),
           ("bob@corp.io", some "$2a$10$pw", none, none),
           ("cy@corp.io", some "$2a$10$pw", none, none),
           ("gus@corp.io", none, none, some "google")] := by
  decide

/-- C25 (amended): starting from a store whose accounts have distinct ids and obey the schema
rule, after every sequence of registrations, provider sign-ins and admin operations every
account has a non-empty password hash or a non-empty `authProvider`; and an account that
`googleAuthCallback` adds to the store has `authProvider: "google"`, no password, and as
`providerUID` whatever `uid` the body carries, which may be nothing. -/
theorem accounts_stay_credentialed (ext : Ext) (cfg : Config) (codec : IdCodec) (db : Db)
    (hid : db.idsFresh) (hc : db.credentialed) :
    (∀ ops, ∀ u ∈ (runOps ext cfg codec db ops).users,
        requiredString u.password = true ∨ truthyStr u.authProvider = true)
      ∧ (∀ now body, ∀ u ∈ (googleAuthCallback ext cfg now db body).2.users,
          (∀ v ∈ db.users, v.id ≠ u.id) →
            u.authProvider = some "google" ∧ u.password = none
              ∧ u.providerUID = body.uid) := by
  constructor
  · intro ops u hu
    have h := (runOps_invariants ext cfg codec ops db hid).2.2 hc u hu
    cases ht : truthyStr u.authProvider with
    | true => exact Or.inr rfl
    | false => exact Or.inl (h (by simp [User.passwordRequired, ht]))
  · intro now body u hu hnew
    rcases googleAuthCallback_db ext cfg now db body with h | ⟨d, w, ha, hp, hpu, hcr⟩
        | ⟨user, u2, _, hs, _, _, _⟩
    · rw [h] at hu
      exact absurd rfl (hnew u hu)
    · obtain ⟨h1, _, _, _, _, h6, h7, h8⟩ := create_appends db now d w _ hcr
      rw [h1, List.mem_append, List.mem_singleton] at hu
      rcases hu with hu | rfl
      · exact absurd rfl (hnew u hu)
      · exact ⟨h6.trans ha, h7.trans hp, h8.trans hpu⟩
    · rw [hs] at hu
      simp only [User.save, List.mem_map] at hu
      obtain ⟨v, hv, hvu⟩ := hu
      exfalso
      apply hnew v hv
      by_cases hvid : (v.id == u2.id) = true
      · simp only [hvid, if_true] at hvu
        rw [← hvu]
        simpa using hvid
      · simp only [hvid, Bool.false_eq_true, if_false] at hvu
        rw [← hvu]

/-- C25 (witness): the sample store satisfies both hypotheses. -/
theorem accounts_stay_credentialed_witness :
    historyDb.idsFresh ∧ historyDb.credentialed
      ∧ ((∀ ops, ∀ u ∈ (runOps sampleExt sampleCfg sampleCodec historyDb ops).users,
            requiredString u.password = true ∨ truthyStr u.authProvider = true)
        ∧ (∀ now body,
            ∀ u ∈ (googleAuthCallback sampleExt sampleCfg now historyDb body).2.users,
            (∀ v ∈ historyDb.users, v.id ≠ u.id) →
              u.authProvider = some "google" ∧ u.password = none
                ∧ u.providerUID = body.uid)) :=
  ⟨by unfold Db.idsFresh; decide, by unfold Db.credentialed; decide,
    accounts_stay_credentialed sampleExt sampleCfg sampleCodec historyDb
      (by unfold Db.idsFresh; decide) (by unfold Db.credentialed; decide)⟩

/-! ## Email as the identity key -/

/-- C26: starting from a store whose accounts have distinct ids below the id counter (what
the database guarantees for `_id`) and pairwise distinct emails, every sequence of requests,
registrations and provider sign-ins among them, leaves the emails pairwise distinct; and a
registration whose email is the email of a stored account is answered with 400
`User already exists` and leaves the store as it was. -/
theorem emails_stay_distinct (ext : Ext) (cfg : Config) (codec : IdCodec) (db : Db)
    (hid : db.idsFresh) (hem : db.emailsDistinct) :
    (∀ ops, (runOps ext cfg codec db ops).emailsDistinct)
      ∧ (∀ now body, ∀ u ∈ db.users, body.email = some u.email →
          registerUser ext cfg now db body
            = (⟨400, ResBody.msg "User already exists"⟩, db)) := by
  constructor
  · intro ops
    exact (runOps_invariants ext cfg codec ops db hid).2.1 hem
  · intro now body u hu he
    unfold registerUser
    cases hf : User.findOne db body.email with
    | some v => rfl
    | none =>
      exfalso
      unfold User.findOne at hf
      rw [List.find?_eq_none] at hf
      have := hf u hu
      simp [he] at this

/-- C26 (witness): the sample store satisfies both hypotheses. -/
theorem emails_stay_distinct_witness :
    historyDb.idsFresh ∧ historyDb.emailsDistinct
      ∧ ((∀ ops, (runOps sampleExt sampleCfg sampleCodec historyDb ops).emailsDistinct)
        ∧ (∀ now body, ∀ u ∈ historyDb.users, body.email = some u.email →
            registerUser sampleExt sampleCfg now historyDb body
              = (⟨400, ResBody.msg "User already exists"⟩, historyDb))) :=
  ⟨by unfold Db.idsFresh; decide, by unfold Db.emailsDistinct; decide,
    emails_stay_distinct sampleExt sampleCfg sampleCodec historyDb
      (by unfold Db.idsFresh; decide) (by unfold Db.emailsDistinct; decide)⟩

/-! ## The self-protection checks of the admin panel -/

/-- C29 (code bug): Asha is the only active admin of the sample store. Her request
`PATCH /api/admin/users/0a01/role` is refused with 400, but the same request with her id
written `0A01` passes the comparison `id === req.user.id`, is cast to her `_id`, and is
answered with 200: her role becomes `user`. The same holds for
`PATCH /api/admin/users/0A01/status`, which makes her `inactive`. After either request the
store has no active admin. -/
theorem admin_changes_own_account :
    activeAdmins historyDb = [asha]
      ∧ (adminRouterGate sampleExt 100 historyDb (some "Bearer tok-1-admin")).reqUser
          = some asha
      ∧ sampleCodec.hex asha.id = "0a01" ∧ sampleCodec.cast "0A01" = some asha.id
      ∧ (Op.result sampleExt sampleCfg sampleCodec historyDb
          (Op.adminPatchRole 100 (some "Bearer tok-1-admin") "0a01" (JsVal.str "user"))).status
          = some 400
      ∧ (Op.result sampleExt sampleCfg sampleCodec historyDb selfDemotion).status = some 200
      ∧ (User.findById (Op.result sampleExt sampleCfg sampleCodec historyDb selfDemotion).db
          asha.id).map User.role = some "user"
      ∧ activeAdmins (Op.result sampleExt sampleCfg sampleCodec historyDb selfDemotion).db = []
      ∧ (Op.result sampleExt sampleCfg sampleCodec historyDb selfDeactivation).status
          = some 200
      ∧ (User.findById
          (Op.result sampleExt sampleCfg sampleCodec historyDb selfDeactivation).db
          asha.id).map User.status = some "inactive"
      ∧ activeAdmins (Op.result sampleExt sampleCfg sampleCodec historyDb selfDeactivation).db
          = [] := by
  decide

/-- An account that the admin gate stores in `req.user` is a stored account, active and of
role `admin`, without its password hash. -/
theorem adminRouterGate_reqUser (ext : Ext) (now : Nat) (db : Db)
    (authorization : Option String) (r : User)
    (h : (adminRouterGate ext now db authorization).reqUser = some r) :
    ∃ u ∈ db.users, r = u.selectNoPassword ∧ u.status = "active" ∧ u.role = "admin" := by
  rcases resolved_or_unresolved ext now db authorization with
    ⟨token, d, u, ht, hne, hv, hu⟩ | hun
  · unfold adminRouterGate at h
    rw [authMiddleware_resolved ext _ now db authorization token d u ht hne hv hu] at h
    by_cases hs : u.status = "active"
    · by_cases hr : u.role = "admin"
      · refine ⟨u, List.mem_of_find?_eq_some hu, ?_, hs, hr⟩
        simp [hs, hr, defaultRole, JsVal.truthy, passOn] at h
        exact h.symm
      · simp [hs, hr, defaultRole, JsVal.truthy, reject] at h
    · simp [hs, reject] at h
  · obtain ⟨msg, hm⟩ := authMiddleware_unresolved ext (JsVal.str "admin") now db
      authorization hun
    unfold adminRouterGate at h
    rw [hm] at h
    simp [reject] at h

/-- With distinct ids, `User.findByIdAndUpdate` on one id keeps every account that has
another id. -/
theorem findByIdAndUpdate_keeps_others (db : Db) (now : Nat) (id : Nat)
    (update : User → User) (hid : db.idsFresh) (u : User) (hu : u ∈ db.users)
    (hne : u.id ≠ id) : u ∈ (User.findByIdAndUpdate db now id update).2.users := by
  unfold User.findByIdAndUpdate
  cases User.findById db id with
  | none => exact hu
  | some w =>
    simp only
    rw [updateFirst_eq_map id _ db.users hid.1]
    refine List.mem_map.mpr ⟨u, hu, ?_⟩
    have : (u.id == id) = false := by simp [hne]
    simp [this]

/-- When the string form of an `_id` is the only string that casts to it, each of the four
mutations of the admin panel leaves the acting admin's stored account as it was. -/
theorem admin_handlers_keep_actor (codec : IdCodec) (now : Nat) (db : Db) (r u : User)
    (id : String) (val : JsVal)
    (hcanon : ∀ s n, codec.cast s = some n → s = codec.hex n)
    (hid : db.idsFresh) (hu : u ∈ db.users) (hr : r.id = u.id) :
    u ∈ (deleteUser codec db r id).2.users
      ∧ u ∈ (patchUserRole codec now db r id val).2.users
      ∧ u ∈ (patchUserStatus codec now db r id val).2.users
      ∧ u ∈ (deleteUpload codec db id).2.users := by
  have hother : ∀ oid, id ≠ codec.hex r.id → codec.cast id = some oid → u.id ≠ oid := by
    intro oid hne hc heq
    apply hne
    rw [hr, heq]
    exact hcanon id oid hc
  refine ⟨?_, ?_, ?_, ?_⟩
  · unfold deleteUser
    split
    · exact hu
    · rename_i hne
      split
      · exact hu
      · rename_i oid hc
        split
        · exact hu
        · split
          · exact hu
          · show u ∈ db.users.eraseP (fun v => v.id == oid)
            exact (List.mem_eraseP_of_neg (by simpa using hother oid hne hc)).mpr hu
  · unfold patchUserRole
    split
    · exact hu
    · rename_i role _
      split
      · exact hu
      · rename_i hne
        split
        · exact hu
        · rename_i oid hc
          have hk := findByIdAndUpdate_keeps_others db now oid
            (fun v => { v with role := role }) hid u hu (hother oid hne hc)
          split
          · exact hu
          · rename_i h
            rw [h] at hk
            exact hk
  · unfold patchUserStatus
    split
    · exact hu
    · rename_i status _
      split
      · exact hu
      · rename_i hne
        split
        · exact hu
        · rename_i oid hc
          have hk := findByIdAndUpdate_keeps_others db now oid
            (fun v => { v with status := status }) hid u hu (hother oid hne hc)
          split
          · exact hu
          · rename_i h
            rw [h] at hk
            exact hk
  · unfold deleteUpload
    split
    · exact hu
    · unfold History.findByIdAndDelete
      split
      · exact hu
      · rename_i h
        simp only [Prod.mk.injEq] at h
        rw [← h.2]
        exact hu

/-- When the string form of an `_id` is the only string that casts to it, every request to
the admin panel that reaches its handler leaves the acting admin stored, active and of
role `admin`; so the self-protection checks fail only through a second spelling of the
acting admin's own id. -/
theorem admin_op_keeps_actor (ext : Ext) (cfg : Config) (codec : IdCodec) (db : Db)
    (now : Nat) (authorization : Option String) (id : String) (val : JsVal) (r : User)
    (hcanon : ∀ s n, codec.cast s = some n → s = codec.hex n)
    (hid : db.idsFresh)
    (hgate : (adminRouterGate ext now db authorization).reqUser = some r) :
    ∀ op ∈ [Op.adminDeleteUser now authorization id,
        Op.adminPatchRole now authorization id val,
        Op.adminPatchStatus now authorization id val,
        Op.adminDeleteUpload now authorization id],
      ∃ u ∈ (op.result ext cfg codec db).db.users,
        u.id = r.id ∧ u.role = "admin" ∧ u.status = "active" := by
  obtain ⟨u, hu, hru, hs, hrole⟩ := adminRouterGate_reqUser ext now db authorization r hgate
  have hrid : r.id = u.id := by rw [hru]; rfl
  have hdb : ∀ handler : User → ApiResponse × Db, u ∈ (handler r).2.users →
      u ∈ (behindAdminGate ext now db authorization handler).db.users := by
    intro handler hh
    unfold behindAdminGate
    simp only [hgate]
    split
    · exact hh
    · exact hu
  obtain ⟨h1, h2, h3, h4⟩ := admin_handlers_keep_actor codec now db r u id val hcanon hid hu hrid
  intro op hop
  simp only [List.mem_cons, List.mem_singleton, List.not_mem_nil, or_false] at hop
  rcases hop with rfl | rfl | rfl | rfl
  · exact ⟨u, hdb _ h1, hrid.symm, hrole, hs⟩
  · exact ⟨u, hdb _ h2, hrid.symm, hrole, hs⟩
  · exact ⟨u, hdb _ h3, hrid.symm, hrole, hs⟩
  · exact ⟨u, hdb _ h4, hrid.symm, hrole, hs⟩

end ExcelAnalytics
